import Mathlib

/-!
# billme: working-day calculator and Czech holiday provider

A shallow embedding of `internal/holidays/holidays.go` and
`internal/calculator/calculator.go`, together with a model of the part of Go's
standard `time` package those files call.

Conventions.

* Go `int` values are Lean `Int`.  The only place where the repository's own
  arithmetic can leave the 64-bit range is `workingDays -= vacationDays`; that
  subtraction is wrapped with `wrapInt64`.
* Go's `/` and `%` on `int` truncate towards zero: `Int.tdiv` and `Int.tmod`.
* `time.Time` is modelled twice.  The namespaces `time`, `holidays` and
  `calculator` work on a calendar day number (days since 0001-01-01 of the
  proleptic Gregorian calendar) plus the seconds elapsed since midnight UTC,
  with unbounded integers for years: a calendar without a range limit.  The
  namespace `go64` runs the same code over Go's own representation, a signed
  64-bit count of seconds since the year 1 read through an unsigned 64-bit
  count of seconds since the year -292277022399, with its wrap-around.  The
  two agree on the years from -292277022399 to 292277024626.
* The `for` loop of the calculator is run with fuel; the fuel handed to it is
  the number of days between the loop bounds, and two more.  On the calendar,
  and over Go's time on the years named above, the theorems show that it
  suffices; where the loop does not end, that is shown for every fuel.
* `internal/cli/cli.go`: `ParseArgs` is modelled from the point where
  `flag.Parse()` has run, as a function of the flag values, of `flag.Args()`
  and of `time.Now()`; its error is the message given to `fmt.Errorf`.
  `strconv.Atoi`, the verb `%d` of `fmt.Sprintf` and `time.Month.String` are
  modelled from the Go library.
-/

namespace time

/-- A `time.Time` in UTC: `days` counts calendar days since 0001-01-01
(proleptic Gregorian), `secs` the seconds since midnight. -/
structure Time where
  days : Int
  secs : Int
deriving DecidableEq

/-- Go's `isLeap`. -/
def isLeap (year : Int) : Bool :=
  year % 4 == 0 && (year % 100 != 0 || year % 400 == 0)

/-- Go's table `daysBefore`: `daysBefore m` is the number of days in a non-leap
year before month `m + 1` starts (`m` counted from 0). -/
def daysBefore (m : Int) : Int :=
  if m ≤ 0 then 0
  else if m = 1 then 31
  else if m = 2 then 59
  else if m = 3 then 90
  else if m = 4 then 120
  else if m = 5 then 151
  else if m = 6 then 181
  else if m = 7 then 212
  else if m = 8 then 243
  else if m = 9 then 273
  else if m = 10 then 304
  else if m = 11 then 334
  else 365

/-- Go's `daysSinceEpoch`, with 0001-01-01 as day 0: the number of days from
the epoch to 1 January of `year`, counted in 400-, 100-, 4- and 1-year
cycles. -/
def daysSinceEpoch (year : Int) : Int :=
  let y := year - 1
  let n400 := y / 400
  let y1 := y - 400 * n400
  let n100 := y1 / 100
  let y2 := y1 - 100 * n100
  let n4 := y2 / 4
  let y3 := y2 - 4 * n4
  146097 * n400 + 36524 * n100 + 1461 * n4 + 365 * y3

/-- Go's `time.Date(year, month, day, 0, 0, 0, 0, time.UTC)` on the calendar
without a range limit: the month is normalised into 1..12 by carrying into the
year (Go's `norm`), the day is added as an offset, so out-of-range days roll
over.  `go64.Date` is the same function with Go's 64-bit arithmetic. -/
def Date (year month day : Int) : Time :=
  let m := month - 1
  let y := year + m / 12
  let m0 := m % 12
  let d := daysSinceEpoch y + daysBefore m0
  let d := if isLeap y && decide (2 ≤ m0) then d + 1 else d
  ⟨d + (day - 1), 0⟩

/-- The year and the zero-based day of the year of a day number: the first
half of Go's `absDate`. -/
def yearDay (d : Int) : Int × Int :=
  let n400 := d / 146097
  let d1 := d - 146097 * n400
  let n100 := d1 / 36524
  let n100 := n100 - n100 / 4
  let d2 := d1 - 36524 * n100
  let n4 := d2 / 1461
  let d3 := d2 - 1461 * n4
  let n1 := d3 / 365
  let n1 := n1 - n1 / 4
  (400 * n400 + 100 * n100 + 4 * n4 + n1 + 1, d3 - 365 * n1)

/-- The month (1..12) and day of the month of a zero-based day of the year:
the second half of Go's `absDate`. -/
def monthDay (leap : Bool) (yday : Int) : Int × Int :=
  if leap && decide (yday = 31 + 29 - 1) then (2, 29)
  else
    let day := if leap && decide (yday > 31 + 29 - 1) then yday - 1 else yday
    let month := day / 31
    let e := daysBefore (month + 1)
    if day ≥ e then (month + 2, day - e + 1)
    else (month + 1, day - daysBefore month + 1)

/-- Go's `Time.Year`. -/
def Time.Year (t : Time) : Int := (yearDay t.days).1

/-- Go's `Time.Month`. -/
def Time.Month (t : Time) : Int :=
  (monthDay (isLeap (yearDay t.days).1) (yearDay t.days).2).1

/-- Go's `Time.Day`. -/
def Time.Day (t : Time) : Int :=
  (monthDay (isLeap (yearDay t.days).1) (yearDay t.days).2).2

/-- Go's `Time.Weekday`: 0 is Sunday, 1 Monday, ..., 6 Saturday. -/
def Time.Weekday (t : Time) : Int := (t.days + 1) % 7

/-- Go's `Time.AddDate` on the calendar without a range limit: the date is
taken apart, the offsets are added and `Date` normalises the sum; the clock is
kept.  `go64.AddDate` is the same method with Go's 64-bit arithmetic. -/
def Time.AddDate (t : Time) (years months days : Int) : Time :=
  ⟨(Date (t.Year + years) (t.Month + months) (t.Day + days)).days, t.secs⟩

/-- Go's `Time.After`. -/
def Time.After (t u : Time) : Bool :=
  decide (t.days > u.days) || (decide (t.days = u.days) && decide (t.secs > u.secs))

/-- The length of a year in days. -/
def yearLen (y : Int) : Int := if isLeap y then 366 else 365

/-- The number of days of a year before month `m` (1..12) starts. -/
def monthOffset (leap : Bool) (m : Int) : Int :=
  daysBefore (m - 1) + (if leap && decide (2 ≤ m - 1) then 1 else 0)

/-- The length of month `m` by the Gregorian rule, given whether the year is a
leap year. -/
def monthLen (leap : Bool) (m : Int) : Int :=
  if m = 2 then (if leap then 29 else 28)
  else if m = 4 ∨ m = 6 ∨ m = 9 ∨ m = 11 then 30 else 31

/-- The length of a month: 28, 29, 30 or 31 days by the Gregorian leap-year
rule. -/
def daysInMonth (year month : Int) : Int := monthLen (isLeap year) month

/-- The calendar date following the date `(y, m, d)`. -/
def nextDay (ymd : Int × Int × Int) : Int × Int × Int :=
  if ymd.2.2 < daysInMonth ymd.1 ymd.2.1 then (ymd.1, ymd.2.1, ymd.2.2 + 1)
  else if ymd.2.1 < 12 then (ymd.1, ymd.2.1 + 1, 1)
  else (ymd.1 + 1, 1, 1)

/-- The year, month and day of a time. -/
def Time.civil (t : Time) : Int × Int × Int := (t.Year, t.Month, t.Day)

/-- The year and month `time.Date` works on after carrying an out-of-range
month into the year. -/
def normYear (year month : Int) : Int := year + (month - 1) / 12

/-- The month number in 1..12 `time.Date` works on. -/
def normMonth (month : Int) : Int := (month - 1) % 12 + 1

/-- Go's `time.Sunday`. -/
def Sunday : Int := 0
/-- Go's `time.Monday`. -/
def Monday : Int := 1
/-- Go's `time.Friday`. -/
def Friday : Int := 5

end time

namespace holidays

open time

/-- The struct `Holiday`. -/
structure Holiday where
  Name : String
  Date : Time
deriving DecidableEq

/-- The arithmetic of `calculateEaster`: the month and day handed to
`time.Date`. -/
def easterMonthDay (year : Int) : Int × Int :=
  let goldenNumber := year.tmod 19
  let century := year.tdiv 100
  let yearInCentury := year.tmod 100
  let centuryLeapCorrection := century.tdiv 4
  let centuryRemainder := century.tmod 4
  let moonOrbitCorrection := (century + 8).tdiv 25
  let moonCorrectionAdjustment := (century - moonOrbitCorrection + 1).tdiv 3
  let epact := (19 * goldenNumber + century - centuryLeapCorrection
    - moonCorrectionAdjustment + 15).tmod 30
  let yearLeapCorrection := yearInCentury.tdiv 4
  let yearRemainder := yearInCentury.tmod 4
  let weekdayCorrection := (32 + 2 * centuryRemainder + 2 * yearLeapCorrection
    - epact - yearRemainder).tmod 7
  let monthCorrection := (goldenNumber + 11 * epact + 22 * weekdayCorrection).tdiv 451
  let monthAndDaySum := epact + weekdayCorrection - 7 * monthCorrection + 114
  let month := monthAndDaySum.tdiv 31
  let day := monthAndDaySum.tmod 31 + 1
  (month, day)

/-- The function `calculateEaster`. -/
def calculateEaster (year : Int) : Time :=
  Date year (easterMonthDay year).1 (easterMonthDay year).2

/-- The method `CzechHolidayProvider.getEasterMonday`. -/
def getEasterMonday (year : Int) : Holiday :=
  let easter := calculateEaster year
  let easterMonday := easter.AddDate 0 0 1
  ⟨"Velikonoční pondělí", easterMonday⟩

/-- The method `CzechHolidayProvider.GetHolidays`. -/
def GetHolidays (year : Int) : List Holiday :=
  let holidays : List Holiday := [
    ⟨"Nový rok", Date year 1 1⟩,
    ⟨"Svátek práce", Date year 5 1⟩,
    ⟨"Den vítězství", Date year 5 8⟩,
    ⟨"Den slovanských věrozvěstů Cyrila a Metoděje", Date year 7 5⟩,
    ⟨"Den upálení mistra Jana Husa", Date year 7 6⟩,
    ⟨"Den české státnosti", Date year 9 28⟩,
    ⟨"Den vzniku samostatného československého státu", Date year 10 28⟩,
    ⟨"Den boje za svobodu a demokracii", Date year 11 17⟩,
    ⟨"Štědrý den", Date year 12 24⟩,
    ⟨"1. svátek vánoční", Date year 12 25⟩,
    ⟨"2. svátek vánoční", Date year 12 26⟩]
  holidays ++ [getEasterMonday year]

/-- The interface `HolidayProvider`: its one method. -/
structure HolidayProvider where
  GetHolidays : Int → List Holiday

/-- The one implementation, `CzechHolidayProvider`. -/
def CzechHolidayProvider : HolidayProvider := ⟨GetHolidays⟩

/-- The function `GetProvider`: the country is not looked at. -/
def GetProvider (_country : String) : HolidayProvider := CzechHolidayProvider

/-- The function `IsHoliday`. -/
def IsHoliday (date : Time) : List Holiday → Bool
  | [] => false
  | holiday :: rest =>
    if holiday.Date.Year = date.Year ∧ holiday.Date.Month = date.Month
        ∧ holiday.Date.Day = date.Day then true
    else IsHoliday date rest

/-- The range and weekday checks on the Easter date of one year, as a
boolean. -/
def easterCheck (year : Int) : Bool :=
  let md := easterMonthDay year
  ((md.1 == 3 && decide (22 ≤ md.2) && decide (md.2 ≤ 31))
    || (md.1 == 4 && decide (1 ≤ md.2) && decide (md.2 ≤ 25)))
  && (calculateEaster year).Weekday == Sunday

end holidays

namespace calculator

open time holidays

/-- Two's-complement wrap-around of a Go `int` (64 bits). -/
def wrapInt64 (x : Int) : Int := (x + 2 ^ 63) % 2 ^ 64 - 2 ^ 63

/-- The `for` loop of `CountWorkingDaysWithHolidaysAndVacation`, from `day`
up to `lastDay`; `none` when the fuel runs out before the loop ends. -/
def countLoop (excludeHolidays : Bool) (holidayList : List Holiday) (lastDay : Time) :
    Nat → Time → Int → Option Int
  | 0, _, _ => none
  | fuel + 1, day, workingDays =>
    if day.After lastDay then some workingDays
    else
      let weekday := day.Weekday
      if weekday ≥ Monday ∧ weekday ≤ Friday then
        if excludeHolidays && IsHoliday day holidayList then
          countLoop excludeHolidays holidayList lastDay fuel (day.AddDate 0 0 1) workingDays
        else
          countLoop excludeHolidays holidayList lastDay fuel (day.AddDate 0 0 1)
            (workingDays + 1)
      else
        countLoop excludeHolidays holidayList lastDay fuel (day.AddDate 0 0 1) workingDays

/-- The function `CountWorkingDaysWithHolidaysAndVacation`. -/
def CountWorkingDaysWithHolidaysAndVacation (month year : Int) (country : String)
    (excludeHolidays : Bool) (vacationDays : Int) : Option Int :=
  let firstDay := Date year month 1
  let lastDay := firstDay.AddDate 0 1 (-1)
  let holidayList : List Holiday :=
    if excludeHolidays && country != "" then (GetProvider country).GetHolidays year else []
  let fuel := (lastDay.days - firstDay.days).toNat + 2
  (countLoop excludeHolidays holidayList lastDay fuel firstDay 0).map fun workingDays =>
    let workingDays := wrapInt64 (workingDays - vacationDays)
    if workingDays < 0 then 0 else workingDays

/-- The function `CountWorkingDaysWithHolidays`. -/
def CountWorkingDaysWithHolidays (month year : Int) (country : String)
    (excludeHolidays : Bool) : Option Int :=
  CountWorkingDaysWithHolidaysAndVacation month year country excludeHolidays 0

/-- The function `CountWorkingDays`. -/
def CountWorkingDays (month year : Int) : Option Int :=
  CountWorkingDaysWithHolidays month year "" false

/-- Whether the loop body counts `day`. -/
def countsDay (excludeHolidays : Bool) (holidayList : List Holiday) (day : Time) : Bool :=
  decide (day.Weekday ≥ Monday ∧ day.Weekday ≤ Friday)
    && !(excludeHolidays && IsHoliday day holidayList)

/-- The number of counted days among the `n` days starting at day number `d`. -/
def countFrom (excludeHolidays : Bool) (holidayList : List Holiday) (secs : Int) :
    Nat → Int → Int
  | 0, _ => 0
  | n + 1, d => (if countsDay excludeHolidays holidayList ⟨d, secs⟩ then 1 else 0)
      + countFrom excludeHolidays holidayList secs n (d + 1)

/-- The subtraction and clamp that end `CountWorkingDaysWithHolidaysAndVacation`. -/
def clampResult (workingDays vacationDays : Int) : Int :=
  if wrapInt64 (workingDays - vacationDays) < 0 then 0
  else wrapInt64 (workingDays - vacationDays)

/-- The working days the loop finds in the month. -/
def loopResult (month year : Int) (country : String) (excludeHolidays : Bool) : Int :=
  countFrom excludeHolidays
    (if excludeHolidays && country != "" then (GetProvider country).GetHolidays year else [])
    0 (monthLen (isLeap (normYear year month)) (normMonth month)).toNat
    (Date year month 1).days

/-- The brute-force count: the days `d` in `1..daysInMonth year month` whose
weekday is Monday to Friday. -/
def weekdaysInMonth (year month : Int) : Int :=
  (((List.range' 1 (daysInMonth year month).toNat).filter fun d : Nat =>
    decide (Monday ≤ (Date year month (d : Int)).Weekday
      ∧ (Date year month (d : Int)).Weekday ≤ Friday)).length : Nat)

end calculator

namespace time

/-- Go's table `longMonthNames`. -/
def longMonthNames : List String :=
  ["January", "February", "March", "April", "May", "June", "July", "August", "September",
    "October", "November", "December"]

/-- Go's `Month.String`: the English name of a month in 1..12, and the
placeholder `%!Month(n)`, with `n` the month read as an unsigned 64-bit number,
for any other value. -/
def MonthString (m : Int) : String :=
  if 1 ≤ m ∧ m ≤ 12 then longMonthNames.getD (m - 1).toNat ""
  else "%!Month(" ++ Nat.repr (m % 2 ^ 64).toNat ++ ")"

end time

namespace fmt

/-- Go's verb `%d` applied to an `int`: the decimal digits, after a minus sign
when the number is negative. -/
def formatD (n : Int) : String :=
  if n < 0 then "-" ++ Nat.repr n.natAbs else Nat.repr n.toNat

end fmt

namespace strconv

/-- Whether a character is one of the digits 0 to 9. -/
def isDigit (c : Char) : Bool := decide ('0' ≤ c ∧ c ≤ '9')

/-- Whether a numeral starts with a minus sign. -/
def hasMinus (s : String) : Bool := s.toList.head? == some '-'

/-- The characters of a numeral after its sign, when it has one. -/
def unsignedPart (s : String) : List Char :=
  if s.toList.head? == some '-' || s.toList.head? == some '+' then s.toList.tail
  else s.toList

/-- The number a list of decimal digits denotes. -/
def digitsValue (cs : List Char) : Nat :=
  cs.foldl (fun acc c => 10 * acc + (c.toNat - '0'.toNat)) 0

/-- A decimal integer: an optional sign `+` or `-` followed by one or more of
the digits 0 to 9. -/
def isDecimalInteger (s : String) : Bool :=
  !(unsignedPart s).isEmpty && (unsignedPart s).all isDigit

/-- The value of a decimal integer. -/
def decimalValue (s : String) : Int :=
  if hasMinus s then -(digitsValue (unsignedPart s) : Int) else (digitsValue (unsignedPart s) : Int)

/-- Go's `strconv.Atoi`: the value of a decimal integer that fits a 64-bit
`int`; `none` stands for the syntax error and for the range error. -/
def Atoi (s : String) : Option Int :=
  if isDecimalInteger s then
    if -(2 ^ 63) ≤ decimalValue s ∧ decimalValue s ≤ 2 ^ 63 - 1 then some (decimalValue s)
    else none
  else none

end strconv

namespace cli

open time

/-- The struct `Config`. -/
structure Config where
  Month : Int
  Year : Int
  Verbose : Bool
  KaChing : Bool
  InvoiceReady : Bool
  Help : Bool
  ExcludeHolidays : Bool
  VacationDays : Int
deriving DecidableEq

/-- The values `flag.Parse` leaves in the flag variables of `ParseArgs`. -/
structure Flags where
  verboseFlag : Bool
  helpFlag : Bool
  excludeHolidaysFlag : Bool
  vacationDaysFlag : Int
  kaching : Bool
  invoiceReady : Bool
deriving DecidableEq

/-- The function `ParseArgs` after `flag.Parse()`: `flags` are the parsed flag
values, `args` is `flag.Args()`, the positional arguments, and `now` is
`time.Now()`.  An error is the message handed to `fmt.Errorf`. -/
def ParseArgs (flags : Flags) (args : List String) (now : Time) : Except String Config :=
  let config : Config := {
    Month := 0, Year := 0,
    Verbose := flags.verboseFlag, KaChing := flags.kaching,
    InvoiceReady := flags.invoiceReady, Help := flags.helpFlag,
    ExcludeHolidays := flags.excludeHolidaysFlag, VacationDays := flags.vacationDaysFlag }
  if config.Help then .ok config
  else
    match args with
    | [] => .ok { config with Month := now.Month, Year := now.Year }
    | [a0] =>
      match strconv.Atoi a0 with
      | none => .error ("invalid month: " ++ a0)
      | some month =>
        if month < 1 ∨ month > 12 then .error ("invalid month: " ++ a0)
        else .ok { config with Month := month, Year := now.Year }
    | [a0, a1] =>
      match strconv.Atoi a0 with
      | none => .error ("invalid month: " ++ a0)
      | some month =>
        if month < 1 ∨ month > 12 then .error ("invalid month: " ++ a0)
        else
          match strconv.Atoi a1 with
          | none => .error ("invalid year: " ++ a1)
          | some year => .ok { config with Month := month, Year := year }
    | _ => .error "too many arguments"

/-- The function `FormatOutput`. -/
def FormatOutput (workingDays : Int) (config : Config) : String :=
  if config.InvoiceReady then fmt.formatD workingDays
  else if config.KaChing then fmt.formatD workingDays ++ " days = CHA-CHING! 🤑"
  else if config.Verbose then
    let monthName := MonthString config.Month
    monthName ++ " " ++ fmt.formatD config.Year ++ ": " ++ fmt.formatD workingDays
      ++ " billable days 💸"
  else "💰 " ++ fmt.formatD workingDays

end cli

namespace cli

/-- A `Config` with every flag off but `Verbose` and with the zero month and
year, as `&Config{Verbose: true}` builds it. -/
def verboseZeroConfig : Config :=
  { Month := 0, Year := 0, Verbose := true, KaChing := false, InvoiceReady := false,
    Help := false, ExcludeHolidays := false, VacationDays := 0 }

/-- The `Config` of the test "Invoice ready format". -/
def invoiceConfig : Config :=
  { Month := 0, Year := 0, Verbose := false, KaChing := false, InvoiceReady := true,
    Help := false, ExcludeHolidays := false, VacationDays := 0 }

/-- The `Config` of the test "Ka-ching format". -/
def kachingConfig : Config :=
  { Month := 0, Year := 0, Verbose := false, KaChing := true, InvoiceReady := false,
    Help := false, ExcludeHolidays := false, VacationDays := 0 }

/-- The `Config` of the test "Verbose format". -/
def verboseJulyConfig : Config :=
  { Month := 7, Year := 2024, Verbose := true, KaChing := false, InvoiceReady := false,
    Help := false, ExcludeHolidays := false, VacationDays := 0 }

/-- The `Config` of the test "Default format". -/
def defaultConfig : Config :=
  { Month := 0, Year := 0, Verbose := false, KaChing := false, InvoiceReady := false,
    Help := false, ExcludeHolidays := false, VacationDays := 0 }

/-- The `Config` of `TestFormatOutputPriority`, with all three format flags
set. -/
def allFormatsConfig : Config :=
  { Month := 7, Year := 2024, Verbose := true, KaChing := true, InvoiceReady := true,
    Help := false, ExcludeHolidays := false, VacationDays := 0 }

/-- The flag values when no flag is given on the command line. -/
def noFlags : Flags :=
  { verboseFlag := false, helpFlag := false, excludeHolidaysFlag := false,
    vacationDaysFlag := 0, kaching := false, invoiceReady := false }

/-- Whether `ParseArgs` returned an error. -/
def isError (r : Except String Config) : Bool :=
  match r with
  | .error _ => true
  | .ok _ => false

end cli

namespace calculator
open time holidays

/-- Whether the day with day number `d` is a day from Monday to Friday. -/
def workdayNumber (d : Int) : Bool := decide (Monday ≤ (d + 1) % 7 ∧ (d + 1) % 7 ≤ Friday)

/-- Whether day number `x` is one of the `n` days starting at day number `f`. -/
def inWindow (f : Int) (n : Nat) (x : Int) : Bool := decide (f ≤ x ∧ x < f + n)

/-- The day numbers of the holidays of a list. -/
def holidayDays (holidayList : List Holiday) : List Int := holidayList.map fun h => h.Date.days

/-- The number of entries of `GetHolidays year` whose date lies in the given
month of that year and whose weekday is Monday to Friday. -/
def weekdayHolidaysInMonth (year month : Int) : Int :=
  (((GetHolidays year).filter fun h =>
    decide (h.Date.Year = year ∧ h.Date.Month = month
      ∧ Monday ≤ h.Date.Weekday ∧ h.Date.Weekday ≤ Friday)).length : Nat)

end calculator

namespace holidays

/-- The left operands of the divisions and remainders of `calculateEaster`, in
the order of the source lines, computed as the code computes them. -/
def easterOperands (year : Int) : List Int :=
  let goldenNumber := year.tmod 19
  let century := year.tdiv 100
  let yearInCentury := year.tmod 100
  let centuryLeapCorrection := century.tdiv 4
  let centuryRemainder := century.tmod 4
  let moonOrbitCorrection := (century + 8).tdiv 25
  let moonCorrectionAdjustment := (century - moonOrbitCorrection + 1).tdiv 3
  let epact := (19 * goldenNumber + century - centuryLeapCorrection
    - moonCorrectionAdjustment + 15).tmod 30
  let yearLeapCorrection := yearInCentury.tdiv 4
  let yearRemainder := yearInCentury.tmod 4
  let weekdayCorrection := (32 + 2 * centuryRemainder + 2 * yearLeapCorrection
    - epact - yearRemainder).tmod 7
  let monthCorrection := (goldenNumber + 11 * epact + 22 * weekdayCorrection).tdiv 451
  let monthAndDaySum := epact + weekdayCorrection - 7 * monthCorrection + 114
  [year, year, year, century, century, century + 8, century - moonOrbitCorrection + 1,
    19 * goldenNumber + century - centuryLeapCorrection - moonCorrectionAdjustment + 15,
    yearInCentury, yearInCentury,
    32 + 2 * centuryRemainder + 2 * yearLeapCorrection - epact - yearRemainder,
    goldenNumber + 11 * epact + 22 * weekdayCorrection, monthAndDaySum, monthAndDaySum]

/-- The Easter formulas as the specification writes them, `div` being floor
division and `mod` the mathematical remainder: the month and the day of Easter
Sunday. -/
def meeusMonthDay (Y : Int) : Int × Int :=
  let goldenNumber := Y % 19
  let century := Y / 100
  let yearInCentury := Y % 100
  let centuryLeapCorrection := century / 4
  let centuryRemainder := century % 4
  let moonOrbitCorrection := (century + 8) / 25
  let moonCorrectionAdj := (century - moonOrbitCorrection + 1) / 3
  let epact := (19 * goldenNumber + century - centuryLeapCorrection - moonCorrectionAdj + 15) % 30
  let yearLeapCorrection := yearInCentury / 4
  let yearRemainder := yearInCentury % 4
  let weekdayCorrection := (32 + 2 * centuryRemainder + 2 * yearLeapCorrection
    - epact - yearRemainder) % 7
  let monthCorrection := (goldenNumber + 11 * epact + 22 * weekdayCorrection) / 451
  let monthAndDaySum := epact + weekdayCorrection - 7 * monthCorrection + 114
  let month := monthAndDaySum / 31
  let day := monthAndDaySum % 31 + 1
  (month, day)

end holidays

namespace calculator
open time holidays

/-- The loop of `TestCountWorkingDaysAllMonths`: `totalDays` after adding
`CountWorkingDays(month, year)` for the months 1 to 12. -/
def totalWorkingDays (year : Int) : Option Int :=
  (List.range' 1 12).foldl
    (fun totalDays month => totalDays.bind fun t =>
      (CountWorkingDays (month : Int) year).map fun days => t + days)
    (some 0)

/-- The working days the loop finds in the `k` months from month `m` on. -/
def monthsTotal (year : Int) : Nat → Int → Int
  | 0, _ => 0
  | k + 1, m => loopResult m year "" false + monthsTotal year k (m + 1)

end calculator

/-! ## The same code over Go's 64-bit time

Go keeps a `time.Time` that `time.Date` has made as a signed 64-bit count of
seconds since 1 January of the year 1, and computes dates from an unsigned
64-bit count of seconds since 1 January of the year -292277022399.  The
definitions of this part follow that arithmetic with its wrap-around; the
internal seconds count of a `Time` is `86400 * days + secs`.  On the years
from -292277022399 to 292277024626 they agree with the definitions above. -/

namespace go64

open time holidays

/-- Conversion to Go's `int64`, with two's-complement wrap-around. -/
def int64 (x : Int) : Int := (x + 2 ^ 63) % 2 ^ 64 - 2 ^ 63

/-- Conversion to Go's `uint64`. -/
def uint64 (x : Int) : Int := x % 2 ^ 64

/-- Go's constant `absoluteZeroYear`. -/
def absoluteZeroYear : Int := -292277022399

/-- Go's constant `absoluteToInternal`, `(absoluteZeroYear - 1) * 365.2425`
days in seconds. -/
def absoluteToInternal : Int := -292277022400 * 31556952

/-- Go's constant `internalToAbsolute`. -/
def internalToAbsolute : Int := 292277022400 * 31556952

/-- The internal seconds count of a time, Go's `Time.sec`. -/
def sec (t : Time) : Int := 86400 * t.days + t.secs

/-- The time with a given internal seconds count. -/
def ofSec (s : Int) : Time := ⟨s / 86400, s % 86400⟩

/-- Go's `Time.abs` for a UTC time: the seconds since the absolute epoch as a
`uint64`. -/
def abs (t : Time) : Int := uint64 (sec t + internalToAbsolute)

/-- Go's `daysSinceEpoch`: the days from the absolute epoch to 1 January of
`year`, in `uint64` arithmetic. -/
def daysSinceEpoch (year : Int) : Int :=
  let y := uint64 (year - absoluteZeroYear)
  let n := y / 400
  let y := y - 400 * n
  let d := 146097 * n
  let n := y / 100
  let y := y - 100 * n
  let d := d + 36524 * n
  let n := y / 4
  let y := y - 4 * n
  let d := d + 1461 * n
  uint64 (d + 365 * y)

/-- Go's `time.Date(year, month, day, hour, min, sec, 0, time.UTC)` with
`clock` the seconds `hour * 3600 + min * 60 + sec` of a clock reading within a
day: the month is carried into the year (`norm`), the days are counted from
the absolute epoch in `uint64`, and the result is converted to `int64` seconds
since the year 1. -/
def dateClock (year month day clock : Int) : Time :=
  let m := int64 (month - 1)
  let y := int64 (year + m / 12)
  let m0 := m % 12
  let d := daysSinceEpoch y + daysBefore m0
  let d := if isLeap y && decide (2 ≤ m0) then d + 1 else d
  let d := uint64 (d + uint64 (int64 (day - 1)))
  let a := uint64 (d * 86400 + clock)
  ofSec (int64 (int64 a + absoluteToInternal))

/-- Go's `time.Date(year, month, day, 0, 0, 0, 0, time.UTC)`. -/
def Date (year month day : Int) : Time := dateClock year month day 0

/-- The day count and the year of Go's `absDate`; the year is counted from
the absolute zero year. -/
def absYearDay (t : Time) : Int × Int :=
  let d := abs t / 86400
  ((yearDay d).1 - 1 + absoluteZeroYear, (yearDay d).2)

/-- Go's `Time.Year`. -/
def Year (t : Time) : Int := (absYearDay t).1

/-- Go's `Time.Month`. -/
def Month (t : Time) : Int := (monthDay (isLeap (absYearDay t).1) (absYearDay t).2).1

/-- Go's `Time.Day`. -/
def Day (t : Time) : Int := (monthDay (isLeap (absYearDay t).1) (absYearDay t).2).2

/-- The seconds into the day of Go's `Time.Clock`. -/
def clock (t : Time) : Int := abs t % 86400

/-- Go's `Time.Weekday`. -/
def Weekday (t : Time) : Int := uint64 (abs t + 86400) % 604800 / 86400

/-- Go's `Time.AddDate`. -/
def AddDate (t : Time) (years months days : Int) : Time :=
  dateClock (int64 (Year t + years)) (int64 (Month t + months)) (int64 (Day t + days))
    (clock t)

/-- Go's `Time.After`. -/
def After (t u : Time) : Bool := decide (sec t > sec u)

/-- The year, month and day of a time. -/
def civil (t : Time) : Int × Int × Int := (Year t, Month t, Day t)

/-- The times whose internal seconds count Go holds without wrap-around, with
the clock reading within a day: those from 1 January of the year -292277022399
on whose seconds count is below 2^63. -/
def inRange (t : Time) : Prop :=
  -106751990353932 ≤ t.days ∧ t.days ≤ 106751991167299 ∧ 0 ≤ t.secs ∧ t.secs < 86400

/-- The function `calculateEaster`. -/
def calculateEaster (year : Int) : Time :=
  Date year (easterMonthDay year).1 (easterMonthDay year).2

/-- The method `CzechHolidayProvider.getEasterMonday`. -/
def getEasterMonday (year : Int) : Holiday :=
  let easter := calculateEaster year
  let easterMonday := AddDate easter 0 0 1
  ⟨"Velikonoční pondělí", easterMonday⟩

/-- The method `CzechHolidayProvider.GetHolidays`. -/
def GetHolidays (year : Int) : List Holiday :=
  let holidays : List Holiday := [
    ⟨"Nový rok", Date year 1 1⟩,
    ⟨"Svátek práce", Date year 5 1⟩,
    ⟨"Den vítězství", Date year 5 8⟩,
    ⟨"Den slovanských věrozvěstů Cyrila a Metoděje", Date year 7 5⟩,
    ⟨"Den upálení mistra Jana Husa", Date year 7 6⟩,
    ⟨"Den české státnosti", Date year 9 28⟩,
    ⟨"Den vzniku samostatného československého státu", Date year 10 28⟩,
    ⟨"Den boje za svobodu a demokracii", Date year 11 17⟩,
    ⟨"Štědrý den", Date year 12 24⟩,
    ⟨"1. svátek vánoční", Date year 12 25⟩,
    ⟨"2. svátek vánoční", Date year 12 26⟩]
  holidays ++ [getEasterMonday year]

/-- The one implementation of `HolidayProvider`, `CzechHolidayProvider`. -/
def CzechHolidayProvider : HolidayProvider := ⟨GetHolidays⟩

/-- The function `GetProvider`: the country is not looked at. -/
def GetProvider (_country : String) : HolidayProvider := CzechHolidayProvider

/-- The function `IsHoliday`. -/
def IsHoliday (date : Time) : List Holiday → Bool
  | [] => false
  | holiday :: rest =>
    if Year holiday.Date = Year date ∧ Month holiday.Date = Month date
        ∧ Day holiday.Date = Day date then true
    else IsHoliday date rest

/-- The `for` loop of `CountWorkingDaysWithHolidaysAndVacation`; `none` when
the fuel runs out before the loop ends. -/
def countLoop (excludeHolidays : Bool) (holidayList : List Holiday) (lastDay : Time) :
    Nat → Time → Int → Option Int
  | 0, _, _ => none
  | fuel + 1, day, workingDays =>
    if After day lastDay then some workingDays
    else
      let weekday := Weekday day
      if weekday ≥ Monday ∧ weekday ≤ Friday then
        if excludeHolidays && IsHoliday day holidayList then
          countLoop excludeHolidays holidayList lastDay fuel (AddDate day 0 0 1) workingDays
        else
          countLoop excludeHolidays holidayList lastDay fuel (AddDate day 0 0 1)
            (workingDays + 1)
      else
        countLoop excludeHolidays holidayList lastDay fuel (AddDate day 0 0 1) workingDays

/-- The function `CountWorkingDaysWithHolidaysAndVacation`; the loop gets the
number of days between its bounds, and two more, as fuel. -/
def CountWorkingDaysWithHolidaysAndVacation (month year : Int) (country : String)
    (excludeHolidays : Bool) (vacationDays : Int) : Option Int :=
  let firstDay := Date year month 1
  let lastDay := AddDate firstDay 0 1 (-1)
  let holidayList : List Holiday :=
    if excludeHolidays && country != "" then (GetProvider country).GetHolidays year else []
  let fuel := (lastDay.days - firstDay.days).toNat + 2
  (countLoop excludeHolidays holidayList lastDay fuel firstDay 0).map fun workingDays =>
    let workingDays := int64 (workingDays - vacationDays)
    if workingDays < 0 then 0 else workingDays

/-- The function `CountWorkingDaysWithHolidays`. -/
def CountWorkingDaysWithHolidays (month year : Int) (country : String)
    (excludeHolidays : Bool) : Option Int :=
  CountWorkingDaysWithHolidaysAndVacation month year country excludeHolidays 0

/-- The function `CountWorkingDays`. -/
def CountWorkingDays (month year : Int) : Option Int :=
  CountWorkingDaysWithHolidays month year "" false

/-- The loop of `TestCountWorkingDaysAllMonths`: `totalDays` after adding
`CountWorkingDays(month, year)` for the months 1 to 12. -/
def totalWorkingDays (year : Int) : Option Int :=
  (List.range' 1 12).foldl
    (fun (totalDays : Option Int) (month : Nat) => totalDays.bind fun t =>
      (CountWorkingDays (month : Int) year).map fun days => t + days)
    (some 0)

end go64

/-! ## The calendar model: round trips between day numbers and dates -/

namespace time

theorem isLeap_iff (y : Int) : isLeap y = true ↔ (y % 4 = 0 ∧ (y % 100 ≠ 0 ∨ y % 400 = 0)) := by
  simp [isLeap]

theorem daysSinceEpoch_cycles (n a b c : Int) (ha : 0 ≤ a) (ha3 : a ≤ 3) (hb : 0 ≤ b)
    (hb24 : b ≤ 24) (hc : 0 ≤ c) (hc3 : c ≤ 3) :
    daysSinceEpoch (400 * n + 100 * a + 4 * b + c + 1)
      = 146097 * n + 36524 * a + 1461 * b + 365 * c := by
  have h1 : (400 * n + 100 * a + 4 * b + c + 1 - 1) / 400 = n := by omega
  have h2 : (100 * a + 4 * b + c) / 100 = a := by omega
  have h3 : (4 * b + c) / 4 = b := by omega
  simp only [daysSinceEpoch, h1]
  have e1 : 400 * n + 100 * a + 4 * b + c + 1 - 1 - 400 * n = 100 * a + 4 * b + c := by ring
  rw [e1, h2]
  have e2 : 100 * a + 4 * b + c - 100 * a = 4 * b + c := by ring
  rw [e2, h3]
  ring

theorem isLeap_cycles (n a b c : Int) (ha : 0 ≤ a) (ha3 : a ≤ 3) (hb : 0 ≤ b)
    (hb24 : b ≤ 24) (hc : 0 ≤ c) (hc3 : c ≤ 3) :
    isLeap (400 * n + 100 * a + 4 * b + c + 1) = true ↔ (c = 3 ∧ (b = 24 → a = 3)) := by
  rw [isLeap_iff]
  omega

theorem yearDay_cycles (d : Int) :
    ∃ n a b c yd : Int, 0 ≤ a ∧ a ≤ 3 ∧ 0 ≤ b ∧ b ≤ 24 ∧ 0 ≤ c ∧ c ≤ 3 ∧ 0 ≤ yd ∧ yd ≤ 365
      ∧ (yd = 365 → c = 3 ∧ (b = 24 → a = 3))
      ∧ d = 146097 * n + 36524 * a + 1461 * b + 365 * c + yd
      ∧ yearDay d = (400 * n + 100 * a + 4 * b + c + 1, yd) := by
  generalize hn : d / 146097 = n
  generalize hd1 : d - 146097 * n = d1
  generalize hq : d1 / 36524 = q
  generalize ha : q - q / 4 = a
  generalize hd2 : d1 - 36524 * a = d2
  generalize hb : d2 / 1461 = b
  generalize hd3 : d2 - 1461 * b = d3
  generalize hr : d3 / 365 = r
  generalize hc : r - r / 4 = c
  have hy : yearDay d = (400 * n + 100 * a + 4 * b + c + 1, d3 - 365 * c) := by
    simp only [yearDay, hn, hd1, hq, ha, hd2, hb, hd3, hr, hc]
  have b1 : 0 ≤ d1 ∧ d1 ≤ 146096 := by omega
  have b2 : 0 ≤ q ∧ q ≤ 4 := by omega
  have b3 : 0 ≤ a ∧ a ≤ 3 ∧ (q = 4 → a = 3) ∧ (q < 4 → a = q) := by omega
  have b4 : 0 ≤ d2 ∧ d2 ≤ 36524 ∧ (d2 = 36524 → a = 3) := by omega
  have b5 : 0 ≤ b ∧ b ≤ 24 := by omega
  have b6 : 0 ≤ d3 ∧ d3 ≤ 1460 ∧ (b = 24 → d3 = 1460 → a = 3) := by omega
  have b7 : 0 ≤ r ∧ r ≤ 4 := by omega
  have b8 : 0 ≤ c ∧ c ≤ 3 ∧ (r = 4 → c = 3) ∧ (r < 4 → c = r) := by omega
  refine ⟨n, a, b, c, d3 - 365 * c, b3.1, b3.2.1, b5.1, b5.2, b8.1, b8.2.1, ?_, ?_, ?_, ?_, hy⟩
  · omega
  · omega
  · omega
  · omega

theorem year_cycles (y : Int) :
    ∃ n a b c : Int, 0 ≤ a ∧ a ≤ 3 ∧ 0 ≤ b ∧ b ≤ 24 ∧ 0 ≤ c ∧ c ≤ 3
      ∧ y = 400 * n + 100 * a + 4 * b + c + 1 := by
  refine ⟨(y - 1) / 400, (y - 1) % 400 / 100, (y - 1) % 100 / 4, (y - 1) % 4, ?_⟩
  omega

theorem yearDay_spec (d : Int) :
    daysSinceEpoch (yearDay d).1 + (yearDay d).2 = d ∧ 0 ≤ (yearDay d).2
      ∧ (yearDay d).2 < yearLen (yearDay d).1 := by
  obtain ⟨n, a, b, c, yd, ha, ha3, hb, hb24, hc, hc3, hyd, hyd5, hl, hd, hy⟩ := yearDay_cycles d
  have hleap := isLeap_cycles n a b c ha ha3 hb hb24 hc hc3
  rw [hy]
  simp only [yearLen, daysSinceEpoch_cycles n a b c ha ha3 hb hb24 hc hc3]
  refine ⟨by omega, hyd, ?_⟩
  by_cases h : yd = 365
  · rw [if_pos (hleap.2 (hl h))]; omega
  · split <;> omega

theorem yearDay_unique (y yd : Int) (h0 : 0 ≤ yd) (h1 : yd < yearLen y) :
    yearDay (daysSinceEpoch y + yd) = (y, yd) := by
  obtain ⟨n, a, b, c, ha, ha3, hb, hb24, hc, hc3, rfl⟩ := year_cycles y
  have hleap := isLeap_cycles n a b c ha ha3 hb hb24 hc hc3
  have hl : yd = 365 → c = 3 ∧ (b = 24 → a = 3) := by
    intro h
    apply hleap.1
    by_contra hne
    simp only [yearLen, if_neg hne] at h1
    omega
  have hyd : yd ≤ 365 := by
    simp only [yearLen] at h1
    split at h1 <;> omega
  clear h1 hleap
  rw [daysSinceEpoch_cycles n a b c ha ha3 hb hb24 hc hc3]
  have w3 : 0 ≤ 365 * c + yd ∧ 365 * c + yd ≤ 1460 := by omega
  have e7 : (365 * c + yd) / 365 - (365 * c + yd) / 365 / 4 = c := by
    by_cases h : yd = 365
    · have hc3 := (hl h).1
      subst h hc3
      decide
    · have : (365 * c + yd) / 365 = c := by omega
      rw [this]; omega
  generalize hw3 : 365 * c + yd = v3 at w3 e7
  have w2 : 0 ≤ 1461 * b + v3 ∧ 1461 * b + v3 ≤ 36524
      ∧ (1461 * b + v3 = 36524 → a = 3) := by omega
  have e5 : (1461 * b + v3) / 1461 = b := by omega
  have e6 : 1461 * b + v3 - 1461 * b = v3 := by omega
  generalize hw2 : 1461 * b + v3 = v2 at w2 e5 e6
  have e3 : (36524 * a + v2) / 36524 - (36524 * a + v2) / 36524 / 4 = a := by
    by_cases h : v2 = 36524
    · have ha3 := w2.2.2 h
      subst h ha3
      decide
    · have : (36524 * a + v2) / 36524 = a := by omega
      rw [this]; omega
  have e4 : 36524 * a + v2 - 36524 * a = v2 := by omega
  have w1 : 0 ≤ 36524 * a + v2 ∧ 36524 * a + v2 ≤ 146096 := by omega
  generalize hw1 : 36524 * a + v2 = v1 at w1 e3 e4
  have e1 : (146097 * n + v1) / 146097 = n := by omega
  have e2 : 146097 * n + v1 - 146097 * n = v1 := by omega
  have hd : 146097 * n + 36524 * a + 1461 * b + 365 * c + yd = 146097 * n + v1 := by omega
  rw [hd]
  simp only [yearDay, e1, e2, e3, e4, e5, e6, e7, Prod.mk.injEq, true_and]
  omega

theorem monthDay_spec_nat : ∀ leap : Bool, ∀ n : Nat, n < 366 → (leap = true ∨ n < 365) →
    1 ≤ (monthDay leap n).1 ∧ (monthDay leap n).1 ≤ 12 ∧ 1 ≤ (monthDay leap n).2
      ∧ (monthDay leap n).2 ≤ monthLen leap (monthDay leap n).1
      ∧ monthOffset leap (monthDay leap n).1 + ((monthDay leap n).2 - 1) = n := by
  decide!

theorem monthDay_unique_nat : ∀ leap : Bool, ∀ m : Nat, m < 13 → ∀ d : Nat, d < 32 →
    (1 ≤ m ∧ 1 ≤ d ∧ (d : Int) ≤ monthLen leap m) →
    monthDay leap (monthOffset leap m + ((d : Int) - 1)) = ((m : Int), (d : Int)) := by
  decide!

theorem monthLen_le (leap : Bool) (m : Int) : monthLen leap m ≤ 31 := by
  unfold monthLen
  split_ifs <;> omega

theorem monthLen_ge (leap : Bool) (m : Int) : 28 ≤ monthLen leap m := by
  unfold monthLen
  split_ifs <;> omega

theorem monthDay_spec (leap : Bool) (yd : Int) (h0 : 0 ≤ yd) (h1 : yd < 366)
    (h2 : leap = true ∨ yd < 365) :
    1 ≤ (monthDay leap yd).1 ∧ (monthDay leap yd).1 ≤ 12 ∧ 1 ≤ (monthDay leap yd).2
      ∧ (monthDay leap yd).2 ≤ monthLen leap (monthDay leap yd).1
      ∧ monthOffset leap (monthDay leap yd).1 + ((monthDay leap yd).2 - 1) = yd := by
  obtain ⟨n, rfl⟩ := Int.eq_ofNat_of_zero_le h0
  exact monthDay_spec_nat leap n (by omega) (h2.imp id fun h => by omega)

theorem monthDay_unique (leap : Bool) (m d : Int) (hm : 1 ≤ m) (hm12 : m ≤ 12) (hd : 1 ≤ d)
    (hd2 : d ≤ monthLen leap m) :
    monthDay leap (monthOffset leap m + (d - 1)) = (m, d) := by
  obtain ⟨m, rfl⟩ := Int.eq_ofNat_of_zero_le (by omega : 0 ≤ m)
  obtain ⟨d, rfl⟩ := Int.eq_ofNat_of_zero_le (by omega : 0 ≤ d)
  have hd32 : d < 32 := by
    have := monthLen_le leap m
    omega
  exact monthDay_unique_nat leap m (by omega) d hd32 ⟨by omega, by omega, hd2⟩

theorem monthOffset_bounds (leap : Bool) (m d : Int) (hm : 1 ≤ m) (hm12 : m ≤ 12)
    (hd : 1 ≤ d) (hd2 : d ≤ monthLen leap m) :
    0 ≤ monthOffset leap m + (d - 1)
      ∧ monthOffset leap m + (d - 1) < (if leap then 366 else 365) := by
  have h := monthDay_unique leap m d hm hm12 hd hd2
  obtain ⟨m, rfl⟩ := Int.eq_ofNat_of_zero_le (by omega : 0 ≤ m)
  have hm13 : m < 13 := by omega
  have key : ∀ leap : Bool, ∀ m : Nat, m < 13 → 1 ≤ m →
      0 ≤ monthOffset leap m ∧ monthOffset leap m + monthLen leap m
        ≤ (if leap then 366 else 365) := by decide!
  have := key leap m hm13 (by omega)
  omega

theorem Date_days (y m d : Int) (hm : 1 ≤ m) (hm12 : m ≤ 12) :
    (Date y m d).days = daysSinceEpoch y + monthOffset (isLeap y) m + (d - 1) := by
  have h1 : (m - 1) / 12 = 0 := by omega
  have h2 : (m - 1) % 12 = m - 1 := by omega
  simp only [Date, monthOffset, h1, h2, add_zero]
  split <;> ring

theorem Date_secs (y m d : Int) : (Date y m d).secs = 0 := rfl

theorem Date_norm (y m d : Int) :
    Date y m d = Date (y + (m - 1) / 12) ((m - 1) % 12 + 1) d := by
  have h1 : ((m - 1) % 12 + 1 - 1) / 12 = 0 := by omega
  have h2 : ((m - 1) % 12 + 1 - 1) % 12 = (m - 1) % 12 := by omega
  simp only [Date, h1, h2, add_zero]

theorem Date_add_day (y m d k : Int) : (Date y m (d + k)).days = (Date y m d).days + k := by
  simp only [Date]
  ring

/-- Every time is the date its own year, month and day denote, and these are
a valid calendar date. -/
theorem civil_valid (t : Time) :
    1 ≤ t.Month ∧ t.Month ≤ 12 ∧ 1 ≤ t.Day ∧ t.Day ≤ monthLen (isLeap t.Year) t.Month
      ∧ (Date t.Year t.Month t.Day).days = t.days := by
  obtain ⟨h1, h2, h3⟩ := yearDay_spec t.days
  have hl : isLeap (yearDay t.days).1 = true ∨ (yearDay t.days).2 < 365 := by
    by_cases h : isLeap (yearDay t.days).1 = true
    · exact Or.inl h
    · right; simpa [yearLen, h] using h3
  have h366 : (yearDay t.days).2 < 366 := by
    simp only [yearLen] at h3
    split at h3 <;> omega
  obtain ⟨m1, m2, m3, m4, m5⟩ := monthDay_spec _ _ h2 h366 hl
  refine ⟨m1, m2, m3, m4, ?_⟩
  rw [Date_days t.Year t.Month t.Day m1 m2]
  simp only [Time.Year, Time.Month, Time.Day]
  omega

/-- A valid calendar date is read back unchanged. -/
theorem Date_civil (y m d : Int) (hm : 1 ≤ m) (hm12 : m ≤ 12) (hd : 1 ≤ d)
    (hd2 : d ≤ monthLen (isLeap y) m) :
    (Date y m d).Year = y ∧ (Date y m d).Month = m ∧ (Date y m d).Day = d := by
  have hb := monthOffset_bounds (isLeap y) m d hm hm12 hd hd2
  have hu := yearDay_unique y (monthOffset (isLeap y) m + (d - 1)) hb.1
    (by simp only [yearLen]; exact hb.2)
  have hmd := monthDay_unique (isLeap y) m d hm hm12 hd hd2
  have e : (Date y m d).days = daysSinceEpoch y + (monthOffset (isLeap y) m + (d - 1)) := by
    rw [Date_days _ _ _ hm hm12]; ring
  simp only [Time.Year, Time.Month, Time.Day, e, hu, hmd, and_self]

theorem AddDate_days (t : Time) (k : Int) : (t.AddDate 0 0 k).days = t.days + k := by
  simp only [Time.AddDate, add_zero, Date_add_day, (civil_valid t).2.2.2.2]

theorem AddDate_secs (t : Time) (a b c : Int) : (t.AddDate a b c).secs = t.secs := rfl

theorem daysSinceEpoch_succ (y : Int) :
    daysSinceEpoch (y + 1) = daysSinceEpoch y + yearLen y := by
  obtain ⟨n, a, b, c, ha, ha3, hb, hb24, hc, hc3, rfl⟩ := year_cycles y
  have hleap := isLeap_cycles n a b c ha ha3 hb hb24 hc hc3
  rw [daysSinceEpoch_cycles n a b c ha ha3 hb hb24 hc hc3]
  by_cases h3 : c = 3
  · by_cases h24 : b = 24
    · by_cases ha : a = 3
      · have e : 400 * n + 100 * a + 4 * b + c + 1 + 1 = 400 * (n + 1) + 100 * 0 + 4 * 0 + 0 + 1 := by
          omega
        rw [yearLen, if_pos (hleap.2 ⟨h3, fun _ => ha⟩), e,
          daysSinceEpoch_cycles (n + 1) 0 0 0 le_rfl (by omega) le_rfl (by omega) le_rfl (by omega)]
        omega
      · have e : 400 * n + 100 * a + 4 * b + c + 1 + 1 = 400 * n + 100 * (a + 1) + 4 * 0 + 0 + 1 := by
          omega
        have hn : ¬ isLeap (400 * n + 100 * a + 4 * b + c + 1) = true := fun h => ha ((hleap.1 h).2 h24)
        rw [yearLen, if_neg hn, e,
          daysSinceEpoch_cycles n (a + 1) 0 0 (by omega) (by omega) le_rfl (by omega) le_rfl (by omega)]
        omega
    · have e : 400 * n + 100 * a + 4 * b + c + 1 + 1 = 400 * n + 100 * a + 4 * (b + 1) + 0 + 1 := by
        omega
      rw [yearLen, if_pos (hleap.2 ⟨h3, fun h => absurd h h24⟩), e,
        daysSinceEpoch_cycles n a (b + 1) 0 ha ha3 (by omega) (by omega) le_rfl (by omega)]
      omega
  · have e : 400 * n + 100 * a + 4 * b + c + 1 + 1 = 400 * n + 100 * a + 4 * b + (c + 1) + 1 := by
      omega
    have hn : ¬ isLeap (400 * n + 100 * a + 4 * b + c + 1) = true := fun h => h3 (hleap.1 h).1
    rw [yearLen, if_neg hn, e,
      daysSinceEpoch_cycles n a b (c + 1) ha ha3 hb hb24 (by omega) (by omega)]
    omega

/-- The first day of the following month is `monthLen` days after the first
day of a month. -/
theorem Date_next_month (y m : Int) (hm : 1 ≤ m) (hm12 : m ≤ 12) :
    (Date y (m + 1) 1).days = (Date y m 1).days + monthLen (isLeap y) m := by
  by_cases h12 : m = 12
  · subst h12
    have e : Date y (12 + 1) 1 = Date (y + 1) 1 1 := by
      rw [Date_norm]; norm_num
    rw [e, Date_days _ _ _ (by omega) (by omega), Date_days _ _ _ (by omega) (by omega),
      daysSinceEpoch_succ]
    cases hl : isLeap y <;> simp [yearLen, hl, monthOffset, monthLen, daysBefore] <;> omega
  · rw [Date_days _ _ _ (by omega) (by omega), Date_days _ _ _ (by omega) (by omega)]
    obtain ⟨k, rfl⟩ := Int.eq_ofNat_of_zero_le (by omega : 0 ≤ m)
    have key : ∀ leap : Bool, ∀ k : Nat, k < 12 → 1 ≤ k →
        monthOffset leap ((k : Int) + 1) = monthOffset leap k + monthLen leap k := by decide!
    have := key (isLeap y) k (by omega) (by omega)
    omega

end time

namespace calculator
open time holidays

theorem AddDate_one (t : Time) : t.AddDate 0 0 1 = ⟨t.days + 1, t.secs⟩ := by
  have h1 := AddDate_days t 1
  have h2 := AddDate_secs t 0 0 1
  cases h : t.AddDate 0 0 1
  simp_all

theorem countLoop_eq (excl : Bool) (hl : List Holiday) (last : Time) :
    ∀ (n fuel : Nat) (day : Time) (acc : Int), day.secs = last.secs →
      (last.days - day.days + 1).toNat = n → n + 1 ≤ fuel →
      countLoop excl hl last fuel day acc
        = some (acc + countFrom excl hl day.secs n day.days) := by
  intro n
  induction n with
  | zero =>
    intro fuel day acc hs hn hf
    obtain ⟨f, rfl⟩ : ∃ f, fuel = f + 1 := ⟨fuel - 1, by omega⟩
    have hafter : day.After last = true := by
      simp only [Time.After, Bool.or_eq_true, decide_eq_true_eq]
      left; omega
    simp [countLoop, hafter, countFrom]
  | succ n ih =>
    intro fuel day acc hs hn hf
    obtain ⟨f, rfl⟩ : ∃ f, fuel = f + 1 := ⟨fuel - 1, by omega⟩
    have hafter : day.After last = false := by
      simp only [Time.After, Bool.or_eq_false_iff, decide_eq_false_iff_not, Bool.and_eq_false_imp,
        decide_eq_true_eq]
      constructor
      · omega
      · intro _; omega
    have hrec : ∀ acc2, countLoop excl hl last f (day.AddDate 0 0 1) acc2
        = some (acc2 + countFrom excl hl day.secs n (day.days + 1)) := by
      intro acc2
      rw [AddDate_one]
      exact ih f ⟨day.days + 1, day.secs⟩ acc2 hs (by simp only; omega) (by omega)
    have hday : (⟨day.days, day.secs⟩ : Time) = day := rfl
    simp only [countLoop, hafter, Bool.false_eq_true, if_false, hrec, countFrom, countsDay, hday]
    by_cases hw : day.Weekday ≥ Monday ∧ day.Weekday ≤ Friday
    · by_cases hh : (excl && IsHoliday day hl) = true
      · simp [hw, hh]
      · simp only [hw, hh, and_self, if_true, if_false, decide_True, Bool.true_and]
        simp
        ring
    · simp [hw]

theorem countFrom_nonneg (excl : Bool) (hl : List Holiday) (s : Int) :
    ∀ (n : Nat) (d : Int), 0 ≤ countFrom excl hl s n d := by
  intro n
  induction n with
  | zero => intro d; simp [countFrom]
  | succ n ih =>
    intro d
    have := ih (d + 1)
    simp only [countFrom]
    split <;> omega

theorem countFrom_le (excl : Bool) (hl : List Holiday) (s : Int) :
    ∀ (n : Nat) (d : Int), countFrom excl hl s n d ≤ n := by
  intro n
  induction n with
  | zero => intro d; simp [countFrom]
  | succ n ih =>
    intro d
    have := ih (d + 1)
    simp only [countFrom]
    push_cast
    split <;> omega

theorem countFrom_excl_le (hl hl2 : List Holiday) (s : Int) :
    ∀ (n : Nat) (d : Int), countFrom true hl s n d ≤ countFrom false hl2 s n d := by
  intro n
  induction n with
  | zero => intro d; simp [countFrom]
  | succ n ih =>
    intro d
    have := ih (d + 1)
    simp only [countFrom, countsDay, Bool.true_and, Bool.false_and, Bool.not_false, Bool.and_true]
    by_cases hw : (⟨d, s⟩ : Time).Weekday ≥ Monday ∧ (⟨d, s⟩ : Time).Weekday ≤ Friday
    · simp only [hw, and_self, decide_True, Bool.true_and, if_true]
      split <;> omega
    · simp only [hw, decide_False, Bool.false_and, Bool.false_eq_true, if_false]
      omega

theorem lastDay_days (year month : Int) :
    ((Date year month 1).AddDate 0 1 (-1)).days
      = (Date year month 1).days
        + monthLen (isLeap (normYear year month)) (normMonth month) - 1 := by
  have hm1 : 1 ≤ normMonth month := by unfold normMonth; omega
  have hm12 : normMonth month ≤ 12 := by unfold normMonth; omega
  have hn : Date year month 1 = Date (normYear year month) (normMonth month) 1 := Date_norm _ _ _
  have hlen := monthLen_ge (isLeap (normYear year month)) (normMonth month)
  obtain ⟨c1, c2, c3⟩ := Date_civil (normYear year month) (normMonth month) 1 hm1 hm12 le_rfl
    (by omega)
  simp only [Time.AddDate, add_zero]
  rw [hn, c1, c2, c3]
  have := Date_next_month (normYear year month) (normMonth month) hm1 hm12
  have h2 := Date_add_day (normYear year month) (normMonth month + 1) 1 (-1)
  rw [show (1 : Int) + -1 = 1 + (-1) from rfl, h2, this]
  ring

theorem CountWorkingDaysWithHolidaysAndVacation_eq (month year : Int) (country : String)
    (excl : Bool) (vac : Int) :
    CountWorkingDaysWithHolidaysAndVacation month year country excl vac
      = some (clampResult (loopResult month year country excl) vac) := by
  have hlast := lastDay_days year month
  have hlen := monthLen_ge (isLeap (normYear year month)) (normMonth month)
  simp only [CountWorkingDaysWithHolidaysAndVacation]
  rw [countLoop_eq excl _ ((Date year month 1).AddDate 0 1 (-1))
    (monthLen (isLeap (normYear year month)) (normMonth month)).toNat _ (Date year month 1) 0
    rfl (by rw [hlast]; congr 1; ring) (by rw [hlast]; omega)]
  simp [clampResult, loopResult, Date_secs]

theorem loopResult_bounds (month year : Int) (country : String) (excl : Bool) :
    0 ≤ loopResult month year country excl ∧ loopResult month year country excl ≤ 31 := by
  refine ⟨countFrom_nonneg _ _ _ _ _, ?_⟩
  have h1 := countFrom_le excl
    (if excl && country != "" then (GetProvider country).GetHolidays year else [])
    0 (monthLen (isLeap (normYear year month)) (normMonth month)).toNat (Date year month 1).days
  have h2 := monthLen_le (isLeap (normYear year month)) (normMonth month)
  have h3 := monthLen_ge (isLeap (normYear year month)) (normMonth month)
  unfold loopResult
  omega

theorem clampResult_zero (w : Int) (h0 : 0 ≤ w) (h1 : w ≤ 31) : clampResult w 0 = w := by
  unfold clampResult wrapInt64
  have : (w - 0 + 2 ^ 63) % 2 ^ 64 - 2 ^ 63 = w := by omega
  rw [this, if_neg (by omega)]

theorem clampResult_nonneg (w v : Int) : 0 ≤ clampResult w v := by
  unfold clampResult
  split <;> omega

theorem clampResult_sub (w v : Int) (h0 : 0 ≤ w) (h1 : w ≤ 31) (hv : 0 ≤ v) (hv2 : v < 2 ^ 63) :
    clampResult w v = max 0 (w - v) := by
  unfold clampResult wrapInt64
  have : (w - v + 2 ^ 63) % 2 ^ 64 - 2 ^ 63 = w - v := by omega
  rw [this]
  split
  · rw [max_eq_left (by omega)]
  · rw [max_eq_right (by omega)]

end calculator

namespace time

/-- The year, month and day of a time depend on its day number only. -/
theorem civil_mk (d s : Int) : (⟨d, s⟩ : Time).civil = (⟨d, 0⟩ : Time).civil := rfl

/-- A valid calendar date is read back unchanged, as one triple. -/
theorem Date_civil_eq (y m d : Int) (hm : 1 ≤ m) (hm12 : m ≤ 12) (hd : 1 ≤ d)
    (hd2 : d ≤ monthLen false m) : (Date y m d).civil = (y, m, d) := by
  have hle : monthLen false m ≤ monthLen (isLeap y) m := by
    cases isLeap y
    · exact le_rfl
    · simp only [monthLen]
      split_ifs <;> norm_num
  obtain ⟨h1, h2, h3⟩ := Date_civil y m d hm hm12 hd (le_trans hd2 hle)
  simp only [Time.civil, h1, h2, h3]

/-- Adding one to the day number moves the year, month and day to the
following calendar date. -/
theorem civil_succ (t : Time) (s : Int) :
    (⟨t.days + 1, s⟩ : Time).civil = nextDay t.civil := by
  obtain ⟨m1, m12, d1, dlen, hdate⟩ := civil_valid t
  have hlen := monthLen_ge (isLeap t.Year) t.Month
  have hcivil : ∀ (u : Time) (y m d : Int), u.days = t.days + 1 →
      (u.Year = y ∧ u.Month = m ∧ u.Day = d) → (⟨t.days + 1, s⟩ : Time).civil = (y, m, d) := by
    intro u y m d hu h
    rw [← hu]
    obtain ⟨rfl, rfl, rfl⟩ := h
    rfl
  simp only [nextDay, Time.civil, daysInMonth]
  by_cases hlt : t.Day < monthLen (isLeap t.Year) t.Month
  · rw [if_pos hlt]
    refine hcivil (Date t.Year t.Month (t.Day + 1)) _ _ _ ?_
      (Date_civil _ _ _ m1 m12 (by omega) (by omega))
    rw [Date_add_day, hdate]
  · rw [if_neg hlt]
    have hD : t.Day = monthLen (isLeap t.Year) t.Month := by omega
    have hnext := Date_next_month t.Year t.Month m1 m12
    have hstep : (Date t.Year (t.Month + 1) 1).days = t.days + 1 := by
      have h1 := Date_add_day t.Year t.Month 1 (t.Day - 1)
      have e : (1 : Int) + (t.Day - 1) = t.Day := by ring
      rw [e, hdate] at h1
      omega
    by_cases h12 : t.Month < 12
    · rw [if_pos h12]
      exact hcivil (Date t.Year (t.Month + 1) 1) _ _ _ hstep
        (Date_civil _ _ _ (by omega) (by omega) le_rfl
          (by have := monthLen_ge (isLeap t.Year) (t.Month + 1); omega))
    · rw [if_neg h12]
      have hM : t.Month = 12 := by omega
      have e : Date t.Year (t.Month + 1) 1 = Date (t.Year + 1) 1 1 := by
        rw [Date_norm, hM]; norm_num
      rw [e] at hstep
      exact hcivil (Date (t.Year + 1) 1 1) _ _ _ hstep
        (Date_civil _ _ _ (by omega) (by omega) le_rfl
          (by have := monthLen_ge (isLeap (t.Year + 1)) 1; omega))

end time

namespace holidays
open time

set_option maxRecDepth 100000 in
/-- The Easter checks hold in each of the 2517 years from 1583 on. -/
theorem easterCheck_range : ∀ n : Nat, n < 2517 → easterCheck (1583 + n) = true := by
  decide!

end holidays

namespace calculator
open time holidays

/-- Without holiday exclusion the loop count is the filter count over the days
of the month. -/
theorem countFrom_range (hl : List Holiday) (y m : Int) :
    ∀ (n s : Nat), countFrom false hl 0 n (Date y m s).days
      = (((List.range' s n).filter fun d : Nat =>
          decide (Monday ≤ (Date y m d).Weekday ∧ (Date y m d).Weekday ≤ Friday)).length : Nat) := by
  intro n
  induction n with
  | zero => intro s; simp [countFrom]
  | succ n ih =>
    intro s
    have hnext : (Date y m s).days + 1 = (Date y m ((s + 1 : Nat) : Int)).days := by
      push_cast
      rw [Date_add_day]
    have hday : (⟨(Date y m s).days, 0⟩ : Time) = Date y m s := rfl
    simp only [countFrom, countsDay, hnext, ih (s + 1), hday, Bool.false_and, Bool.not_false,
      Bool.and_true, ge_iff_le, List.range'_succ, List.filter_cons]
    by_cases hw : Monday ≤ (Date y m s).Weekday ∧ (Date y m s).Weekday ≤ Friday
    · simp only [hw, and_self, decide_True, if_true, List.length_cons]
      push_cast
      ring
    · simp only [hw, decide_False, Bool.false_eq_true, if_false]
      ring

end calculator

/-! ## Properties of the calculator and the holiday provider -/

section Claims

open time holidays calculator

/-- On the calendar without a range limit, for every year and every month in
1..12, `CountWorkingDays` returns the number of days `d` in
`1..daysInMonth year month` whose weekday is Monday to Friday. -/
theorem CountWorkingDays_weekdaysInMonth (year month : Int) (h1 : 1 ≤ month)
    (h12 : month ≤ 12) : CountWorkingDays month year = some (weekdaysInMonth year month) := by
  have hy : normYear year month = year := by unfold normYear; omega
  have hm : normMonth month = month := by unfold normMonth; omega
  have hb := loopResult_bounds month year "" false
  rw [CountWorkingDays, CountWorkingDaysWithHolidays, CountWorkingDaysWithHolidaysAndVacation_eq,
    clampResult_zero _ hb.1 hb.2]
  simp only [loopResult, hy, hm, weekdaysInMonth, daysInMonth]
  rw [show (Date year month 1) = Date year month ((1 : Nat) : Int) from rfl, countFrom_range]

/-- On the calendar without a range limit, for every `vacationDays` from 0 up
to the largest Go `int`, the result is `max 0 (W - vacationDays)` where `W` is
what `CountWorkingDaysWithHolidays` returns; in particular it is 0 once
`vacationDays` reaches `W`. -/
theorem vacation_clamp (month year : Int) (country : String) (excludeHolidays : Bool)
    (vacationDays : Int) (h0 : 0 ≤ vacationDays) (hmax : vacationDays < 2 ^ 63) :
    ∃ W, CountWorkingDaysWithHolidays month year country excludeHolidays = some W
      ∧ CountWorkingDaysWithHolidaysAndVacation month year country excludeHolidays vacationDays
          = some (max 0 (W - vacationDays))
      ∧ (W ≤ vacationDays →
          CountWorkingDaysWithHolidaysAndVacation month year country excludeHolidays vacationDays
            = some 0) := by
  have hb := loopResult_bounds month year country excludeHolidays
  have hres : CountWorkingDaysWithHolidaysAndVacation month year country excludeHolidays
      vacationDays = some (max 0 (loopResult month year country excludeHolidays - vacationDays)) := by
    rw [CountWorkingDaysWithHolidaysAndVacation_eq, clampResult_sub _ _ hb.1 hb.2 h0 hmax]
  refine ⟨loopResult month year country excludeHolidays, ?_, hres, ?_⟩
  · rw [CountWorkingDaysWithHolidays, CountWorkingDaysWithHolidaysAndVacation_eq,
      clampResult_zero _ hb.1 hb.2]
  · intro hle
    rw [hres, max_eq_left (by omega)]

/-- On the calendar without a range limit, the count with holiday exclusion
and no vacation is at most the count without holiday exclusion and no
vacation, and both calls return. -/
theorem exclusion_le (month year : Int) (country : String) :
    ∃ a b, CountWorkingDaysWithHolidaysAndVacation month year country true 0 = some a
      ∧ CountWorkingDaysWithHolidaysAndVacation month year country false 0 = some b
      ∧ a ≤ b := by
  have hb1 := loopResult_bounds month year country true
  have hb2 := loopResult_bounds month year country false
  refine ⟨loopResult month year country true, loopResult month year country false, ?_, ?_, ?_⟩
  · rw [CountWorkingDaysWithHolidaysAndVacation_eq, clampResult_zero _ hb1.1 hb1.2]
  · rw [CountWorkingDaysWithHolidaysAndVacation_eq, clampResult_zero _ hb2.1 hb2.2]
  · exact countFrom_excl_le _ _ _ _ _

/-- C5: for July 2024 with country "CZ" the count without holiday exclusion is
23, the count with holiday exclusion is one less, 22, and the count with
holiday exclusion and 3 vacation days is 19. -/
theorem C5_july_2024 :
    CountWorkingDaysWithHolidays 7 2024 "CZ" false = some 23
      ∧ CountWorkingDays 7 2024 = some 23
      ∧ CountWorkingDaysWithHolidays 7 2024 "CZ" true = some (23 - 1)
      ∧ CountWorkingDaysWithHolidaysAndVacation 7 2024 "CZ" true 3 = some 19 := by
  decide

/-- C6: for December 2024 with country "CZ" the count with holiday exclusion,
19, is strictly less than `CountWorkingDays 12 2024`, 22. -/
theorem C6_december_2024 :
    ∃ a b, CountWorkingDaysWithHolidays 12 2024 "CZ" true = some a
      ∧ CountWorkingDays 12 2024 = some b ∧ a < b ∧ a = 19 ∧ b = 22 :=
  ⟨19, 22, by decide, by decide, by decide, rfl, rfl⟩

/-- C7: `calculateEaster` returns 31 March for 2024, 20 April for 2025 and
5 April for 2026, and the Easter Monday entry of `GetHolidays`, the last one,
is the next calendar day: 1 April 2024, 21 April 2025 and 6 April 2026. -/
theorem C7_easter_known_years :
    (calculateEaster 2024).civil = (2024, 3, 31)
      ∧ (calculateEaster 2025).civil = (2025, 4, 20)
      ∧ (calculateEaster 2026).civil = (2026, 4, 5)
      ∧ (GetHolidays 2024)[11]? = some ⟨"Velikonoční pondělí", Date 2024 4 1⟩
      ∧ (GetHolidays 2025)[11]? = some ⟨"Velikonoční pondělí", Date 2025 4 21⟩
      ∧ (GetHolidays 2026)[11]? = some ⟨"Velikonoční pondělí", Date 2026 4 6⟩
      ∧ (Date 2024 4 1).civil = (2024, 4, 1) ∧ (Date 2025 4 21).civil = (2025, 4, 21)
      ∧ (Date 2026 4 6).civil = (2026, 4, 6)
      ∧ (Date 2024 4 1).days = (calculateEaster 2024).days + 1
      ∧ (Date 2025 4 21).days = (calculateEaster 2025).days + 1
      ∧ (Date 2026 4 6).days = (calculateEaster 2026).days + 1 := by
  decide

/-- C8: for every year in 1583..4099 the month `calculateEaster` computes is 3
or 4 and the day it computes lies within that month, so `time.Date` does not
normalise: the result is that date of that year, it lies between 22 March and
25 April inclusive, and its weekday is Sunday. -/
theorem C8_easter_in_range (year : Int) (h1 : 1583 ≤ year) (h2 : year ≤ 4099) :
    ((easterMonthDay year).1 = 3 ∨ (easterMonthDay year).1 = 4)
      ∧ 1 ≤ (easterMonthDay year).2
      ∧ (easterMonthDay year).2 ≤ daysInMonth year (easterMonthDay year).1
      ∧ ((easterMonthDay year).1 = 3 → 22 ≤ (easterMonthDay year).2)
      ∧ ((easterMonthDay year).1 = 4 → (easterMonthDay year).2 ≤ 25)
      ∧ (calculateEaster year).civil
          = (year, (easterMonthDay year).1, (easterMonthDay year).2)
      ∧ (calculateEaster year).Weekday = Sunday := by
  obtain ⟨n, hn⟩ := Int.eq_ofNat_of_zero_le (by omega : 0 ≤ year - 1583)
  have hy : year = 1583 + (n : Int) := by omega
  have hc := easterCheck_range n (by omega)
  rw [← hy] at hc
  simp only [easterCheck, Bool.and_eq_true, Bool.or_eq_true, beq_iff_eq, decide_eq_true_eq]
    at hc
  obtain ⟨hmd, hw⟩ := hc
  have hvalid : (easterMonthDay year).2 ≤ monthLen false (easterMonthDay year).1
      ∧ 1 ≤ (easterMonthDay year).2 ∧ 1 ≤ (easterMonthDay year).1
      ∧ (easterMonthDay year).1 ≤ 12 := by
    rcases hmd with ⟨⟨h3, h22⟩, h31⟩ | ⟨⟨h4, h1⟩, h25⟩
    · rw [h3]; simp only [monthLen]; norm_num; omega
    · rw [h4]; simp only [monthLen]; norm_num; omega
  have hlen : monthLen false (easterMonthDay year).1 ≤ daysInMonth year (easterMonthDay year).1 := by
    unfold daysInMonth
    cases isLeap year
    · exact le_rfl
    · simp only [monthLen]
      split_ifs <;> norm_num
  refine ⟨?_, hvalid.2.1, le_trans hvalid.1 hlen, ?_, ?_, ?_, hw⟩
  · rcases hmd with ⟨⟨h3, _⟩, _⟩ | ⟨⟨h4, _⟩, _⟩
    · exact Or.inl h3
    · exact Or.inr h4
  · intro h3
    rcases hmd with ⟨⟨_, h22⟩, _⟩ | ⟨⟨h4, _⟩, _⟩
    · exact h22
    · omega
  · intro h4
    rcases hmd with ⟨⟨h3, _⟩, _⟩ | ⟨⟨_, _⟩, h25⟩
    · omega
    · exact h25
  · exact Date_civil_eq year _ _ hvalid.2.2.1 hvalid.2.2.2 hvalid.2.1 hvalid.1

/-- C8, at the year 2024: Easter Sunday is 31 March. -/
theorem C8_easter_in_range_witness :
    (1583 : Int) ≤ 2024 ∧ (2024 : Int) ≤ 4099
      ∧ (((easterMonthDay 2024).1 = 3 ∨ (easterMonthDay 2024).1 = 4)
      ∧ 1 ≤ (easterMonthDay 2024).2
      ∧ (easterMonthDay 2024).2 ≤ daysInMonth 2024 (easterMonthDay 2024).1
      ∧ ((easterMonthDay 2024).1 = 3 → 22 ≤ (easterMonthDay 2024).2)
      ∧ ((easterMonthDay 2024).1 = 4 → (easterMonthDay 2024).2 ≤ 25)
      ∧ (calculateEaster 2024).civil
          = (2024, (easterMonthDay 2024).1, (easterMonthDay 2024).2)
      ∧ (calculateEaster 2024).Weekday = Sunday)
      ∧ easterMonthDay 2024 = (3, 31) :=
  ⟨by decide, by decide, C8_easter_in_range 2024 (by decide) (by decide), by decide⟩

/-- C9: for every year, `CzechHolidayProvider.GetHolidays` returns a list of
exactly 12 holidays. -/
theorem C9_GetHolidays_length (year : Int) :
    (CzechHolidayProvider.GetHolidays year).length = 12 := rfl

/-- On the calendar without a range limit, for every year, the first 11
entries of `GetHolidays` are dated, in order, 1 January, 1 May, 8 May, 5 July,
6 July, 28 September, 28 October, 17 November, 24, 25 and 26 December of that
year, and the 12th and last entry is dated the calendar day after
`calculateEaster year`: its day number is one more and its year, month and day
are those of the following calendar date, so that Easter Sunday on 31 March
gives 1 April, as in 2024. -/
theorem GetHolidays_dates (year : Int) :
    ((GetHolidays year).take 11).map (fun h => h.Date.civil)
        = [(year, 1, 1), (year, 5, 1), (year, 5, 8), (year, 7, 5), (year, 7, 6), (year, 9, 28),
            (year, 10, 28), (year, 11, 17), (year, 12, 24), (year, 12, 25), (year, 12, 26)]
      ∧ (GetHolidays year).drop 11 = [getEasterMonday year]
      ∧ (getEasterMonday year).Date.days = (calculateEaster year).days + 1
      ∧ (getEasterMonday year).Date.civil = nextDay (calculateEaster year).civil
      ∧ ((calculateEaster year).Month = 3 ∧ (calculateEaster year).Day = 31 →
          (getEasterMonday year).Date.civil = ((calculateEaster year).Year, 4, 1))
      ∧ (calculateEaster 2024).civil = (2024, 3, 31)
      ∧ (getEasterMonday 2024).Date.civil = (2024, 4, 1) := by
  have hE : (getEasterMonday year).Date
      = ⟨(calculateEaster year).days + 1, (calculateEaster year).secs⟩ := AddDate_one _
  have hnext : (getEasterMonday year).Date.civil = nextDay (calculateEaster year).civil := by
    rw [hE]; exact civil_succ _ _
  refine ⟨?_, rfl, ?_, hnext, ?_, by decide, by decide⟩
  · simp only [GetHolidays, List.cons_append, List.nil_append, List.take_succ_cons, List.take_zero,
      List.map_cons, List.map_nil]
    rw [Date_civil_eq year 1 1 (by decide) (by decide) (by decide) (by decide),
      Date_civil_eq year 5 1 (by decide) (by decide) (by decide) (by decide),
      Date_civil_eq year 5 8 (by decide) (by decide) (by decide) (by decide),
      Date_civil_eq year 7 5 (by decide) (by decide) (by decide) (by decide),
      Date_civil_eq year 7 6 (by decide) (by decide) (by decide) (by decide),
      Date_civil_eq year 9 28 (by decide) (by decide) (by decide) (by decide),
      Date_civil_eq year 10 28 (by decide) (by decide) (by decide) (by decide),
      Date_civil_eq year 11 17 (by decide) (by decide) (by decide) (by decide),
      Date_civil_eq year 12 24 (by decide) (by decide) (by decide) (by decide),
      Date_civil_eq year 12 25 (by decide) (by decide) (by decide) (by decide),
      Date_civil_eq year 12 26 (by decide) (by decide) (by decide) (by decide)]
  · rw [hE]
  · rintro ⟨hm, hd⟩
    rw [hnext]
    simp only [nextDay, Time.civil, hm, hd, daysInMonth, monthLen]
    norm_num

end Claims


/-! ## Further lemmas: month counts, holiday exclusion, argument parsing -/

namespace holidays
open time

/-- The answer of `IsHoliday` depends on the day number of the date only. -/
theorem IsHoliday_days (d1 d2 : Time) (h : d1.days = d2.days) (list : List Holiday) :
    IsHoliday d1 list = IsHoliday d2 list := by
  induction list with
  | nil => rfl
  | cons x rest ih => simp only [IsHoliday, Time.Year, Time.Month, Time.Day, h, ih]

end holidays

namespace calculator
open time holidays

/-- With an empty holiday list the exclusion flag does not change the count. -/
theorem countFrom_nil (excl : Bool) (s : Int) :
    ∀ (n : Nat) (d : Int), countFrom excl [] s n d = countFrom false [] s n d := by
  intro n
  induction n with
  | zero => intro d; rfl
  | succ n ih =>
    intro d
    simp only [countFrom, countsDay, IsHoliday, Bool.and_false, Bool.not_false, Bool.and_true,
      ih (d + 1)]

theorem loopResult_empty (month year : Int) (country : String) (excl : Bool)
    (h : excl = false ∨ country = "") :
    loopResult month year country excl = loopResult month year "" false := by
  have hl : (if (excl && country != "") = true then (GetProvider country).GetHolidays year else [])
      = [] := by
    rcases h with h | h
    · simp [h]
    · simp [h]
  simp only [loopResult, hl]
  rw [countFrom_nil]
  simp

end calculator

namespace calculator
open time holidays

/-- The count over `a + b` days splits into the first `a` and the next `b`. -/
theorem countFrom_add (excl : Bool) (hl : List Holiday) (s : Int) (b : Nat) :
    ∀ (a : Nat) (d : Int), countFrom excl hl s (a + b) d
      = countFrom excl hl s a d + countFrom excl hl s b (d + a) := by
  intro a
  induction a with
  | zero => intro d; simp [countFrom]
  | succ a ih =>
    intro d
    have e : a + 1 + b = (a + b) + 1 := by omega
    rw [e]
    simp only [countFrom, ih (d + 1)]
    push_cast
    have e2 : d + 1 + (a : Int) = d + ((a : Int) + 1) := by ring
    rw [e2]
    ring

/-- Without exclusion a day counts exactly when its weekday is Monday to
Friday. -/
theorem countsDay_false (hl : List Holiday) (d s : Int) :
    countsDay false hl ⟨d, s⟩ = decide (1 ≤ (d + 1) % 7 ∧ (d + 1) % 7 ≤ 5) := by
  simp only [countsDay, Time.Weekday, Monday, Friday, Bool.false_and, Bool.not_false,
    Bool.and_true, ge_iff_le]

/-- Any seven consecutive days hold five days from Monday to Friday. -/
theorem countFrom_week (hl : List Holiday) (s d : Int) : countFrom false hl s 7 d = 5 := by
  have step : ∀ (e : Int) (w : Int), (e + 1) % 7 = w → (e + 1 + 1) % 7 = (w + 1) % 7 := by
    intro e w h
    omega
  simp only [countFrom, countsDay_false]
  have h : (d + 1) % 7 = 0 ∨ (d + 1) % 7 = 1 ∨ (d + 1) % 7 = 2 ∨ (d + 1) % 7 = 3
      ∨ (d + 1) % 7 = 4 ∨ (d + 1) % 7 = 5 ∨ (d + 1) % 7 = 6 := by omega
  rcases h with h | h | h | h | h | h | h
  all_goals
    have h1 := step d _ h
    have h2 := step (d + 1) _ h1
    have h3 := step (d + 1 + 1) _ h2
    have h4 := step (d + 1 + 1 + 1) _ h3
    have h5 := step (d + 1 + 1 + 1 + 1) _ h4
    have h6 := step (d + 1 + 1 + 1 + 1 + 1) _ h5
    rw [h, h1, h2, h3, h4, h5, h6]
    decide

/-- Any 28 consecutive days hold twenty days from Monday to Friday. -/
theorem countFrom_28 (hl : List Holiday) (s d : Int) : countFrom false hl s 28 d = 20 := by
  have e : (28 : Nat) = 7 + (7 + (7 + 7)) := rfl
  rw [e, countFrom_add, countFrom_add, countFrom_add]
  simp only [countFrom_week]
  rfl

/-- A month of `28 + r` days, `r` at most 3, holds between 20 and `20 + r`
days from Monday to Friday. -/
theorem countFrom_month (hl : List Holiday) (s d : Int) (n : Nat) (h28 : 28 ≤ n) :
    20 ≤ countFrom false hl s n d ∧ countFrom false hl s n d ≤ 20 + ((n - 28 : Nat) : Int) := by
  obtain ⟨r, rfl⟩ : ∃ r, n = 28 + r := ⟨n - 28, by omega⟩
  rw [countFrom_add, countFrom_28]
  have h0 := countFrom_nonneg false hl s r (d + (28 : Nat))
  have h1 := countFrom_le false hl s r (d + (28 : Nat))
  have e : 28 + r - 28 = r := by omega
  rw [e]
  omega

/-- What `CountWorkingDays` returns, in closed form. -/
theorem CountWorkingDays_eq (month year : Int) :
    CountWorkingDays month year = some (loopResult month year "" false) := by
  have hb := loopResult_bounds month year "" false
  rw [CountWorkingDays, CountWorkingDaysWithHolidays, CountWorkingDaysWithHolidaysAndVacation_eq,
    clampResult_zero _ hb.1 hb.2]

end calculator

namespace strconv

/-- What `Atoi` accepts: a decimal integer whose value fits a 64-bit `int`. -/
theorem Atoi_eq_some (s : String) (v : Int) :
    Atoi s = some v ↔ isDecimalInteger s = true ∧ -(2 ^ 63) ≤ decimalValue s
      ∧ decimalValue s ≤ 2 ^ 63 - 1 ∧ v = decimalValue s := by
  unfold Atoi
  by_cases h : isDecimalInteger s = true
  · by_cases hr : -(2 ^ 63) ≤ decimalValue s ∧ decimalValue s ≤ 2 ^ 63 - 1
    · simp only [h, hr, and_self, if_true, Option.some.injEq, true_and]
      exact eq_comm
    · simp only [h, hr, if_true, if_false, true_and]
      constructor
      · intro hf; cases hf
      · rintro ⟨h1, h2, _⟩; exact absurd ⟨h1, h2⟩ hr
  · simp only [h, if_false, false_and, Bool.false_eq_true]
    constructor
    · intro hf; cases hf
    · exact False.elim

theorem Atoi_eq_none (s : String) :
    Atoi s = none ↔ ¬ (isDecimalInteger s = true ∧ -(2 ^ 63) ≤ decimalValue s
      ∧ decimalValue s ≤ 2 ^ 63 - 1) := by
  constructor
  · rintro h ⟨h1, h2, h3⟩
    have := (Atoi_eq_some s (decimalValue s)).2 ⟨h1, h2, h3, rfl⟩
    rw [h] at this
    cases this
  · intro h
    cases hv : Atoi s with
    | none => rfl
    | some v =>
      obtain ⟨h1, h2, h3, _⟩ := (Atoi_eq_some s v).1 hv
      exact absurd ⟨h1, h2, h3⟩ h

end strconv

namespace cli
open time strconv

/-- A first argument `ParseArgs` takes as the month: a decimal integer from 1
to 12. -/
theorem month_ok_iff (a : String) :
    (∃ m, Atoi a = some m ∧ ¬ (m < 1 ∨ m > 12))
      ↔ (isDecimalInteger a = true ∧ 1 ≤ decimalValue a ∧ decimalValue a ≤ 12) := by
  constructor
  · rintro ⟨m, hm, hr⟩
    obtain ⟨h1, _, _, rfl⟩ := (Atoi_eq_some a m).1 hm
    exact ⟨h1, by omega, by omega⟩
  · rintro ⟨h1, h2, h3⟩
    exact ⟨decimalValue a, (Atoi_eq_some a _).2 ⟨h1, by omega, by omega, rfl⟩, by omega⟩

/-- What `ParseArgs` does with one argument. -/
theorem ParseArgs_one (flags : Flags) (a : String) (now : Time) (hhelp : flags.helpFlag = false) :
    (isError (ParseArgs flags [a] now) = true
        ↔ ¬ (isDecimalInteger a = true ∧ 1 ≤ decimalValue a ∧ decimalValue a ≤ 12))
      ∧ ∀ cfg, ParseArgs flags [a] now = .ok cfg →
          cfg.Month = decimalValue a ∧ cfg.Year = now.Year := by
  rw [← month_ok_iff]
  simp only [ParseArgs, hhelp, Bool.false_eq_true, if_false]
  cases hv : Atoi a with
  | none => simp [isError]
  | some m =>
    have hm := ((Atoi_eq_some a m).1 hv).2.2.2
    by_cases hr : m < 1 ∨ m > 12
    · simp [isError, hr]
      intro h1
      omega
    · simp only [hr, if_false, isError, Bool.false_eq_true, Option.some.injEq, exists_eq_left',
        not_false_eq_true, not_true_eq_false, Except.ok.injEq, false_iff, not_not, true_and]
      rintro cfg rfl
      exact ⟨hm, rfl⟩

/-- What `ParseArgs` does with two arguments. -/
theorem ParseArgs_two (flags : Flags) (a b : String) (now : Time)
    (hhelp : flags.helpFlag = false) :
    (isError (ParseArgs flags [a, b] now) = true
        ↔ (¬ (isDecimalInteger a = true ∧ 1 ≤ decimalValue a ∧ decimalValue a ≤ 12)
          ∨ ¬ (isDecimalInteger b = true ∧ -(2 ^ 63) ≤ decimalValue b
            ∧ decimalValue b ≤ 2 ^ 63 - 1)))
      ∧ ∀ cfg, ParseArgs flags [a, b] now = .ok cfg →
          cfg.Month = decimalValue a ∧ cfg.Year = decimalValue b := by
  rw [← month_ok_iff, ← Atoi_eq_none]
  simp only [ParseArgs, hhelp, Bool.false_eq_true, if_false]
  cases hv : Atoi a with
  | none => simp [isError]
  | some m =>
    have hm := ((Atoi_eq_some a m).1 hv).2.2.2
    by_cases hr : m < 1 ∨ m > 12
    · simp [isError, hr]
      left
      intro h1
      omega
    · cases hy : Atoi b with
      | none => simp [isError, hr]
      | some y =>
        have hyv := ((Atoi_eq_some b y).1 hy).2.2.2
        simp only [hr, if_false, isError, Bool.false_eq_true, Option.some.injEq,
          exists_eq_left', not_false_eq_true, not_true_eq_false, Except.ok.injEq, false_iff,
          not_or, not_not, true_and, and_true, reduceCtorEq]
        refine ⟨by omega, ?_⟩
        rintro cfg rfl
        exact ⟨hm, hyv⟩

end cli

namespace time

/-- Two times with the same year, month and day have the same day number. -/
theorem civil_inj (t u : Time) (hy : t.Year = u.Year) (hm : t.Month = u.Month)
    (hd : t.Day = u.Day) : t.days = u.days := by
  rw [← (civil_valid t).2.2.2.2, ← (civil_valid u).2.2.2.2, hy, hm, hd]

/-- A time lies in the month `m` of the year `y` exactly when its day number
is one of the `monthLen` day numbers from the first of that month on. -/
theorem in_month_iff (t : Time) (y m : Int) (hm : 1 ≤ m) (hm12 : m ≤ 12) :
    (t.Year = y ∧ t.Month = m) ↔
      ((Date y m 1).days ≤ t.days ∧ t.days < (Date y m 1).days + monthLen (isLeap y) m) := by
  constructor
  · rintro ⟨rfl, rfl⟩
    obtain ⟨_, _, d1, dlen, hdate⟩ := civil_valid t
    have h := Date_add_day t.Year t.Month 1 (t.Day - 1)
    have e : (1 : Int) + (t.Day - 1) = t.Day := by ring
    rw [e, hdate] at h
    omega
  · rintro ⟨h1, h2⟩
    have h := Date_add_day y m 1 (t.days - (Date y m 1).days)
    obtain ⟨c1, c2, _⟩ := Date_civil y m (1 + (t.days - (Date y m 1).days)) hm hm12
      (by omega) (by omega)
    have e : (Date y m (1 + (t.days - (Date y m 1).days))).days = t.days := by omega
    simp only [Time.Year, Time.Month, e] at c1 c2
    exact ⟨c1, c2⟩

end time

namespace holidays
open time

/-- The answer of `IsHoliday` in words: some holiday of the list has the year,
month and day of the date. -/
theorem IsHoliday_iff (date : Time) (list : List Holiday) :
    IsHoliday date list = true ↔
      ∃ h ∈ list, h.Date.Year = date.Year ∧ h.Date.Month = date.Month
        ∧ h.Date.Day = date.Day := by
  induction list with
  | nil => simp [IsHoliday]
  | cons h rest ih =>
    simp only [IsHoliday, List.mem_cons, exists_eq_or_imp]
    by_cases hc : h.Date.Year = date.Year ∧ h.Date.Month = date.Month ∧ h.Date.Day = date.Day
    · simp [hc]
    · simp only [hc, if_false, false_or]
      exact ih

end holidays

namespace calculator
open time holidays

/-- A date is a holiday exactly when its day number is the day number of a
holiday of the list. -/
theorem IsHoliday_iff_mem (date : Time) (list : List Holiday) :
    IsHoliday date list = true ↔ date.days ∈ holidayDays list := by
  rw [IsHoliday_iff]
  simp only [holidayDays, List.mem_map]
  constructor
  · rintro ⟨h, hmem, hy, hm, hd⟩
    exact ⟨h, hmem, civil_inj _ _ hy hm hd⟩
  · rintro ⟨h, hmem, hd⟩
    refine ⟨h, hmem, ?_⟩
    simp only [Time.Year, Time.Month, Time.Day, hd, and_self]

/-- Moving the start of a window of days one day on drops the first day from
the count of the listed days in the window. -/
theorem countP_window (p : Int → Bool) (f : Int) (n : Nat) :
    ∀ H : List Int, H.Nodup →
      H.countP (fun x => inWindow f (n + 1) x && p x)
        = (if p f = true ∧ f ∈ H then 1 else 0)
          + H.countP (fun x => inWindow (f + 1) n x && p x) := by
  intro H
  induction H with
  | nil => intro _; simp
  | cons x H ih =>
    intro hnd
    have hx : x ∉ H := (List.nodup_cons.1 hnd).1
    have ih := ih (List.nodup_cons.1 hnd).2
    rw [List.countP_cons, List.countP_cons, ih]
    by_cases hxf : x = f
    · subst hxf
      have w1 : inWindow x (n + 1) x = true := by
        simp only [inWindow, decide_eq_true_eq]; push_cast; omega
      have w2 : inWindow (x + 1) n x = false := by
        simp only [inWindow, decide_eq_false_iff_not]; omega
      simp only [w1, w2, hx, List.mem_cons, true_or, and_true, and_false, Bool.true_and,
        Bool.false_and, if_false, Bool.false_eq_true]
      omega
    · have w : inWindow f (n + 1) x = inWindow (f + 1) n x := by
        simp only [inWindow]
        congr 1
        apply propext
        push_cast
        constructor
        · rintro ⟨h1, h2⟩
          exact ⟨by omega, by omega⟩
        · rintro ⟨h1, h2⟩
          exact ⟨by omega, by omega⟩
      have hm : (f ∈ x :: H) ↔ f ∈ H := by
        simp only [List.mem_cons]
        constructor
        · rintro (h | h)
          · exact absurd h.symm hxf
          · exact h
        · exact Or.inr
      rw [w]
      simp only [hm]
      omega

/-- Whether the loop counts a day, in terms of day numbers. -/
theorem countsDay_eq (excl : Bool) (hl : List Holiday) (d s : Int) :
    countsDay excl hl ⟨d, s⟩
      = (workdayNumber d && !(excl && decide (d ∈ holidayDays hl))) := by
  have h : IsHoliday ⟨d, s⟩ hl = decide (d ∈ holidayDays hl) := by
    rw [Bool.eq_iff_iff, IsHoliday_iff_mem, decide_eq_true_eq]
  simp only [countsDay, workdayNumber, Time.Weekday, ge_iff_le, h]

/-- With pairwise different holiday dates, exclusion removes from the count of
the `n` days from `f` on exactly the holidays that lie among those days on a
day from Monday to Friday. -/
theorem countFrom_excl_eq (hl hl2 : List Holiday) (s : Int) (hnd : (holidayDays hl).Nodup) :
    ∀ (n : Nat) (f : Int), countFrom true hl s n f
      = countFrom false hl2 s n f
        - ((holidayDays hl).countP (fun x => inWindow f n x && workdayNumber x) : Nat) := by
  intro n
  induction n with
  | zero =>
    intro f
    have : (holidayDays hl).countP (fun x => inWindow f 0 x && workdayNumber x) = 0 := by
      rw [List.countP_eq_zero]
      intro x _
      simp only [inWindow, Bool.and_eq_true, decide_eq_true_eq, not_and]
      intro h
      exfalso
      push_cast at h
      omega
    simp [countFrom, this]
  | succ n ih =>
    intro f
    rw [countP_window workdayNumber f n _ hnd]
    simp only [countFrom, countsDay_eq, ih (f + 1), Bool.true_and, Bool.false_and,
      Bool.not_false, Bool.and_true]
    push_cast
    by_cases hw : workdayNumber f = true
    · by_cases hm : f ∈ holidayDays hl
      · simp only [hw, hm, decide_True, Bool.not_true, Bool.and_false, Bool.false_eq_true,
          if_false, and_self, if_true]
        ring
      · simp only [hw, hm, decide_False, Bool.not_false, Bool.and_true, if_true, and_false,
          if_false]
        ring
    · simp only [hw, Bool.false_and, Bool.false_eq_true, if_false, false_and]
      ring

end calculator

namespace calculator
open time holidays

/-- The day number of the Easter Monday entry, for a year from 1583 to 4099:
it lies between 23 March and 26 April of that year. -/
theorem easterMonday_days (year : Int) (h1 : 1583 ≤ year) (h2 : year ≤ 4099) :
    (Date year 3 23).days ≤ (getEasterMonday year).Date.days
      ∧ (getEasterMonday year).Date.days ≤ (Date year 4 26).days := by
  obtain ⟨n, hn⟩ := Int.eq_ofNat_of_zero_le (by omega : 0 ≤ year - 1583)
  have hy : year = 1583 + (n : Int) := by omega
  have hc := easterCheck_range n (by omega)
  rw [← hy] at hc
  simp only [easterCheck, Bool.and_eq_true, Bool.or_eq_true, beq_iff_eq, decide_eq_true_eq]
    at hc
  have hE : (getEasterMonday year).Date.days = (calculateEaster year).days + 1 := by
    have := AddDate_one (calculateEaster year)
    simp only [getEasterMonday, this]
  have h34 := Date_next_month year 3 (by omega) (by omega)
  have hm3 : monthLen (isLeap year) 3 = 31 := by simp [monthLen]
  rw [hE, calculateEaster]
  rcases hc.1 with ⟨⟨h3, h22⟩, h31⟩ | ⟨⟨h4, h1⟩, h25⟩
  · rw [h3]
    have a := Date_add_day year 3 1 ((easterMonthDay year).2 - 1)
    have b := Date_add_day year 3 1 22
    have c := Date_add_day year 4 1 25
    have e : (1 : Int) + ((easterMonthDay year).2 - 1) = (easterMonthDay year).2 := by ring
    rw [e] at a
    norm_num at b c h34
    omega
  · rw [h4]
    have a := Date_add_day year 4 1 ((easterMonthDay year).2 - 1)
    have b := Date_add_day year 3 1 22
    have c := Date_add_day year 4 1 25
    have e : (1 : Int) + ((easterMonthDay year).2 - 1) = (easterMonthDay year).2 := by ring
    rw [e] at a
    norm_num at b c h34
    omega

/-- The twelve holidays of a year from 1583 to 4099 fall on twelve different
days. -/
theorem holidayDays_nodup (year : Int) (h1 : 1583 ≤ year) (h2 : year ≤ 4099) :
    (holidayDays (GetHolidays year)).Nodup := by
  obtain ⟨e1, e2⟩ := easterMonday_days year h1 h2
  have d := fun m d (hm : 1 ≤ m) (hm12 : m ≤ 12) => Date_days year m d hm hm12
  rw [d 3 23 (by omega) (by omega)] at e1
  rw [d 4 26 (by omega) (by omega)] at e2
  simp only [holidayDays, GetHolidays, List.cons_append, List.nil_append, List.map_cons,
    List.map_nil]
  rw [d 1 1 (by omega) (by omega), d 5 1 (by omega) (by omega), d 5 8 (by omega) (by omega),
    d 7 5 (by omega) (by omega), d 7 6 (by omega) (by omega), d 9 28 (by omega) (by omega),
    d 10 28 (by omega) (by omega), d 11 17 (by omega) (by omega),
    d 12 24 (by omega) (by omega), d 12 25 (by omega) (by omega),
    d 12 26 (by omega) (by omega)]
  generalize (getEasterMonday year).Date.days = em at e1 e2 ⊢
  generalize daysSinceEpoch year = base at e1 e2 ⊢
  cases isLeap year <;>
    simp only [monthOffset, daysBefore, Bool.false_and, Bool.true_and, Bool.false_eq_true,
      if_false] at e1 e2 ⊢ <;>
    norm_num at e1 e2 ⊢ <;>
    omega

end calculator

/-! ## Properties of the provider, the calculator and the command line -/

section MoreClaims

open time holidays calculator cli strconv fmt

/-- C11: for every pair of country strings, the empty string and unknown codes
included, and every year, `GetProvider` returns the Czech provider, so both
countries get the same holidays. -/
theorem C11_GetProvider_fixed (c1 c2 : String) (year : Int) :
    GetProvider c1 = CzechHolidayProvider
      ∧ (GetProvider c1).GetHolidays year = (GetProvider c2).GetHolidays year
      ∧ (GetProvider "").GetHolidays year = GetHolidays year
      ∧ (GetProvider c1).GetHolidays year = GetHolidays year :=
  ⟨rfl, rfl, rfl, rfl⟩

/-- C12: for every date and every holiday list, `IsHoliday` is true exactly
when some holiday in the list has the year, the month and the day of the date;
the time of day of the date plays no part, and on the empty list the answer is
false. -/
theorem C12_IsHoliday_iff (date : Time) (list : List Holiday) (secs : Int) :
    (IsHoliday date list = true ↔
        ∃ h ∈ list, h.Date.Year = date.Year ∧ h.Date.Month = date.Month
          ∧ h.Date.Day = date.Day)
      ∧ IsHoliday ⟨date.days, secs⟩ list = IsHoliday date list
      ∧ IsHoliday date [] = false :=
  ⟨IsHoliday_iff date list, IsHoliday_days ⟨date.days, secs⟩ date rfl list, rfl⟩

/-- C13: when `excludeHolidays` is false, whatever the country, or the country
is the empty string, whatever the flag, the call returns what it returns for
the empty country without exclusion; with no vacation days that is
`CountWorkingDays`. -/
theorem C13_empty_holiday_set (month year : Int) (country : String) (excludeHolidays : Bool)
    (vacationDays : Int) (h : excludeHolidays = false ∨ country = "") :
    CountWorkingDaysWithHolidaysAndVacation month year country excludeHolidays vacationDays
        = CountWorkingDaysWithHolidaysAndVacation month year "" false vacationDays
      ∧ CountWorkingDaysWithHolidaysAndVacation month year country excludeHolidays 0
        = CountWorkingDays month year := by
  have e := loopResult_empty month year country excludeHolidays h
  refine ⟨?_, ?_⟩
  · rw [CountWorkingDaysWithHolidaysAndVacation_eq, CountWorkingDaysWithHolidaysAndVacation_eq, e]
  · rw [CountWorkingDays, CountWorkingDaysWithHolidays, CountWorkingDaysWithHolidaysAndVacation_eq,
      CountWorkingDaysWithHolidaysAndVacation_eq, e]

/-- C13, at July 2024: country "CZ" without exclusion and the empty country
with exclusion both give the 23 days of `CountWorkingDays`. -/
theorem C13_empty_holiday_set_witness :
    (CountWorkingDaysWithHolidaysAndVacation 7 2024 "" true 3
        = CountWorkingDaysWithHolidaysAndVacation 7 2024 "" false 3
      ∧ CountWorkingDaysWithHolidaysAndVacation 7 2024 "" true 0 = CountWorkingDays 7 2024)
      ∧ CountWorkingDaysWithHolidaysAndVacation 7 2024 "" true 3 = some 20
      ∧ CountWorkingDaysWithHolidaysAndVacation 7 2024 "CZ" false 0 = some 23
      ∧ CountWorkingDays 7 2024 = some 23 :=
  ⟨C13_empty_holiday_set 7 2024 "" true 3 (Or.inr rfl), by decide, by decide, by decide⟩

/-- On the calendar without a range limit, for every year and every month,
`CountWorkingDays` returns a number that is at least 19 and at most 23, hence
not negative and not more than 31; it is in fact at least 20. -/
theorem CountWorkingDays_bounds (year month : Int) :
    ∃ r, CountWorkingDays month year = some r ∧ 19 ≤ r ∧ r ≤ 23 ∧ 0 ≤ r ∧ r ≤ 31 ∧ 20 ≤ r := by
  refine ⟨_, CountWorkingDays_eq month year, ?_⟩
  have hge := monthLen_ge (isLeap (normYear year month)) (normMonth month)
  have hle := monthLen_le (isLeap (normYear year month)) (normMonth month)
  have h := countFrom_month [] 0 (Date year month 1).days
    (monthLen (isLeap (normYear year month)) (normMonth month)).toNat (by omega)
  simp only [loopResult, Bool.false_and, Bool.false_eq_true, if_false]
  omega

/-- On the calendar without a range limit, for every year,
`CountWorkingDays 2 year` is exactly 20 when the year is not a Gregorian leap
year and is 20 or 21 when it is, so February of a leap year never has fewer
working days than February of a non-leap year; February 2024 has 21 and
February 2023 has 20. -/
theorem february_counts (year year2 : Int) :
    (∃ r, CountWorkingDays 2 year = some r
        ∧ (¬ (year % 4 = 0 ∧ (year % 100 ≠ 0 ∨ year % 400 = 0)) → r = 20)
        ∧ ((year % 4 = 0 ∧ (year % 100 ≠ 0 ∨ year % 400 = 0)) → r = 20 ∨ r = 21))
      ∧ ((year % 4 = 0 ∧ (year % 100 ≠ 0 ∨ year % 400 = 0)) →
          ¬ (year2 % 4 = 0 ∧ (year2 % 100 ≠ 0 ∨ year2 % 400 = 0)) →
          ∃ a b, CountWorkingDays 2 year = some a ∧ CountWorkingDays 2 year2 = some b ∧ b ≤ a)
      ∧ CountWorkingDays 2 2024 = some 21 ∧ CountWorkingDays 2 2023 = some 20 := by
  have key : ∀ y : Int, (¬ (y % 4 = 0 ∧ (y % 100 ≠ 0 ∨ y % 400 = 0)) →
        loopResult 2 y "" false = 20)
      ∧ (20 ≤ loopResult 2 y "" false ∧ loopResult 2 y "" false ≤ 21) := by
    intro y
    have hy : normYear y 2 = y := by unfold normYear; omega
    have hm : normMonth 2 = 2 := rfl
    simp only [loopResult, Bool.false_and, Bool.false_eq_true, if_false, hy, hm]
    constructor
    · intro hn
      have hl : isLeap y = false := by
        rw [← Bool.not_eq_true, isLeap_iff]; exact hn
      rw [hl]
      exact countFrom_28 _ _ _
    · cases isLeap y
      · rw [show (monthLen false 2).toNat = 28 from rfl, countFrom_28]; omega
      · have h := countFrom_month [] 0 (Date y 2 1).days 29 (by omega)
        rw [show (monthLen true 2).toNat = 29 from rfl]
        omega
  refine ⟨⟨_, CountWorkingDays_eq 2 year, (key year).1, fun _ => ?_⟩, fun _ hn => ?_,
    by decide, by decide⟩
  · have := (key year).2
    omega
  · refine ⟨_, _, CountWorkingDays_eq 2 year, CountWorkingDays_eq 2 year2, ?_⟩
    rw [(key year2).1 hn]
    exact (key year).2.1

/-- C16, as stated, fails for a month outside 1..12: with `Verbose` set and the
month 0 the output starts with Go's placeholder `%!Month(0)`, which is not an
English month name followed by the year and the count. -/
theorem C16_FormatOutput_counterexample :
    FormatOutput 22 verboseZeroConfig = "%!Month(0) 0: 22 billable days 💸"
      ∧ ¬ ∃ name ∈ longMonthNames,
          FormatOutput 22 verboseZeroConfig
            = name ++ " " ++ formatD 0 ++ ": " ++ formatD 22 ++ " billable days 💸" := by
  decide

/-- C16, amended: `FormatOutput` picks the format by strict priority
`InvoiceReady`, `KaChing`, `Verbose`, default.  With `InvoiceReady` the result
is the decimal rendering of `workingDays` whatever the other flags; else with
`KaChing` it is that rendering followed by " days = CHA-CHING! 🤑"; else with
`Verbose` it is the month name, the year and the count, where the month name is
one of the twelve English names when `Month` is in 1..12; else it is "💰 "
followed by the rendering.  The four outputs of the test table are 22 rendered
each way. -/
theorem C16_FormatOutput_priority (workingDays : Int) (config : Config) :
    (config.InvoiceReady = true → FormatOutput workingDays config = formatD workingDays)
      ∧ (config.InvoiceReady = false → config.KaChing = true →
          FormatOutput workingDays config = formatD workingDays ++ " days = CHA-CHING! 🤑")
      ∧ (config.InvoiceReady = false → config.KaChing = false → config.Verbose = true →
          FormatOutput workingDays config
              = MonthString config.Month ++ " " ++ formatD config.Year ++ ": "
                ++ formatD workingDays ++ " billable days 💸"
            ∧ (1 ≤ config.Month → config.Month ≤ 12 →
                longMonthNames[(config.Month - 1).toNat]? = some (MonthString config.Month)))
      ∧ (config.InvoiceReady = false → config.KaChing = false → config.Verbose = false →
          FormatOutput workingDays config = "💰 " ++ formatD workingDays)
      ∧ formatD 22 = "22" ∧ formatD 0 = "0" ∧ formatD (-3) = "-3"
      ∧ FormatOutput 22 invoiceConfig = "22"
      ∧ FormatOutput 22 kachingConfig = "22 days = CHA-CHING! 🤑"
      ∧ FormatOutput 22 verboseJulyConfig = "July 2024: 22 billable days 💸"
      ∧ FormatOutput 22 defaultConfig = "💰 22"
      ∧ FormatOutput 22 allFormatsConfig = "22" := by
  refine ⟨?_, ?_, ?_, ?_, by decide, by decide, by decide, by decide, by decide, by decide,
    by decide, by decide⟩
  · intro h; simp [FormatOutput, h]
  · intro h1 h2; simp [FormatOutput, h1, h2]
  · intro h1 h2 h3
    refine ⟨by simp [FormatOutput, h1, h2, h3], ?_⟩
    intro hm1 hm12
    generalize config.Month = m at hm1 hm12
    obtain ⟨k, rfl⟩ := Int.eq_ofNat_of_zero_le (by omega : 0 ≤ m)
    have hk : k < 13 := by omega
    have key : ∀ k : Nat, k < 13 → 1 ≤ k →
        longMonthNames[((k : Int) - 1).toNat]? = some (MonthString (k : Int)) := by decide
    exact key k hk (by omega)
  · intro h1 h2 h3; simp [FormatOutput, h1, h2, h3]

/-- C17, as stated, fails for a year numeral too large for a Go `int`: in
`billme 7 9223372036854775808` both arguments are decimal integers and the
first lies in 1..12, yet `ParseArgs` returns the error for an invalid year,
because 2^63 does not fit a 64-bit `int`. -/
theorem C17_ParseArgs_counterexample :
    ParseArgs noFlags ["7", "9223372036854775808"] (Date 2024 7 1)
        = .error "invalid year: 9223372036854775808"
      ∧ noFlags.helpFlag = false
      ∧ ¬ (2 < ["7", "9223372036854775808"].length)
      ∧ (isDecimalInteger "7" = true ∧ 1 ≤ decimalValue "7" ∧ decimalValue "7" ≤ 12)
      ∧ isDecimalInteger "9223372036854775808" = true
      ∧ decimalValue "9223372036854775808" = 2 ^ 63 :=
  ⟨rfl, rfl, by decide, by decide, by decide, by decide⟩

/-- C17, amended: when help is not requested, `ParseArgs` returns an error
exactly when there are more than two positional arguments, or the first
argument, when present, is not a decimal integer from 1 to 12, or the second
argument, when present, is not a decimal integer that fits a 64-bit `int`.
When it succeeds on two arguments, `Month` and `Year` are the values of the
two numerals, and whenever it succeeds `Month` lies in 1..12. -/
theorem C17_ParseArgs_error_iff (flags : Flags) (args : List String) (now : Time)
    (hhelp : flags.helpFlag = false) :
    (isError (ParseArgs flags args now) = true ↔
        (2 < args.length
          ∨ (∃ a, args[0]? = some a
              ∧ ¬ (isDecimalInteger a = true ∧ 1 ≤ decimalValue a ∧ decimalValue a ≤ 12))
          ∨ (∃ b, args[1]? = some b
              ∧ ¬ (isDecimalInteger b = true ∧ -(2 ^ 63) ≤ decimalValue b
                ∧ decimalValue b ≤ 2 ^ 63 - 1))))
      ∧ (∀ a b cfg, args = [a, b] → ParseArgs flags args now = .ok cfg →
          cfg.Month = decimalValue a ∧ cfg.Year = decimalValue b)
      ∧ (∀ cfg, ParseArgs flags args now = .ok cfg → 1 ≤ cfg.Month ∧ cfg.Month ≤ 12) := by
  have hok : ∀ (l : List String) cfg, ParseArgs flags l now = .ok cfg →
      isError (ParseArgs flags l now) = false := by
    intro l cfg h
    rw [h]
    rfl
  match args with
  | [] =>
    have h0 : ParseArgs flags [] now = .ok
        { Month := now.Month, Year := now.Year, Verbose := flags.verboseFlag,
          KaChing := flags.kaching, InvoiceReady := flags.invoiceReady, Help := flags.helpFlag,
          ExcludeHolidays := flags.excludeHolidaysFlag,
          VacationDays := flags.vacationDaysFlag } := by
      simp only [ParseArgs, hhelp, Bool.false_eq_true, if_false]
    refine ⟨?_, ?_, ?_⟩
    · rw [h0]
      simp [isError]
    · intro a b cfg h
      cases h
    · intro cfg h
      rw [h0] at h
      cases h
      exact ⟨(civil_valid now).1, (civil_valid now).2.1⟩
  | [a] =>
    obtain ⟨h1, h2⟩ := ParseArgs_one flags a now hhelp
    refine ⟨?_, ?_, ?_⟩
    · rw [h1]
      simp
    · intro x y cfg h
      cases h
    · intro cfg h
      have hne := hok _ _ h
      have hm := (h2 cfg h).1
      have hvalid : isDecimalInteger a = true ∧ 1 ≤ decimalValue a ∧ decimalValue a ≤ 12 := by
        by_contra hc
        rw [h1.2 hc] at hne
        cases hne
      omega
  | [a, b] =>
    obtain ⟨h1, h2⟩ := ParseArgs_two flags a b now hhelp
    refine ⟨?_, ?_, ?_⟩
    · rw [h1]
      simp
    · intro x y cfg h hcfg
      cases h
      exact h2 cfg hcfg
    · intro cfg h
      have hne := hok _ _ h
      have hm := (h2 cfg h).1
      have hvalid : isDecimalInteger a = true ∧ 1 ≤ decimalValue a ∧ decimalValue a ≤ 12 := by
        by_contra hc
        rw [h1.2 (Or.inl hc)] at hne
        cases hne
      omega
  | a :: b :: c :: rest =>
    have h3 : ParseArgs flags (a :: b :: c :: rest) now = .error "too many arguments" := by
      simp only [ParseArgs, hhelp, Bool.false_eq_true, if_false]
    refine ⟨?_, ?_, ?_⟩
    · rw [h3]
      simp [isError]
    · intro x y cfg h
      cases h
    · intro cfg h
      rw [h3] at h
      cases h

/-- C17, amended, at the arguments of the tests: "abc", "0" and "13" are
rejected as months, "7 abc" is rejected for the year, "7 2024 extra" has too
many arguments, "7 2024" gives month 7 and year 2024, and each month from 1 to
12 is accepted with the year 2024. -/
theorem C17_ParseArgs_error_iff_witness :
    noFlags.helpFlag = false
      ∧ (isError (ParseArgs noFlags ["7", "abc"] (Date 2024 7 1)) = true ↔
        (2 < ["7", "abc"].length
          ∨ (∃ a, ["7", "abc"][0]? = some a
              ∧ ¬ (isDecimalInteger a = true ∧ 1 ≤ decimalValue a ∧ decimalValue a ≤ 12))
          ∨ (∃ b, ["7", "abc"][1]? = some b
              ∧ ¬ (isDecimalInteger b = true ∧ -(2 ^ 63) ≤ decimalValue b
                ∧ decimalValue b ≤ 2 ^ 63 - 1))))
      ∧ ParseArgs noFlags ["abc"] (Date 2024 7 1) = .error "invalid month: abc"
      ∧ ParseArgs noFlags ["0"] (Date 2024 7 1) = .error "invalid month: 0"
      ∧ ParseArgs noFlags ["13"] (Date 2024 7 1) = .error "invalid month: 13"
      ∧ ParseArgs noFlags ["7", "abc"] (Date 2024 7 1) = .error "invalid year: abc"
      ∧ ParseArgs noFlags ["7", "2024", "extra"] (Date 2024 7 1) = .error "too many arguments"
      ∧ ParseArgs noFlags ["7", "2024"] (Date 2023 1 1)
          = .ok { defaultConfig with Month := 7, Year := 2024 }
      ∧ ParseArgs noFlags ["7"] (Date 2023 1 1) = .ok { defaultConfig with Month := 7, Year := 2023 }
      ∧ ParseArgs noFlags [] (Date 2023 1 1) = .ok { defaultConfig with Month := 1, Year := 2023 }
      ∧ (["1", "2", "3", "4", "5", "6", "7", "8", "9", "10", "11", "12"].map fun a =>
          isError (ParseArgs noFlags [a, "2024"] (Date 2024 7 1)))
          = List.replicate 12 false :=
  ⟨rfl, (C17_ParseArgs_error_iff noFlags ["7", "abc"] (Date 2024 7 1) rfl).1, rfl, rfl, rfl, rfl,
    rfl, rfl, rfl, rfl, by decide⟩

/-- On the calendar without a range limit, for every negative `vacationDays`,
with `W` the result for no vacation days: if
`W - vacationDays` is at most the largest Go `int`, 2^63 - 1, the result is
`W - vacationDays`, which is more than `W`. -/
theorem negative_vacation (month year : Int) (country : String) (excludeHolidays : Bool)
    (vacationDays : Int) (hneg : vacationDays < 0) :
    ∃ W, CountWorkingDaysWithHolidaysAndVacation month year country excludeHolidays 0 = some W
      ∧ (W - vacationDays ≤ 2 ^ 63 - 1 →
          CountWorkingDaysWithHolidaysAndVacation month year country excludeHolidays vacationDays
              = some (W - vacationDays)
            ∧ W < W - vacationDays) := by
  have hb := loopResult_bounds month year country excludeHolidays
  refine ⟨loopResult month year country excludeHolidays, ?_, ?_⟩
  · rw [CountWorkingDaysWithHolidaysAndVacation_eq, clampResult_zero _ hb.1 hb.2]
  · intro hfit
    refine ⟨?_, by omega⟩
    rw [CountWorkingDaysWithHolidaysAndVacation_eq]
    unfold clampResult wrapInt64
    have e : (loopResult month year country excludeHolidays - vacationDays + 2 ^ 63) % 2 ^ 64
        - 2 ^ 63 = loopResult month year country excludeHolidays - vacationDays := by omega
    rw [e, if_neg (by omega)]

/-- C19: for every year in 1583..4099, every month in 1..12 and every
non-empty country, `CountWorkingDaysWithHolidays` with exclusion returns
`CountWorkingDays month year` less `k`, the number of entries of
`GetHolidays year` whose date lies in that month and whose weekday is Monday
to Friday. -/
theorem C19_exclusion_removes_weekday_holidays (year month : Int) (country : String)
    (hy1 : 1583 ≤ year) (hy2 : year ≤ 4099) (hm1 : 1 ≤ month) (hm12 : month ≤ 12)
    (hc : country ≠ "") :
    ∃ a b, CountWorkingDaysWithHolidays month year country true = some a
      ∧ CountWorkingDays month year = some b
      ∧ a = b - weekdayHolidaysInMonth year month := by
  have hb := loopResult_bounds month year country true
  have hny : normYear year month = year := by unfold normYear; omega
  have hnm : normMonth month = month := by unfold normMonth; omega
  have hlen := monthLen_ge (isLeap year) month
  refine ⟨loopResult month year country true, loopResult month year "" false, ?_,
    CountWorkingDays_eq month year, ?_⟩
  · rw [CountWorkingDaysWithHolidays, CountWorkingDaysWithHolidaysAndVacation_eq,
      clampResult_zero _ hb.1 hb.2]
  · have hne : (country != "") = true := by simpa using hc
    have hlist : (if (true && country != "") = true then (GetProvider country).GetHolidays year
        else []) = GetHolidays year := by
      simp only [hne, Bool.and_self, if_true]
      rfl
    simp only [loopResult, hlist, hny, hnm, Bool.false_and, Bool.false_eq_true, if_false]
    rw [countFrom_excl_eq (GetHolidays year) [] 0 (holidayDays_nodup year hy1 hy2)]
    have hcast : ((monthLen (isLeap year) month).toNat : Int) = monthLen (isLeap year) month :=
      Int.toNat_of_nonneg (by omega)
    have hk : (holidayDays (GetHolidays year)).countP
          (fun x => inWindow (Date year month 1).days (monthLen (isLeap year) month).toNat x
            && workdayNumber x)
        = ((GetHolidays year).filter fun h =>
            decide (h.Date.Year = year ∧ h.Date.Month = month
              ∧ Monday ≤ h.Date.Weekday ∧ h.Date.Weekday ≤ Friday)).length := by
      rw [holidayDays, List.countP_map, List.countP_eq_length_filter]
      congr 1
      apply List.filter_congr
      intro h _
      have key := in_month_iff h.Date year month hm1 hm12
      rw [Bool.eq_iff_iff]
      simp only [Function.comp, inWindow, workdayNumber, Bool.and_eq_true, decide_eq_true_eq,
        Time.Weekday, hcast]
      rw [← key]
      tauto
    rw [hk]
    rfl

/-- C19, at the months of 2024 with holidays: one weekday holiday in July, three
in December and one, Easter Monday, in April; none in June. -/
theorem C19_exclusion_removes_weekday_holidays_witness :
    (∃ a b, CountWorkingDaysWithHolidays 7 2024 "CZ" true = some a
      ∧ CountWorkingDays 7 2024 = some b ∧ a = b - weekdayHolidaysInMonth 2024 7)
      ∧ weekdayHolidaysInMonth 2024 7 = 1
      ∧ weekdayHolidaysInMonth 2024 12 = 3
      ∧ weekdayHolidaysInMonth 2024 4 = 1
      ∧ weekdayHolidaysInMonth 2024 6 = 0
      ∧ CountWorkingDaysWithHolidays 12 2024 "CZ" true = some (22 - 3)
      ∧ CountWorkingDaysWithHolidays 4 2024 "CZ" true = some (22 - 1) :=
  ⟨C19_exclusion_removes_weekday_holidays 2024 7 "CZ" (by decide) (by decide) (by decide)
    (by decide) (by decide), by decide, by decide, by decide, by decide, by decide, by decide⟩

/-- C20, as stated, fails: 6 July 2024 is in the holiday set but it is a
Saturday, not a day from Monday to Friday. -/
theorem C20_july_6_counterexample :
    IsHoliday (Date 2024 7 6) (GetHolidays 2024) = true
      ∧ (Date 2024 7 6).Weekday = 6
      ∧ ¬ (Monday ≤ (Date 2024 7 6).Weekday ∧ (Date 2024 7 6).Weekday ≤ Friday)
      ∧ countsDay false [] (Date 2024 7 6) = false := by
  decide

/-- C20, amended: in July 2024 with Czech holiday exclusion the one working
day removed is 5 July, the day of Cyril and Methodius: it is in the holiday
set, it is a Friday, and it is the only holiday of July 2024 on a day from
Monday to Friday; 6 July, Jan Hus Day, is in the holiday set too but is a
Saturday.  The loop counts 5 July without exclusion and not with it, and it
treats every other day of the month the same either way. -/
theorem C20_july_5_removed :
    (GetHolidays 2024).filter (fun h => h.Date.Year = 2024 ∧ h.Date.Month = 7
        ∧ Monday ≤ h.Date.Weekday ∧ h.Date.Weekday ≤ Friday)
        = [⟨"Den slovanských věrozvěstů Cyrila a Metoděje", Date 2024 7 5⟩]
      ∧ (Date 2024 7 5).Weekday = Friday
      ∧ IsHoliday (Date 2024 7 5) (GetHolidays 2024) = true
      ∧ IsHoliday (Date 2024 7 6) (GetHolidays 2024) = true
      ∧ (Date 2024 7 6).Weekday = 6
      ∧ countsDay false [] (Date 2024 7 5) = true
      ∧ countsDay true (GetHolidays 2024) (Date 2024 7 5) = false
      ∧ (∀ d ∈ List.range' 1 31, d ≠ 5 →
          countsDay true (GetHolidays 2024) (Date 2024 7 (d : Int))
            = countsDay false [] (Date 2024 7 (d : Int)))
      ∧ CountWorkingDays 7 2024 = some 23
      ∧ CountWorkingDaysWithHolidays 7 2024 "CZ" true = some 22 := by
  decide

end MoreClaims


/-! ## Further lemmas: the Easter arithmetic, the yearly total, Easter Monday -/

namespace holidays
open time

/-- For a year that is not negative, every division and remainder of
`calculateEaster` has a left operand that is not negative, and the code
computes the month and day of the specification's formulas. -/
theorem easter_floor (year : Int) (h : 0 ≤ year) :
    (∀ x ∈ easterOperands year, 0 ≤ x) ∧ easterMonthDay year = meeusMonthDay year := by
  have t := fun (a b : Int) (ha : 0 ≤ a) (hb : 0 ≤ b) => @Int.tdiv_eq_ediv a b ha hb
  have m := fun (a b : Int) (ha : 0 ≤ a) (hb : 0 ≤ b) => @Int.tmod_eq_emod a b ha hb
  have e1 := m year 19 h (by omega)
  have e2 := t year 100 h (by omega)
  have e3 := m year 100 h (by omega)
  generalize hg : year % 19 = g at e1
  generalize hc : year / 100 = c at e2
  generalize hyc : year % 100 = yc at e3
  have bg : 0 ≤ g ∧ g ≤ 18 := by clear * - hg; omega
  have bc : 0 ≤ c := by clear * - hc h; omega
  have byc : 0 ≤ yc ∧ yc ≤ 99 := by clear * - hyc; omega
  have e4 := t c 4 bc (by omega)
  have e5 := m c 4 bc (by omega)
  have e6 := t (c + 8) 25 (by clear * - bc; omega) (by omega)
  generalize hclc : c / 4 = clc at e4
  generalize hcr : c % 4 = cr at e5
  generalize hmoc : (c + 8) / 25 = moc at e6
  have bcr : 0 ≤ cr ∧ cr ≤ 3 := by clear * - hcr; omega
  have bmoc : 0 ≤ moc ∧ moc ≤ c + 1 := by clear * - hmoc bc; omega
  have e7 := t (c - moc + 1) 3 (by clear * - bmoc; omega) (by omega)
  generalize hmca : (c - moc + 1) / 3 = mca at e7
  have bop : 0 ≤ 19 * g + c - clc - mca + 15 := by clear * - bg bc hclc hmca bmoc; omega
  have e8 := m (19 * g + c - clc - mca + 15) 30 bop (by omega)
  generalize hep : (19 * g + c - clc - mca + 15) % 30 = ep at e8
  have bep : 0 ≤ ep ∧ ep ≤ 29 := by clear * - hep; omega
  have e9 := t yc 4 byc.1 (by omega)
  have e10 := m yc 4 byc.1 (by omega)
  generalize hylc : yc / 4 = ylc at e9
  generalize hyr : yc % 4 = yr at e10
  have bylc : 0 ≤ ylc := by clear * - hylc byc; omega
  have byr : 0 ≤ yr ∧ yr ≤ 3 := by clear * - hyr; omega
  have bw : 0 ≤ 32 + 2 * cr + 2 * ylc - ep - yr := by clear * - bcr bylc bep byr; omega
  have e11 := m (32 + 2 * cr + 2 * ylc - ep - yr) 7 bw (by omega)
  generalize hwc : (32 + 2 * cr + 2 * ylc - ep - yr) % 7 = wc at e11
  have bwc : 0 ≤ wc ∧ wc ≤ 6 := by clear * - hwc; omega
  have bmc : 0 ≤ g + 11 * ep + 22 * wc := by clear * - bg bep bwc; omega
  have e12 := t (g + 11 * ep + 22 * wc) 451 bmc (by omega)
  generalize hmc : (g + 11 * ep + 22 * wc) / 451 = mc at e12
  have bmc2 : 0 ≤ mc ∧ mc ≤ 1 := by clear * - hmc bg bep bwc; omega
  have bs : 0 ≤ ep + wc - 7 * mc + 114 := by clear * - bmc2 bep bwc; omega
  have e13 := t (ep + wc - 7 * mc + 114) 31 bs (by omega)
  have e14 := m (ep + wc - 7 * mc + 114) 31 bs (by omega)
  constructor
  · intro x hx
    simp only [easterOperands, e1, e2, e3, e4, e5, e6, e7, e8, e9, e10, e11, e12, List.mem_cons,
      List.mem_singleton, List.not_mem_nil, or_false] at hx
    rcases hx with rfl | rfl | rfl | rfl | rfl | rfl | rfl | rfl | rfl | rfl | rfl | rfl | rfl | rfl
    all_goals (clear * - h bg bc byc bcr bmoc bop bw bmc bs; omega)
  · simp only [easterMonthDay, meeusMonthDay, e1, e2, e3, e4, e5, e6, e7, e8, e9, e10, e11, e12,
      e13, e14, hg, hc, hyc, hclc, hcr, hmoc, hmca, hep, hylc, hyr, hwc, hmc]

end holidays

namespace calculator
open time holidays

/-- Any `7 * k` consecutive days hold `5 * k` days from Monday to Friday. -/
theorem countFrom_weeks (hl : List Holiday) (s : Int) :
    ∀ (k : Nat) (d : Int), countFrom false hl s (7 * k) d = 5 * k := by
  intro k
  induction k with
  | zero => intro d; rfl
  | succ k ih =>
    intro d
    have e : 7 * (k + 1) = 7 + 7 * k := by ring
    rw [e, countFrom_add, countFrom_week, ih]
    push_cast
    ring

/-- The working days of a month in 1..12, as a count from the first of the
month on. -/
theorem loopResult_month (year m : Int) (hm : 1 ≤ m) (hm12 : m ≤ 12) :
    loopResult m year "" false
      = countFrom false [] 0 (monthLen (isLeap year) m).toNat (Date year m 1).days := by
  have hy : normYear year m = year := by unfold normYear; omega
  have hn : normMonth m = m := by unfold normMonth; omega
  simp only [loopResult, hy, hn, Bool.false_and, Bool.false_eq_true, if_false]

/-- The working days of `k` months in a row are the working days among the
days from the first of the first month to the first of the month after the
last. -/
theorem monthsTotal_eq (year : Int) :
    ∀ (k : Nat) (m : Int), 1 ≤ m → m + k ≤ 13 →
      ∃ n : Nat, (n : Int) = (Date year (m + k) 1).days - (Date year m 1).days
        ∧ monthsTotal year k m = countFrom false [] 0 n (Date year m 1).days := by
  intro k
  induction k with
  | zero =>
    intro m _ _
    exact ⟨0, by simp, rfl⟩
  | succ k ih =>
    intro m hm hk
    push_cast at hk
    have hnext := Date_next_month year m hm (by omega)
    have hlen := monthLen_ge (isLeap year) m
    obtain ⟨n, hn, htot⟩ := ih (m + 1) (by omega) (by omega)
    have e : m + 1 + (k : Int) = m + ((k + 1 : Nat) : Int) := by push_cast; ring
    rw [e] at hn
    have hcast : ((monthLen (isLeap year) m).toNat : Int) = monthLen (isLeap year) m :=
      Int.toNat_of_nonneg (by omega)
    refine ⟨(monthLen (isLeap year) m).toNat + n, ?_, ?_⟩
    · rw [Nat.cast_add, hcast, hn, hnext]
      ring
    · rw [monthsTotal, htot, loopResult_month year m hm (by omega), countFrom_add, hcast, hnext]

/-- The working days of the twelve months of a year: 260 for the first 52
weeks and those among the one or two days left. -/
theorem monthsTotal_year (year : Int) :
    260 ≤ monthsTotal year 12 1 ∧ monthsTotal year 12 1 ≤ 262 := by
  obtain ⟨n, hn, htot⟩ := monthsTotal_eq year 12 1 le_rfl (by norm_num)
  have e13 : Date year (1 + ((12 : Nat) : Int)) 1 = Date (year + 1) 1 1 := by
    rw [Date_norm]; norm_num
  have hoff : ∀ l : Bool, monthOffset l 1 = 0 := by decide
  rw [e13, Date_days _ _ _ le_rfl (by norm_num), Date_days _ _ _ le_rfl (by norm_num),
    daysSinceEpoch_succ, hoff, hoff] at hn
  have hlen : yearLen year = 365 ∨ yearLen year = 366 := by
    unfold yearLen; split
    · exact Or.inr rfl
    · exact Or.inl rfl
  have hn2 : n = 7 * 52 + (n - 364) ∧ 1 ≤ n - 364 ∧ n - 364 ≤ 2 := by omega
  rw [htot, hn2.1, countFrom_add, countFrom_weeks]
  have h0 := countFrom_nonneg false [] 0 (n - 364) ((Date year 1 1).days + ((7 * 52 : Nat) : Int))
  have h1 := countFrom_le false [] 0 (n - 364) ((Date year 1 1).days + ((7 * 52 : Nat) : Int))
  push_cast at h0 h1 ⊢
  omega

/-- What the loop over the twelve months adds up. -/
theorem totalWorkingDays_eq (year : Int) :
    totalWorkingDays year = some (monthsTotal year 12 1) := by
  have e : List.range' 1 12 = [1, 2, 3, 4, 5, 6, 7, 8, 9, 10, 11, 12] := rfl
  simp only [totalWorkingDays, e, List.foldl_cons, List.foldl_nil, CountWorkingDays_eq,
    Option.map_some', Option.some_bind, monthsTotal]
  norm_num
  ring

end calculator

namespace calculator
open time holidays

/-- The Easter Monday entry of a year from 1583 to 4099 is a Monday of that
year, between 23 March and 26 April. -/
theorem easterMonday_civil (year : Int) (h1 : 1583 ≤ year) (h2 : year ≤ 4099) :
    (getEasterMonday year).Date.Year = year
      ∧ (((getEasterMonday year).Date.Month = 3 ∧ 23 ≤ (getEasterMonday year).Date.Day
          ∧ (getEasterMonday year).Date.Day ≤ 31)
        ∨ ((getEasterMonday year).Date.Month = 4 ∧ 1 ≤ (getEasterMonday year).Date.Day
          ∧ (getEasterMonday year).Date.Day ≤ 26))
      ∧ (getEasterMonday year).Date.Weekday = Monday := by
  obtain ⟨lo, hi⟩ := easterMonday_days year h1 h2
  obtain ⟨_, _, d1, dlen, hdate⟩ := civil_valid (getEasterMonday year).Date
  have h34 := Date_next_month year 3 (by omega) (by omega)
  have hm3 : monthLen (isLeap year) 3 = 31 := by simp [monthLen]
  have hm4 : monthLen (isLeap year) 4 = 30 := by simp [monthLen]
  have b := Date_add_day year 3 1 22
  have c := Date_add_day year 4 1 25
  norm_num at b c h34
  rw [hm3] at h34
  have hw : (getEasterMonday year).Date.Weekday = Monday := by
    obtain ⟨n, hn⟩ := Int.eq_ofNat_of_zero_le (by omega : 0 ≤ year - 1583)
    have hy : year = 1583 + (n : Int) := by omega
    have hc := easterCheck_range n (by omega)
    rw [← hy] at hc
    simp only [easterCheck, Bool.and_eq_true, beq_iff_eq] at hc
    have hs := hc.2
    have hE := AddDate_one (calculateEaster year)
    simp only [getEasterMonday, hE, Time.Weekday, Monday, Sunday] at hs ⊢
    omega
  by_cases hlt : (getEasterMonday year).Date.days < (Date year 4 1).days
  · obtain ⟨hY, hM⟩ := (in_month_iff (getEasterMonday year).Date year 3 (by omega) (by omega)).2
      ⟨by omega, by omega⟩
    refine ⟨hY, Or.inl ⟨hM, ?_, ?_⟩, hw⟩
    · rw [hY, hM] at hdate
      have a := Date_add_day year 3 1 ((getEasterMonday year).Date.Day - 1)
      have e : (1 : Int) + ((getEasterMonday year).Date.Day - 1)
          = (getEasterMonday year).Date.Day := by ring
      rw [e] at a
      omega
    · rw [hY, hM, hm3] at dlen
      exact dlen
  · obtain ⟨hY, hM⟩ := (in_month_iff (getEasterMonday year).Date year 4 (by omega) (by omega)).2
      ⟨by omega, by omega⟩
    refine ⟨hY, Or.inr ⟨hM, d1, ?_⟩, hw⟩
    rw [hY, hM] at hdate
    have a := Date_add_day year 4 1 ((getEasterMonday year).Date.Day - 1)
    have e : (1 : Int) + ((getEasterMonday year).Date.Day - 1)
        = (getEasterMonday year).Date.Day := by ring
    rw [e] at a
    omega

/-- Every holiday of a year from 1583 to 4099 is dated in that year. -/
theorem GetHolidays_year (year : Int) (h1 : 1583 ≤ year) (h2 : year ≤ 4099) :
    ∀ h ∈ GetHolidays year, h.Date.Year = year := by
  have fy : ∀ m d : Int, 1 ≤ m → m ≤ 12 → 1 ≤ d → d ≤ monthLen false m →
      (Date year m d).Year = year := by
    intro m d a b c e
    have := Date_civil_eq year m d a b c e
    simp only [Time.civil, Prod.mk.injEq] at this
    exact this.1
  intro h hh
  simp only [GetHolidays, List.cons_append, List.nil_append, List.mem_cons, List.mem_singleton,
    List.not_mem_nil, or_false] at hh
  rcases hh with rfl | rfl | rfl | rfl | rfl | rfl | rfl | rfl | rfl | rfl | rfl | rfl
  iterate 11 exact fy _ _ (by decide) (by decide) (by decide) (by decide)
  exact (easterMonday_civil year h1 h2).1

/-- The twelve holidays of a year from 1583 to 4099 have twelve different
dates. -/
theorem GetHolidays_civil_nodup (year : Int) (h1 : 1583 ≤ year) (h2 : year ≤ 4099) :
    ((GetHolidays year).map fun h => h.Date.civil).Nodup := by
  have hd : ((GetHolidays year).map fun h => h.Date.days).Nodup := holidayDays_nodup year h1 h2
  have hl : (GetHolidays year).Nodup := List.Nodup.of_map _ hd
  refine List.Nodup.map_on ?_ hl
  intro x hx y hy hxy
  simp only [Time.civil, Prod.mk.injEq] at hxy
  exact List.inj_on_of_nodup_map hd hx hy (civil_inj _ _ hxy.1 hxy.2.1 hxy.2.2)

/-- With exclusion and a country, the loop finds the working days of the
month less the holidays of the month that fall on a day from Monday to
Friday. -/
theorem loopResult_excl (year month : Int) (country : String) (hy1 : 1583 ≤ year)
    (hy2 : year ≤ 4099) (hm1 : 1 ≤ month) (hm12 : month ≤ 12) (hc : country ≠ "") :
    loopResult month year country true
      = loopResult month year "" false - weekdayHolidaysInMonth year month := by
  have hny : normYear year month = year := by unfold normYear; omega
  have hnm : normMonth month = month := by unfold normMonth; omega
  have hlen := monthLen_ge (isLeap year) month
  have hne : (country != "") = true := by simpa using hc
  have hlist : (if (true && country != "") = true then (GetProvider country).GetHolidays year
      else []) = GetHolidays year := by
    simp only [hne, Bool.and_self, if_true]
    rfl
  simp only [loopResult, hlist, hny, hnm, Bool.false_and, Bool.false_eq_true, if_false]
  rw [countFrom_excl_eq (GetHolidays year) [] 0 (holidayDays_nodup year hy1 hy2)]
  have hcast : ((monthLen (isLeap year) month).toNat : Int) = monthLen (isLeap year) month :=
    Int.toNat_of_nonneg (by omega)
  have hk : (holidayDays (GetHolidays year)).countP
        (fun x => inWindow (Date year month 1).days (monthLen (isLeap year) month).toNat x
          && workdayNumber x)
      = ((GetHolidays year).filter fun h =>
          decide (h.Date.Year = year ∧ h.Date.Month = month
            ∧ Monday ≤ h.Date.Weekday ∧ h.Date.Weekday ≤ Friday)).length := by
    rw [holidayDays, List.countP_map, List.countP_eq_length_filter]
    congr 1
    apply List.filter_congr
    intro h _
    have key := in_month_iff h.Date year month hm1 hm12
    rw [Bool.eq_iff_iff]
    simp only [Function.comp, inWindow, workdayNumber, Bool.and_eq_true, decide_eq_true_eq,
      Time.Weekday, hcast]
    rw [← key]
    tauto
  rw [hk]
  rfl

/-- The month of Easter Monday holds at least one holiday on a day from Monday
to Friday. -/
theorem weekdayHolidays_easter_pos (year : Int) (h1 : 1583 ≤ year) (h2 : year ≤ 4099) :
    1 ≤ weekdayHolidaysInMonth year (getEasterMonday year).Date.Month := by
  obtain ⟨hY, _, hW⟩ := easterMonday_civil year h1 h2
  have hmem : getEasterMonday year ∈ (GetHolidays year).filter fun h =>
      decide (h.Date.Year = year ∧ h.Date.Month = (getEasterMonday year).Date.Month
        ∧ Monday ≤ h.Date.Weekday ∧ h.Date.Weekday ≤ Friday) := by
    rw [List.mem_filter]
    refine ⟨by simp [GetHolidays], ?_⟩
    rw [decide_eq_true_eq, hW]
    exact ⟨hY, rfl, by decide, by decide⟩
  have := List.length_pos_of_mem hmem
  simp only [weekdayHolidaysInMonth]
  omega

end calculator

/-! ## Properties of the Easter arithmetic, the yearly total and the holiday set -/

section LastClaims

open time holidays calculator

/-- C21: for every year that is not negative, in particular every year in
1583..4099, the left operand of every division and remainder of
`calculateEaster` is not negative, so Go's truncating `/` and `%` agree there
with floor division and the mathematical remainder, and the month and day the
code computes are those of the specification's formulas. -/
theorem C21_easter_operands_nonneg (year : Int) (h : 0 ≤ year) :
    (∀ x ∈ easterOperands year, 0 ≤ x)
      ∧ easterMonthDay year = meeusMonthDay year
      ∧ calculateEaster year = Date year (meeusMonthDay year).1 (meeusMonthDay year).2 := by
  obtain ⟨hop, heq⟩ := easter_floor year h
  exact ⟨hop, heq, by rw [calculateEaster, heq]⟩

/-- C21, at the year 2024: the fourteen operands, among them 214 for the epact
and 40 for the weekday correction, are not negative, and both the code and the
formulas give 31 March. -/
theorem C21_easter_operands_nonneg_witness :
    (0 : Int) ≤ 2024
      ∧ ((∀ x ∈ easterOperands 2024, 0 ≤ x)
        ∧ easterMonthDay 2024 = meeusMonthDay 2024
        ∧ calculateEaster 2024 = Date 2024 (meeusMonthDay 2024).1 (meeusMonthDay 2024).2)
      ∧ easterOperands 2024 = [2024, 2024, 2024, 20, 20, 28, 20, 214, 24, 24, 40, 164, 123, 123]
      ∧ meeusMonthDay 2024 = (3, 31) :=
  ⟨by decide, C21_easter_operands_nonneg 2024 (by decide), by decide, by decide⟩

/-- On the calendar without a range limit, for every year, the sum of
`CountWorkingDays month year` over the months 1 to 12 is at least 250 and at
most 270; it is in fact between 260 and 262, and 262 for the year 2024. -/
theorem yearly_total (year : Int) :
    ∃ total, totalWorkingDays year = some total ∧ 250 ≤ total ∧ total ≤ 270
      ∧ 260 ≤ total ∧ total ≤ 262 ∧ totalWorkingDays 2024 = some 262 := by
  have hb := monthsTotal_year year
  exact ⟨_, totalWorkingDays_eq year, by omega, by omega, hb.1, hb.2, by decide⟩

/-- C23: for every year in 1583..4099, the twelve dates of `GetHolidays year`
are pairwise different and each of them, Easter Monday included, lies in the
requested year; Easter Monday, the last entry, lies between 23 March and
26 April and is the date of none of the eleven fixed holidays. -/
theorem C23_holidays_distinct (year : Int) (h1 : 1583 ≤ year) (h2 : year ≤ 4099) :
    ((GetHolidays year).map fun h => h.Date.civil).Nodup
      ∧ (∀ h ∈ GetHolidays year, h.Date.Year = year)
      ∧ (GetHolidays year)[11]? = some (getEasterMonday year)
      ∧ (((getEasterMonday year).Date.Month = 3 ∧ 23 ≤ (getEasterMonday year).Date.Day
          ∧ (getEasterMonday year).Date.Day ≤ 31)
        ∨ ((getEasterMonday year).Date.Month = 4 ∧ 1 ≤ (getEasterMonday year).Date.Day
          ∧ (getEasterMonday year).Date.Day ≤ 26))
      ∧ (∀ h ∈ (GetHolidays year).take 11, h.Date.civil ≠ (getEasterMonday year).Date.civil) := by
  have hnd := GetHolidays_civil_nodup year h1 h2
  refine ⟨hnd, GetHolidays_year year h1 h2, rfl, (easterMonday_civil year h1 h2).2.1, ?_⟩
  intro h hh heq
  have hsplit : GetHolidays year = (GetHolidays year).take 11 ++ [getEasterMonday year] := rfl
  rw [hsplit, List.map_append, List.nodup_append] at hnd
  exact hnd.2.2 (List.mem_map_of_mem (fun h => h.Date.civil) hh) (by simp [heq])

/-- C23, at the year 2024: the twelve dates, with Easter Monday on 1 April. -/
theorem C23_holidays_distinct_witness :
    (1583 : Int) ≤ 2024 ∧ (2024 : Int) ≤ 4099
      ∧ (((GetHolidays 2024).map fun h => h.Date.civil).Nodup
        ∧ (∀ h ∈ GetHolidays 2024, h.Date.Year = 2024)
        ∧ (GetHolidays 2024)[11]? = some (getEasterMonday 2024)
        ∧ (((getEasterMonday 2024).Date.Month = 3 ∧ 23 ≤ (getEasterMonday 2024).Date.Day
            ∧ (getEasterMonday 2024).Date.Day ≤ 31)
          ∨ ((getEasterMonday 2024).Date.Month = 4 ∧ 1 ≤ (getEasterMonday 2024).Date.Day
            ∧ (getEasterMonday 2024).Date.Day ≤ 26))
        ∧ (∀ h ∈ (GetHolidays 2024).take 11,
            h.Date.civil ≠ (getEasterMonday 2024).Date.civil))
      ∧ (GetHolidays 2024).map (fun h => h.Date.civil)
          = [(2024, 1, 1), (2024, 5, 1), (2024, 5, 8), (2024, 7, 5), (2024, 7, 6), (2024, 9, 28),
              (2024, 10, 28), (2024, 11, 17), (2024, 12, 24), (2024, 12, 25), (2024, 12, 26),
              (2024, 4, 1)] :=
  ⟨by decide, by decide, C23_holidays_distinct 2024 (by decide) (by decide), by decide⟩

/-- C24: for every year in 1583..4099 the Easter Monday entry of
`GetHolidays year`, the last one, falls on a Monday, and for the month that
holds it, March or April, and any non-empty country, the count with holiday
exclusion is strictly less than `CountWorkingDays` of that month. -/
theorem C24_easter_monday_removed (year : Int) (country : String) (h1 : 1583 ≤ year)
    (h2 : year ≤ 4099) (hc : country ≠ "") :
    (GetHolidays year)[11]? = some (getEasterMonday year)
      ∧ (getEasterMonday year).Date.Weekday = Monday
      ∧ (getEasterMonday year).Date.Year = year
      ∧ ((getEasterMonday year).Date.Month = 3 ∨ (getEasterMonday year).Date.Month = 4)
      ∧ ∃ a b, CountWorkingDaysWithHolidays (getEasterMonday year).Date.Month year country true
            = some a
          ∧ CountWorkingDays (getEasterMonday year).Date.Month year = some b
          ∧ a < b := by
  obtain ⟨hY, hM, hW⟩ := easterMonday_civil year h1 h2
  have hm : (getEasterMonday year).Date.Month = 3 ∨ (getEasterMonday year).Date.Month = 4 := by
    rcases hM with h | h
    · exact Or.inl h.1
    · exact Or.inr h.1
  have hb := loopResult_bounds (getEasterMonday year).Date.Month year country true
  have hk := weekdayHolidays_easter_pos year h1 h2
  have he := loopResult_excl year (getEasterMonday year).Date.Month country h1 h2
    (by omega) (by omega) hc
  refine ⟨rfl, hW, hY, hm, loopResult (getEasterMonday year).Date.Month year country true,
    loopResult (getEasterMonday year).Date.Month year "" false, ?_, CountWorkingDays_eq _ _, ?_⟩
  · rw [CountWorkingDaysWithHolidays, CountWorkingDaysWithHolidaysAndVacation_eq,
      clampResult_zero _ hb.1 hb.2]
  · omega

/-- C24, at the year 2024: Easter Monday is Monday 1 April, and April has 21
working days with exclusion against 22 without. -/
theorem C24_easter_monday_removed_witness :
    (1583 : Int) ≤ 2024 ∧ (2024 : Int) ≤ 4099 ∧ "CZ" ≠ ""
      ∧ ((GetHolidays 2024)[11]? = some (getEasterMonday 2024)
        ∧ (getEasterMonday 2024).Date.Weekday = Monday
        ∧ (getEasterMonday 2024).Date.Year = 2024
        ∧ ((getEasterMonday 2024).Date.Month = 3 ∨ (getEasterMonday 2024).Date.Month = 4)
        ∧ ∃ a b, CountWorkingDaysWithHolidays (getEasterMonday 2024).Date.Month 2024 "CZ" true
              = some a
            ∧ CountWorkingDays (getEasterMonday 2024).Date.Month 2024 = some b
            ∧ a < b)
      ∧ (getEasterMonday 2024).Date.civil = (2024, 4, 1)
      ∧ CountWorkingDaysWithHolidays 4 2024 "CZ" true = some 21
      ∧ CountWorkingDays 4 2024 = some 22 :=
  ⟨by decide, by decide, by decide,
    C24_easter_monday_removed 2024 "CZ" (by decide) (by decide) (by decide),
    by decide, by decide, by decide⟩

end LastClaims


/-! ## Go's 64-bit time: agreement with the calendar, and where it wraps -/

namespace go64
open time holidays

/-- A value within the range of `int64` is not changed by the conversion. -/
theorem int64_id (x : Int) (h1 : -2 ^ 63 ≤ x) (h2 : x < 2 ^ 63) : int64 x = x := by
  unfold int64
  omega

/-- A value within the range of `uint64` is not changed by the conversion. -/
theorem uint64_id (x : Int) (h1 : 0 ≤ x) (h2 : x < 2 ^ 64) : uint64 x = x := by
  unfold uint64
  omega

/-- The time made from a seconds count has that seconds count. -/
theorem sec_ofSec (s : Int) : sec (ofSec s) = s := by
  simp only [sec, ofSec]
  omega

/-- Go's `daysSinceEpoch` counts from the absolute epoch, 106751990353932 days
before 0001-01-01: from the absolute zero year on it is the calendar's day
number moved by that many days. -/
theorem daysSinceEpoch_calendar (y : Int) (h1 : -292277022399 ≤ y) (h2 : y ≤ 292277024627) :
    daysSinceEpoch y = time.daysSinceEpoch y + 106751990353932 := by
  have e0 : uint64 (y - absoluteZeroYear) = (y - 1) + 292277022400 := by
    simp only [uint64, absoluteZeroYear]
    omega
  have e1 : ((y - 1) + 292277022400) / 400 = (y - 1) / 400 + 730692556 := by omega
  have e2 : (y - 1) + 292277022400 - 400 * ((y - 1) / 400 + 730692556)
      = y - 1 - 400 * ((y - 1) / 400) := by ring
  simp only [daysSinceEpoch, time.daysSinceEpoch, e0, e1, e2]
  have hn : -730692556 ≤ (y - 1) / 400 ∧ (y - 1) / 400 ≤ 730692561 := by omega
  have hr : 0 ≤ y - 1 - 400 * ((y - 1) / 400) ∧ y - 1 - 400 * ((y - 1) / 400) < 400 := by omega
  generalize y - 1 - 400 * ((y - 1) / 400) = r at hr ⊢
  generalize (y - 1) / 400 = n at hn ⊢
  have ha : 0 ≤ r / 100 ∧ r / 100 ≤ 3 := by omega
  generalize hr2 : r - 100 * (r / 100) = r2
  have hr2b : 0 ≤ r2 ∧ r2 < 100 := by omega
  generalize r / 100 = a at ha ⊢
  have hb : 0 ≤ r2 / 4 ∧ r2 / 4 ≤ 24 := by omega
  have hc : 0 ≤ r2 - 4 * (r2 / 4) ∧ r2 - 4 * (r2 / 4) ≤ 3 := by omega
  generalize r2 - 4 * (r2 / 4) = c at hc ⊢
  generalize r2 / 4 = b at hb ⊢
  clear * - hn ha hb hc
  unfold uint64
  omega

/-- Where nothing wraps, `time.Date` makes the time the calendar gives: the month,
the day and the year after carrying the month fit in an `int64`, that year is
not before the absolute zero year, and the day number lies in the range Go's
seconds count holds. -/
theorem dateClock_calendar (y m d c : Int) (hm1 : -2 ^ 63 < m) (hm2 : m ≤ 2 ^ 63)
    (hy1 : -292277022399 ≤ normYear y m) (hy2 : normYear y m ≤ 292277024627)
    (hd1 : -2 ^ 63 < d) (hd2 : d ≤ 2 ^ 63)
    (hD1 : -106751990353932 ≤ (time.Date y m d).days)
    (hD2 : (time.Date y m d).days ≤ 106751991167299)
    (hc1 : 0 ≤ c) (hc2 : c < 86400) :
    dateClock y m d c = ⟨(time.Date y m d).days, c⟩ := by
  simp only [normYear] at hy1 hy2
  have e1 : int64 (m - 1) = m - 1 := int64_id _ (by omega) (by omega)
  have e2 : int64 (y + (m - 1) / 12) = y + (m - 1) / 12 := int64_id _ (by omega) (by omega)
  have e3 : int64 (d - 1) = d - 1 := int64_id _ (by omega) (by omega)
  have e4 := daysSinceEpoch_calendar (y + (m - 1) / 12) hy1 hy2
  simp only [time.Date] at hD1 hD2
  simp only [dateClock, time.Date, e1, e2, e3, e4]
  generalize time.daysSinceEpoch (y + (m - 1) / 12) = A at *
  generalize daysBefore ((m - 1) % 12) = B at *
  generalize (isLeap (y + (m - 1) / 12) && decide (2 ≤ (m - 1) % 12)) = l at *
  clear e1 e2 e3 e4 hy1 hy2 hm1 hm2
  cases l
  · simp only [Bool.false_eq_true, if_false] at *
    have h1 : uint64 (A + 106751990353932 + B + uint64 (d - 1))
        = A + B + (d - 1) + 106751990353932 := by
      unfold uint64; omega
    rw [h1]
    have h2 : uint64 ((A + B + (d - 1) + 106751990353932) * 86400 + c)
        = (A + B + (d - 1) + 106751990353932) * 86400 + c := by
      unfold uint64; omega
    rw [h2]
    have h3 : int64 (int64 ((A + B + (d - 1) + 106751990353932) * 86400 + c) + absoluteToInternal)
        = 86400 * (A + B + (d - 1)) + c := by
      simp only [int64, absoluteToInternal]; omega
    rw [h3]
    simp only [ofSec, Time.mk.injEq]
    constructor <;> omega
  · simp only [if_true] at *
    have h1 : uint64 (A + 106751990353932 + B + 1 + uint64 (d - 1))
        = A + B + 1 + (d - 1) + 106751990353932 := by
      unfold uint64; omega
    rw [h1]
    have h2 : uint64 ((A + B + 1 + (d - 1) + 106751990353932) * 86400 + c)
        = (A + B + 1 + (d - 1) + 106751990353932) * 86400 + c := by
      unfold uint64; omega
    rw [h2]
    have h3 : int64 (int64 ((A + B + 1 + (d - 1) + 106751990353932) * 86400 + c)
          + absoluteToInternal)
        = 86400 * (A + B + 1 + (d - 1)) + c := by
      simp only [int64, absoluteToInternal]; omega
    rw [h3]
    simp only [ofSec, Time.mk.injEq]
    constructor <;> omega

/-- The absolute seconds count of a time in range. -/
theorem abs_calendar (t : Time) (h : inRange t) :
    abs t = 86400 * (t.days + 106751990353932) + t.secs := by
  obtain ⟨h1, h2, h3, h4⟩ := h
  simp only [abs, sec, uint64, internalToAbsolute]
  omega

theorem abs_div (t : Time) (h : inRange t) : abs t / 86400 = t.days + 106751990353932 := by
  rw [abs_calendar t h]
  obtain ⟨h1, h2, h3, h4⟩ := h
  omega

/-- Moving a day number by the 730692556 cycles of 400 years between the
absolute epoch and 0001-01-01 moves the year by 292277022400. -/
theorem yearDay_shift (d : Int) :
    yearDay (d + 106751990353932) = ((yearDay d).1 + 292277022400, (yearDay d).2) := by
  have e1 : (d + 106751990353932) / 146097 = d / 146097 + 730692556 := by omega
  have e2 : d + 106751990353932 - 146097 * (d / 146097 + 730692556)
      = d - 146097 * (d / 146097) := by ring
  simp only [yearDay, e1, e2, Prod.mk.injEq, and_true]
  ring

theorem absYearDay_calendar (t : Time) (h : inRange t) : absYearDay t = yearDay t.days := by
  simp only [absYearDay, abs_div t h, yearDay_shift, absoluteZeroYear]
  ext
  · simp only; ring
  · rfl

theorem Year_calendar (t : Time) (h : inRange t) : Year t = t.Year := by
  simp only [Year, Time.Year, absYearDay_calendar t h]

theorem Month_calendar (t : Time) (h : inRange t) : Month t = t.Month := by
  simp only [Month, Time.Month, absYearDay_calendar t h]

theorem Day_calendar (t : Time) (h : inRange t) : Day t = t.Day := by
  simp only [Day, Time.Day, absYearDay_calendar t h]

theorem civil_calendar (t : Time) (h : inRange t) : civil t = t.civil := by
  simp only [civil, Time.civil, Year_calendar t h, Month_calendar t h, Day_calendar t h]

theorem clock_calendar (t : Time) (h : inRange t) : clock t = t.secs := by
  simp only [clock, abs_calendar t h]
  obtain ⟨h1, h2, h3, h4⟩ := h
  omega

/-- Go's `Time.Weekday` on a time in range is the weekday of the calendar. -/
theorem Weekday_calendar (t : Time) (h : inRange t) : Weekday t = t.Weekday := by
  simp only [Weekday, Time.Weekday, abs_calendar t h, uint64]
  obtain ⟨h1, h2, h3, h4⟩ := h
  have e1 : (86400 * (t.days + 106751990353932) + t.secs + 86400) % 2 ^ 64
      = 604800 * ((t.days + 1) / 7 + 15250284336276) + (86400 * ((t.days + 1) % 7) + t.secs) := by
    omega
  rw [e1]
  have e2 : (604800 * ((t.days + 1) / 7 + 15250284336276)
      + (86400 * ((t.days + 1) % 7) + t.secs)) % 604800
      = 86400 * ((t.days + 1) % 7) + t.secs := by
    omega
  rw [e2]
  omega

theorem After_calendar (t u : Time) (ht : inRange t) (hu : inRange u) : After t u = t.After u := by
  obtain ⟨h1, h2, h3, h4⟩ := ht
  obtain ⟨g1, g2, g3, g4⟩ := hu
  simp only [After, Time.After, sec]
  rw [Bool.eq_iff_iff]
  simp only [decide_eq_true_eq, Bool.or_eq_true, Bool.and_eq_true]
  omega

/-- The year of a time in range. -/
theorem year_range (t : Time) (h : inRange t) :
    -292277022399 ≤ t.Year ∧ t.Year ≤ 292277024627 := by
  obtain ⟨h1, h2, -, -⟩ := h
  obtain ⟨n, a, b, c, yd, ha, ha3, hb, hb24, hc, hc3, hyd, hyd5, hl, hd, hy⟩ :=
    yearDay_cycles t.days
  simp only [Time.Year, hy]
  generalize t.days = d at *
  clear hy
  omega

/-- The remainder of Go's `%` is smaller than the divisor in absolute value. -/
theorem tmod_bounds (a b : Int) (hb : 0 < b) : -b < a.tmod b ∧ a.tmod b < b := by
  refine ⟨?_, Int.tmod_lt_of_pos a hb⟩
  rcases le_or_lt 0 a with h | h
  · have := Int.tmod_nonneg b h
    omega
  · have h1 := Int.tmod_lt_of_pos (-a) hb
    have h2 : (-a).tmod b = -(a.tmod b) := by
      rw [Int.tmod_def, Int.tmod_def, Int.neg_tdiv]
      ring
    omega

/-- For every year, negative ones included, `calculateEaster` hands `time.Date` a
month from 2 to 5 and a day from 1 to 31. -/
theorem easterMonthDay_bounds (year : Int) :
    2 ≤ (easterMonthDay year).1 ∧ (easterMonthDay year).1 ≤ 5
      ∧ 1 ≤ (easterMonthDay year).2 ∧ (easterMonthDay year).2 ≤ 31 := by
  simp only [easterMonthDay]
  have bg := tmod_bounds year 19 (by norm_num)
  generalize year.tmod 19 = g at bg ⊢
  generalize (19 * g + year.tdiv 100 - (year.tdiv 100).tdiv 4
    - (year.tdiv 100 - (year.tdiv 100 + 8).tdiv 25 + 1).tdiv 3 + 15) = x
  have be := tmod_bounds x 30 (by norm_num)
  generalize x.tmod 30 = ep at be ⊢
  generalize 32 + 2 * (year.tdiv 100).tmod 4 + 2 * (year.tmod 100).tdiv 4 - ep
    - (year.tmod 100).tmod 4 = z
  have bw := tmod_bounds z 7 (by norm_num)
  generalize z.tmod 7 = wc at bw ⊢
  have bq := tmod_bounds (g + 11 * ep + 22 * wc) 451 (by norm_num)
  have eq := Int.tmod_add_tdiv (g + 11 * ep + 22 * wc) 451
  generalize (g + 11 * ep + 22 * wc).tdiv 451 = mc at eq ⊢
  generalize (g + 11 * ep + 22 * wc).tmod 451 = r at bq eq
  have bs : 65 ≤ ep + wc - 7 * mc + 114 ∧ ep + wc - 7 * mc + 114 ≤ 163 := by omega
  generalize ep + wc - 7 * mc + 114 = s at bs ⊢
  rw [Int.tdiv_eq_ediv (by omega) (by norm_num), Int.tmod_eq_emod (by omega) (by norm_num)]
  omega

/-- Where nothing wraps, `Time.AddDate` makes the time the calendar gives. -/
theorem AddDate_calendar (t : Time) (h : inRange t) (a b c : Int)
    (ha1 : -2 ^ 62 ≤ a) (ha2 : a ≤ 2 ^ 62) (hb1 : -2 ^ 62 ≤ b) (hb2 : b ≤ 2 ^ 62)
    (hc1 : -2 ^ 62 ≤ c) (hc2 : c ≤ 2 ^ 62)
    (hy1 : -292277022399 ≤ normYear (t.Year + a) (t.Month + b))
    (hy2 : normYear (t.Year + a) (t.Month + b) ≤ 292277024627)
    (hD1 : -106751990353932 ≤ (t.AddDate a b c).days)
    (hD2 : (t.AddDate a b c).days ≤ 106751991167299) :
    AddDate t a b c = t.AddDate a b c := by
  obtain ⟨y1, y2⟩ := year_range t h
  obtain ⟨m1, m12, d1, dlen, -⟩ := civil_valid t
  have hlen := monthLen_le (isLeap t.Year) t.Month
  have e1 : int64 (t.Year + a) = t.Year + a := int64_id _ (by omega) (by omega)
  have e2 : int64 (t.Month + b) = t.Month + b := int64_id _ (by omega) (by omega)
  have e3 : int64 (t.Day + c) = t.Day + c := int64_id _ (by omega) (by omega)
  simp only [AddDate, Year_calendar t h, Month_calendar t h, Day_calendar t h,
    clock_calendar t h, e1, e2, e3]
  exact dateClock_calendar _ _ _ _ (by omega) (by omega) hy1 hy2 (by omega) (by omega) hD1 hD2
    h.2.2.1 h.2.2.2

theorem AddDate_one_calendar (t : Time) (h : inRange t) (h2 : t.days + 1 ≤ 106751991167299) :
    AddDate t 0 0 1 = t.AddDate 0 0 1 := by
  obtain ⟨y1, y2⟩ := year_range t h
  obtain ⟨m1, m12, -, -, -⟩ := civil_valid t
  have hd := AddDate_days t 1
  have hn : normYear (t.Year + 0) (t.Month + 0) = t.Year := by
    simp only [normYear, add_zero]
    omega
  exact AddDate_calendar t h 0 0 1 (by omega) (by omega) (by omega) (by omega) (by omega) (by omega)
    (by rw [hn]; exact y1) (by rw [hn]; exact y2) (by rw [hd]; have := h.1; omega)
    (by rw [hd]; omega)

/-- The day numbers of the first days of the years Go's seconds count holds. -/
theorem daysSinceEpoch_range (y : Int) (h1 : -292277022399 ≤ y) (h2 : y ≤ 292277024627) :
    -106751990353932 ≤ time.daysSinceEpoch y ∧ time.daysSinceEpoch y ≤ 106751991166961 := by
  obtain ⟨n, a, b, c, ha, ha3, hb, hb24, hc, hc3, rfl⟩ := year_cycles y
  rw [daysSinceEpoch_cycles n a b c ha ha3 hb hb24 hc hc3]
  omega

theorem monthOffset_le (leap : Bool) (m : Int) (hm : 1 ≤ m) (hm12 : m ≤ 12) :
    0 ≤ monthOffset leap m ∧ monthOffset leap m ≤ 335 := by
  obtain ⟨m, rfl⟩ := Int.eq_ofNat_of_zero_le (by omega : 0 ≤ m)
  have hm13 : m < 13 := by omega
  have key : ∀ leap : Bool, ∀ m : Nat, m < 13 → 1 ≤ m →
      0 ≤ monthOffset leap m ∧ monthOffset leap m ≤ 335 := by decide!
  exact key leap m hm13 (by omega)

/-- The dates of the years from -292277022399 to 292277024626 are in range, and
so is the day after each. -/
theorem Date_range (y m d : Int) (h1 : -292277022399 ≤ y) (h2 : y ≤ 292277024626)
    (hm : 1 ≤ m) (hm12 : m ≤ 12) (hd : 1 ≤ d) (hd2 : d ≤ 31) :
    inRange (time.Date y m d) ∧ (time.Date y m d).days + 1 ≤ 106751991167299 := by
  have hb := monthOffset_le (isLeap y) m hm hm12
  have r1 := daysSinceEpoch_range y h1 (by omega)
  have r2 := daysSinceEpoch_range (y + 1) (by omega) (by omega)
  have hs := daysSinceEpoch_succ y
  have hl : 365 ≤ yearLen y := by
    simp only [yearLen]
    split <;> omega
  have e : (time.Date y m d).days
      = time.daysSinceEpoch y + (monthOffset (isLeap y) m + (d - 1)) := by
    rw [Date_days _ _ _ hm hm12]; ring
  refine ⟨⟨?_, ?_, ?_, ?_⟩, ?_⟩
  · rw [e]; omega
  · rw [e]; omega
  · simp [Date_secs]
  · simp [Date_secs]
  · rw [e]; omega

theorem Date_calendar (y m d : Int) (h1 : -292277022399 ≤ y) (h2 : y ≤ 292277024626)
    (hm : 1 ≤ m) (hm12 : m ≤ 12) (hd : 1 ≤ d) (hd2 : d ≤ 31) :
    Date y m d = time.Date y m d := by
  have hr := (Date_range y m d h1 h2 hm hm12 hd hd2).1
  have hn : normYear y m = y := by
    simp only [normYear]
    omega
  have := dateClock_calendar y m d 0 (by omega) (by omega) (by rw [hn]; exact h1)
    (by rw [hn]; omega) (by omega) (by omega) hr.1 hr.2.1 le_rfl (by norm_num)
  rw [Date, this]
  rfl

theorem calculateEaster_calendar (year : Int) (h1 : -292277022399 ≤ year)
    (h2 : year ≤ 292277024626) :
    calculateEaster year = holidays.calculateEaster year
      ∧ inRange (holidays.calculateEaster year)
      ∧ (holidays.calculateEaster year).days + 1 ≤ 106751991167299 := by
  obtain ⟨b1, b2, b3, b4⟩ := easterMonthDay_bounds year
  exact ⟨Date_calendar year _ _ h1 h2 (by omega) (by omega) b3 b4,
    Date_range year _ _ h1 h2 (by omega) (by omega) b3 b4⟩

theorem inRange_succ (t : Time) (h : inRange t) (h2 : t.days + 1 ≤ 106751991167299) :
    inRange (t.AddDate 0 0 1) := by
  obtain ⟨a, b, c, d⟩ := h
  have hd := AddDate_days t 1
  exact ⟨by rw [hd]; omega, by rw [hd]; omega, c, d⟩

theorem getEasterMonday_calendar (year : Int) (h1 : -292277022399 ≤ year)
    (h2 : year ≤ 292277024626) :
    getEasterMonday year = holidays.getEasterMonday year
      ∧ inRange (holidays.getEasterMonday year).Date := by
  obtain ⟨e1, e2, e3⟩ := calculateEaster_calendar year h1 h2
  simp only [getEasterMonday, holidays.getEasterMonday, e1, AddDate_one_calendar _ e2 e3, true_and]
  exact inRange_succ _ e2 e3

/-- On the years from -292277022399 to 292277024626 `GetHolidays` returns the
list the calendar gives, and all its dates are in range. -/
theorem GetHolidays_calendar (year : Int) (h1 : -292277022399 ≤ year) (h2 : year ≤ 292277024626) :
    GetHolidays year = holidays.GetHolidays year
      ∧ ∀ h ∈ holidays.GetHolidays year, inRange h.Date := by
  have d := fun (m d : Int) (a : 1 ≤ m ∧ m ≤ 12 ∧ 1 ≤ d ∧ d ≤ 31) =>
    Date_calendar year m d h1 h2 a.1 a.2.1 a.2.2.1 a.2.2.2
  have r := fun (m d : Int) (a : 1 ≤ m ∧ m ≤ 12 ∧ 1 ≤ d ∧ d ≤ 31) =>
    (Date_range year m d h1 h2 a.1 a.2.1 a.2.2.1 a.2.2.2).1
  obtain ⟨e1, e2⟩ := getEasterMonday_calendar year h1 h2
  constructor
  · simp only [GetHolidays, holidays.GetHolidays, e1, d 1 1 (by decide), d 5 1 (by decide),
      d 5 8 (by decide), d 7 5 (by decide), d 7 6 (by decide), d 9 28 (by decide),
      d 10 28 (by decide), d 11 17 (by decide), d 12 24 (by decide), d 12 25 (by decide),
      d 12 26 (by decide)]
  · intro h hh
    simp only [holidays.GetHolidays, List.cons_append, List.nil_append, List.mem_cons,
      List.mem_singleton, List.not_mem_nil, or_false] at hh
    rcases hh with rfl | rfl | rfl | rfl | rfl | rfl | rfl | rfl | rfl | rfl | rfl | rfl
    · exact r 1 1 (by decide)
    · exact r 5 1 (by decide)
    · exact r 5 8 (by decide)
    · exact r 7 5 (by decide)
    · exact r 7 6 (by decide)
    · exact r 9 28 (by decide)
    · exact r 10 28 (by decide)
    · exact r 11 17 (by decide)
    · exact r 12 24 (by decide)
    · exact r 12 25 (by decide)
    · exact r 12 26 (by decide)
    · exact e2

theorem IsHoliday_calendar (date : Time) (hd : inRange date) :
    ∀ list : List Holiday, (∀ h ∈ list, inRange h.Date) →
      IsHoliday date list = holidays.IsHoliday date list := by
  intro list
  induction list with
  | nil => intro _; rfl
  | cons h rest ih =>
    intro hl
    have hh := hl h (List.mem_cons_self _ _)
    simp only [IsHoliday, holidays.IsHoliday, Year_calendar _ hh, Month_calendar _ hh,
      Day_calendar _ hh,
      Year_calendar _ hd, Month_calendar _ hd, Day_calendar _ hd,
      ih (fun x hx => hl x (List.mem_cons_of_mem _ hx))]

/-- The loop over Go's time runs as on the calendar while the days it visits
are in range. -/
theorem countLoop_calendar (excl : Bool) (hl : List Holiday) (last : Time) (hlast : inRange last)
    (hlast2 : last.days + 1 ≤ 106751991167299) (hhl : ∀ h ∈ hl, inRange h.Date) :
    ∀ (fuel : Nat) (day : Time) (acc : Int), inRange day → day.days ≤ last.days + 1 →
      countLoop excl hl last fuel day acc = calculator.countLoop excl hl last fuel day acc := by
  intro fuel
  induction fuel with
  | zero => intro day acc _ _; rfl
  | succ f ih =>
    intro day acc hday hle
    simp only [countLoop, calculator.countLoop, After_calendar day last hday hlast,
      Weekday_calendar day hday, IsHoliday_calendar day hday hl hhl]
    by_cases ha : day.After last = true
    · simp only [ha, if_true]
    · have hle2 : day.days ≤ last.days := by
        simp only [Time.After, Bool.or_eq_true, decide_eq_true_eq, Bool.and_eq_true] at ha
        omega
      have h1 : day.days + 1 ≤ 106751991167299 := by omega
      have hn := inRange_succ day hday h1
      have hd := AddDate_days day 1
      simp only [ha, if_false, AddDate_one_calendar day hday h1,
        ih (day.AddDate 0 0 1) _ hn (by rw [hd]; omega)]

/-- The bounds of the loop, `firstDay` and `lastDay`, are those of the calendar
when the year `time.Date` works on lies between -292277022399 and
292277024626. -/
theorem firstDay_calendar (month year : Int) (hm1 : -2 ^ 63 < month) (hm2 : month < 2 ^ 63)
    (hn1 : -292277022399 ≤ normYear year month) (hn2 : normYear year month ≤ 292277024626) :
    Date year month 1 = time.Date year month 1 ∧ inRange (time.Date year month 1)
      ∧ AddDate (time.Date year month 1) 0 1 (-1) = (time.Date year month 1).AddDate 0 1 (-1)
      ∧ inRange ((time.Date year month 1).AddDate 0 1 (-1))
      ∧ ((time.Date year month 1).AddDate 0 1 (-1)).days + 1 ≤ 106751991167299 := by
  have hnm1 : 1 ≤ normMonth month := by unfold normMonth; omega
  have hnm12 : normMonth month ≤ 12 := by unfold normMonth; omega
  have hnorm : time.Date year month 1 = time.Date (normYear year month) (normMonth month) 1 :=
    Date_norm _ _ _
  have hlen := monthLen_ge (isLeap (normYear year month)) (normMonth month)
  have hlen2 := monthLen_le (isLeap (normYear year month)) (normMonth month)
  obtain ⟨r1, r2⟩ := Date_range (normYear year month) (normMonth month) 1 hn1 hn2 hnm1 hnm12
    le_rfl (by norm_num)
  obtain ⟨q1, q2⟩ := Date_range (normYear year month) (normMonth month)
    (monthLen (isLeap (normYear year month)) (normMonth month)) hn1 hn2 hnm1 hnm12
    (by omega) hlen2
  rw [← hnorm] at r1 r2
  have hlast := calculator.lastDay_days year month
  have hadd := Date_add_day (normYear year month) (normMonth month) 1
    (monthLen (isLeap (normYear year month)) (normMonth month) - 1)
  rw [← hnorm] at hadd
  have hq : (time.Date (normYear year month) (normMonth month)
      (monthLen (isLeap (normYear year month)) (normMonth month))).days
      = ((time.Date year month 1).AddDate 0 1 (-1)).days := by
    have e : (1 : Int) + (monthLen (isLeap (normYear year month)) (normMonth month) - 1)
        = monthLen (isLeap (normYear year month)) (normMonth month) := by ring
    rw [e] at hadd
    rw [hlast, hadd]
    ring
  have hfirst : Date year month 1 = time.Date year month 1 := by
    have := dateClock_calendar year month 1 0 hm1 (by omega) hn1 (by omega) (by norm_num)
      (by norm_num) r1.1 r1.2.1 le_rfl (by norm_num)
    rw [Date, this]
    rfl
  obtain ⟨c1, c2, c3⟩ := Date_civil (normYear year month) (normMonth month) 1 hnm1 hnm12 le_rfl
    (by omega)
  rw [← hnorm] at c1 c2 c3
  have hlr : inRange ((time.Date year month 1).AddDate 0 1 (-1)) :=
    ⟨by rw [← hq]; exact q1.1, by rw [← hq]; exact q1.2.1, by simp [AddDate_secs, Date_secs],
      by simp [AddDate_secs, Date_secs]⟩
  have hny : normYear ((time.Date year month 1).Year + 0) ((time.Date year month 1).Month + 1)
        = normYear year month ∨
      normYear ((time.Date year month 1).Year + 0) ((time.Date year month 1).Month + 1)
        = normYear year month + 1 := by
    rw [c1, c2]
    generalize normYear year month = ny
    simp only [normYear, add_zero]
    omega
  refine ⟨hfirst, r1, ?_, hlr, by rw [← hq]; exact q2⟩
  exact AddDate_calendar _ r1 0 1 (-1) (by norm_num) (by norm_num) (by norm_num) (by norm_num)
    (by norm_num) (by norm_num) (by rcases hny with h | h <;> rw [h] <;> omega)
    (by rcases hny with h | h <;> rw [h] <;> omega) hlr.1 hlr.2.1

/-- On the years from -292277022399 to 292277024626 the calculator over Go's
time returns what it returns on the calendar. -/
theorem CountWorkingDaysWithHolidaysAndVacation_calendar (month year : Int) (country : String)
    (excl : Bool) (vac : Int) (hm1 : -2 ^ 63 < month) (hm2 : month < 2 ^ 63)
    (hy1 : -292277022399 ≤ year) (hy2 : year ≤ 292277024626)
    (hn1 : -292277022399 ≤ normYear year month) (hn2 : normYear year month ≤ 292277024626) :
    CountWorkingDaysWithHolidaysAndVacation month year country excl vac
      = calculator.CountWorkingDaysWithHolidaysAndVacation month year country excl vac := by
  obtain ⟨f1, f2, f3, f4, f5⟩ := firstDay_calendar month year hm1 hm2 hn1 hn2
  obtain ⟨g1, g2⟩ := GetHolidays_calendar year hy1 hy2
  have hlist : ∀ h ∈ (if (excl && country != "") = true then holidays.GetHolidays year else []),
      inRange h.Date := by
    intro h hh
    split at hh
    · exact g2 h hh
    · simp at hh
  have hfl : (time.Date year month 1).days
      ≤ ((time.Date year month 1).AddDate 0 1 (-1)).days + 1 := by
    rw [calculator.lastDay_days]
    have := monthLen_ge (isLeap (normYear year month)) (normMonth month)
    omega
  simp only [CountWorkingDaysWithHolidaysAndVacation,
    calculator.CountWorkingDaysWithHolidaysAndVacation, GetProvider, CzechHolidayProvider,
    holidays.GetProvider, holidays.CzechHolidayProvider, f1, f3, g1,
    countLoop_calendar excl _ _ f4 f5 hlist _ _ 0 f2 hfl]
  rfl

/-- The seconds count `time.Date` makes from a clock reading that is a multiple
of 128 is a multiple of 128 and fits in an `int64`. -/
theorem wrap_sec (D c : Int) (hc : c % 128 = 0) :
    int64 (int64 (uint64 (D * 86400 + c)) + absoluteToInternal) % 128 = 0
      ∧ int64 (int64 (uint64 (D * 86400 + c)) + absoluteToInternal) < 2 ^ 63 := by
  simp only [int64, uint64, absoluteToInternal]
  omega

theorem dateClock_sec (y m d c : Int) (hc : c % 128 = 0) :
    sec (dateClock y m d c) % 128 = 0 ∧ sec (dateClock y m d c) < 2 ^ 63 := by
  simp only [dateClock, sec_ofSec]
  exact wrap_sec _ _ hc

theorem clock_mod (t : Time) (h : sec t % 128 = 0) : clock t % 128 = 0 := by
  simp only [clock, abs, uint64, internalToAbsolute]
  omega

theorem AddDate_sec (t : Time) (a b c : Int) (h : sec t % 128 = 0) :
    sec (AddDate t a b c) % 128 = 0 ∧ sec (AddDate t a b c) < 2 ^ 63 :=
  dateClock_sec _ _ _ _ (clock_mod t h)

/-- When `lastDay` holds the seconds count 2^63 - 128, the largest multiple of
128 an `int64` holds, no day the loop reaches is after it: whatever the fuel,
the loop does not end. -/
theorem countLoop_none (excl : Bool) (hl : List Holiday) (last : Time)
    (hlast : sec last = 2 ^ 63 - 128) :
    ∀ (fuel : Nat) (day : Time) (acc : Int), sec day % 128 = 0 → sec day < 2 ^ 63 →
      countLoop excl hl last fuel day acc = none := by
  intro fuel
  induction fuel with
  | zero => intro day acc _ _; rfl
  | succ f ih =>
    intro day acc h1 h2
    have ha : After day last = false := by
      simp only [After, decide_eq_false_iff_not, hlast]
      omega
    have hn := AddDate_sec day 0 0 1 h1
    simp only [countLoop, ha, Bool.false_eq_true, if_false, ih _ _ hn.1 hn.2, ite_self]

/-- The loop of `CountWorkingDaysWithHolidaysAndVacation` does not end, whatever
the fuel, for a month whose `lastDay` holds the seconds count 2^63 - 128. -/
theorem loop_never_ends (excl : Bool) (hl : List Holiday) (month year : Int)
    (hlast : sec (AddDate (Date year month 1) 0 1 (-1)) = 2 ^ 63 - 128) (fuel : Nat) :
    countLoop excl hl (AddDate (Date year month 1) 0 1 (-1)) fuel (Date year month 1) 0
      = none :=
  countLoop_none excl hl _ hlast fuel _ 0 (dateClock_sec year month 1 0 (by decide)).1
    (dateClock_sec year month 1 0 (by decide)).2

/-- On the years from -292277022399 to 292277024626 and the months 1 to 12,
`CountWorkingDays` over Go's time returns what it returns on the calendar. -/
theorem CountWorkingDays_calendar (month year : Int) (h1 : 1 ≤ month) (h12 : month ≤ 12)
    (hy1 : -292277022399 ≤ year) (hy2 : year ≤ 292277024626) :
    CountWorkingDays month year = calculator.CountWorkingDays month year := by
  have hn : normYear year month = year := by unfold normYear; omega
  exact CountWorkingDaysWithHolidaysAndVacation_calendar month year "" false 0 (by omega) (by omega)
    hy1 hy2 (by rw [hn]; exact hy1) (by rw [hn]; exact hy2)

/-- The yearly total over Go's time is the total of the calendar. -/
theorem totalWorkingDays_calendar (year : Int) (hy1 : -292277022399 ≤ year)
    (hy2 : year ≤ 292277024626) :
    totalWorkingDays year = some (calculator.monthsTotal year 12 1) := by
  have h := fun (m : Int) (a : 1 ≤ m ∧ m ≤ 12) => CountWorkingDays_calendar m year a.1 a.2 hy1 hy2
  have e : List.range' 1 12 = [1, 2, 3, 4, 5, 6, 7, 8, 9, 10, 11, 12] := rfl
  simp only [totalWorkingDays, e, List.foldl_cons, List.foldl_nil, Nat.cast_ofNat, Nat.cast_one]
  rw [h 1 (by decide), h 2 (by decide), h 3 (by decide), h 4 (by decide), h 5 (by decide),
    h 6 (by decide), h 7 (by decide), h 8 (by decide), h 9 (by decide), h 10 (by decide),
    h 11 (by decide), h 12 (by decide)]
  simp only [calculator.CountWorkingDays_eq, Option.map_some', Option.some_bind,
    calculator.monthsTotal]
  norm_num
  ring

end go64


/-! ## Properties that depend on the range of Go's time -/

section RangeClaims

open time holidays calculator

/-- C1, as stated, fails where Go's seconds count wraps: for December of the
year 292277024627 `CountWorkingDays` returns 0 and for January of the year
-292277022400 it returns 20, while each of these months has 21 days from Monday
to Friday. -/
theorem C1_CountWorkingDays_counterexample :
    go64.CountWorkingDays 12 292277024627 = some 0
      ∧ weekdaysInMonth 292277024627 12 = 21
      ∧ go64.CountWorkingDays 1 (-292277022400) = some 20
      ∧ weekdaysInMonth (-292277022400) 1 = 21 := by
  decide!

/-- C1, amended: for every year from -292277022399 to 292277024626 and every
month in 1..12, `CountWorkingDays` returns the number of days `d` in
`1..daysInMonth year month` whose weekday is Monday to Friday, `daysInMonth`
being 28, 29, 30 or 31 by the Gregorian leap-year rule. -/
theorem C1_CountWorkingDays_eq_weekdaysInMonth (year month : Int) (h1 : 1 ≤ month)
    (h12 : month ≤ 12) (hy1 : -292277022399 ≤ year) (hy2 : year ≤ 292277024626) :
    go64.CountWorkingDays month year = some (weekdaysInMonth year month) := by
  rw [go64.CountWorkingDays_calendar month year h1 h12 hy1 hy2]
  exact CountWorkingDays_weekdaysInMonth year month h1 h12

/-- C1, amended, at the months of the test table: January 2024 has 23 such
days, February 2024 has 21, February 2023 has 20, April 2024 has 22, May 2024
has 23, July 2024 has 23 and December 2024 has 22. -/
theorem C1_CountWorkingDays_witness :
    go64.CountWorkingDays 1 2024 = some (weekdaysInMonth 2024 1)
      ∧ weekdaysInMonth 2024 1 = 23 ∧ go64.CountWorkingDays 1 2024 = some 23
      ∧ go64.CountWorkingDays 2 2024 = some 21 ∧ go64.CountWorkingDays 2 2023 = some 20
      ∧ go64.CountWorkingDays 4 2024 = some 22 ∧ go64.CountWorkingDays 5 2024 = some 23
      ∧ go64.CountWorkingDays 7 2024 = some 23 ∧ go64.CountWorkingDays 12 2024 = some 22 :=
  ⟨C1_CountWorkingDays_eq_weekdaysInMonth 2024 1 (by decide) (by decide) (by decide)
    (by decide), by decide!, by decide!, by decide!, by decide!, by decide!, by decide!,
    by decide!, by decide!⟩

/-- C2, as stated, fails because the call does not always return: for January
of the year 2677123390428354110, and for March of the year
-6899597539903195213, `lastDay` holds the seconds count 2^63 - 128, no day the
loop reaches is after it, and the loop does not end whatever the fuel. -/
theorem C2_result_nonneg_counterexample :
    go64.CountWorkingDaysWithHolidaysAndVacation 1 2677123390428354110 "" false 0 = none
      ∧ go64.sec (go64.AddDate (go64.Date 2677123390428354110 1 1) 0 1 (-1)) = 2 ^ 63 - 128
      ∧ (∀ fuel : Nat,
          go64.countLoop false [] (go64.AddDate (go64.Date 2677123390428354110 1 1) 0 1 (-1))
            fuel (go64.Date 2677123390428354110 1 1) 0 = none)
      ∧ go64.CountWorkingDaysWithHolidaysAndVacation 3 (-6899597539903195213) "" false 0 = none
      ∧ (∀ fuel : Nat,
          go64.countLoop false []
            (go64.AddDate (go64.Date (-6899597539903195213) 3 1) 0 1 (-1))
            fuel (go64.Date (-6899597539903195213) 3 1) 0 = none) :=
  ⟨by decide!, by decide!, go64.loop_never_ends _ _ _ _ (by decide!), by decide!,
    go64.loop_never_ends _ _ _ _ (by decide!)⟩

/-- C2, amended: for every month between the smallest and the largest Go `int`
and every year such that the year, and the year `time.Date` works on after
carrying the month, lie between -292277022399 and 292277024626, for every
country, `excludeHolidays` flag and every integer `vacationDays`, of any
magnitude and sign, `CountWorkingDaysWithHolidaysAndVacation` returns, and what
it returns is at least 0. -/
theorem C2_result_nonneg (month year : Int) (country : String) (excludeHolidays : Bool)
    (vacationDays : Int) (hm1 : -2 ^ 63 < month) (hm2 : month < 2 ^ 63)
    (hy1 : -292277022399 ≤ year) (hy2 : year ≤ 292277024626)
    (hn1 : -292277022399 ≤ normYear year month) (hn2 : normYear year month ≤ 292277024626) :
    ∃ r, go64.CountWorkingDaysWithHolidaysAndVacation month year country excludeHolidays
        vacationDays = some r ∧ 0 ≤ r := by
  rw [go64.CountWorkingDaysWithHolidaysAndVacation_calendar month year country excludeHolidays
    vacationDays hm1 hm2 hy1 hy2 hn1 hn2]
  exact ⟨_, CountWorkingDaysWithHolidaysAndVacation_eq month year country excludeHolidays
    vacationDays, clampResult_nonneg _ _⟩

/-- C2, amended, at July 2024 with exclusion for "CZ": with 1000 vacation days,
and with the largest and the smallest Go `int` as `vacationDays`, the result is
0, 0 and 0; with month 13 the call counts January 2025. -/
theorem C2_result_nonneg_witness :
    (∃ r, go64.CountWorkingDaysWithHolidaysAndVacation 7 2024 "CZ" true 1000 = some r ∧ 0 ≤ r)
      ∧ go64.CountWorkingDaysWithHolidaysAndVacation 7 2024 "CZ" true 1000 = some 0
      ∧ go64.CountWorkingDaysWithHolidaysAndVacation 7 2024 "CZ" true (2 ^ 63 - 1) = some 0
      ∧ go64.CountWorkingDaysWithHolidaysAndVacation 7 2024 "CZ" true (-(2 ^ 63)) = some 0
      ∧ go64.CountWorkingDaysWithHolidaysAndVacation 13 2024 "CZ" false 0 = some 23 :=
  ⟨C2_result_nonneg 7 2024 "CZ" true 1000 (by decide) (by decide) (by decide) (by decide)
    (by decide) (by decide), by decide!, by decide!, by decide!, by decide!⟩

/-- C3, as stated, fails because the calls do not always return: for December
of the year 7435819783533668, and for May of the year -6458463826633773213,
`lastDay` holds the seconds count 2^63 - 128 and the loop does not end whatever
the fuel, so there is neither a `W` nor a result. -/
theorem C3_vacation_clamp_counterexample :
    go64.CountWorkingDaysWithHolidays 12 7435819783533668 "CZ" false = none
      ∧ go64.CountWorkingDaysWithHolidaysAndVacation 12 7435819783533668 "CZ" false 5 = none
      ∧ (∀ fuel : Nat,
          go64.countLoop false [] (go64.AddDate (go64.Date 7435819783533668 12 1) 0 1 (-1))
            fuel (go64.Date 7435819783533668 12 1) 0 = none)
      ∧ go64.CountWorkingDaysWithHolidaysAndVacation 5 (-6458463826633773213) "CZ" false 5
          = none
      ∧ (∀ fuel : Nat,
          go64.countLoop false []
            (go64.AddDate (go64.Date (-6458463826633773213) 5 1) 0 1 (-1))
            fuel (go64.Date (-6458463826633773213) 5 1) 0 = none) :=
  ⟨by decide!, by decide!, go64.loop_never_ends _ _ _ _ (by decide!), by decide!,
    go64.loop_never_ends _ _ _ _ (by decide!)⟩

/-- C3, amended: for every month between the smallest and the largest Go `int`
and every year such that the year, and the year `time.Date` works on after
carrying the month, lie between -292277022399 and 292277024626, for every
country and `excludeHolidays` flag and every `vacationDays` from 0 up to the
largest Go `int`, the result is `max 0 (W - vacationDays)` where `W` is what
`CountWorkingDaysWithHolidays` returns; in particular it is 0 once
`vacationDays` reaches `W`. -/
theorem C3_vacation_clamp (month year : Int) (country : String) (excludeHolidays : Bool)
    (vacationDays : Int) (h0 : 0 ≤ vacationDays) (hmax : vacationDays < 2 ^ 63)
    (hm1 : -2 ^ 63 < month) (hm2 : month < 2 ^ 63)
    (hy1 : -292277022399 ≤ year) (hy2 : year ≤ 292277024626)
    (hn1 : -292277022399 ≤ normYear year month) (hn2 : normYear year month ≤ 292277024626) :
    ∃ W, go64.CountWorkingDaysWithHolidays month year country excludeHolidays = some W
      ∧ go64.CountWorkingDaysWithHolidaysAndVacation month year country excludeHolidays
          vacationDays = some (max 0 (W - vacationDays))
      ∧ (W ≤ vacationDays →
          go64.CountWorkingDaysWithHolidaysAndVacation month year country excludeHolidays
            vacationDays = some 0) := by
  rw [go64.CountWorkingDaysWithHolidays,
    go64.CountWorkingDaysWithHolidaysAndVacation_calendar month year country excludeHolidays
      vacationDays hm1 hm2 hy1 hy2 hn1 hn2,
    go64.CountWorkingDaysWithHolidaysAndVacation_calendar month year country excludeHolidays
      0 hm1 hm2 hy1 hy2 hn1 hn2]
  exact vacation_clamp month year country excludeHolidays vacationDays h0 hmax

/-- C3, amended, at July 2024 without holiday exclusion: 5 vacation days leave
18 of the 23 working days, 0 leave 23 and 30 leave 0. -/
theorem C3_vacation_clamp_witness :
    (∃ W, go64.CountWorkingDaysWithHolidays 7 2024 "CZ" false = some W
      ∧ go64.CountWorkingDaysWithHolidaysAndVacation 7 2024 "CZ" false 5
          = some (max 0 (W - 5))
      ∧ (W ≤ 5 → go64.CountWorkingDaysWithHolidaysAndVacation 7 2024 "CZ" false 5 = some 0))
      ∧ go64.CountWorkingDaysWithHolidays 7 2024 "CZ" false = some 23
      ∧ go64.CountWorkingDaysWithHolidaysAndVacation 7 2024 "CZ" false 5 = some 18
      ∧ go64.CountWorkingDaysWithHolidaysAndVacation 7 2024 "CZ" false 0 = some 23
      ∧ go64.CountWorkingDaysWithHolidaysAndVacation 7 2024 "CZ" false 30 = some 0 :=
  ⟨C3_vacation_clamp 7 2024 "CZ" false 5 (by decide) (by decide) (by decide) (by decide)
    (by decide) (by decide) (by decide) (by decide), by decide!, by decide!, by decide!,
    by decide!⟩

/-- C4, as stated, fails because the calls do not always return: for October
of the year 8224967750026373, and for July of the year -6017330113364351213,
`lastDay` holds the seconds count 2^63 - 128 and the loop does not end whatever
the fuel, with and without holiday exclusion, so there are no two results to
compare. -/
theorem C4_exclusion_le_counterexample :
    go64.CountWorkingDaysWithHolidaysAndVacation 10 8224967750026373 "CZ" true 0 = none
      ∧ go64.CountWorkingDaysWithHolidaysAndVacation 10 8224967750026373 "CZ" false 0 = none
      ∧ (∀ fuel : Nat,
          go64.countLoop true (go64.GetHolidays 8224967750026373)
            (go64.AddDate (go64.Date 8224967750026373 10 1) 0 1 (-1))
            fuel (go64.Date 8224967750026373 10 1) 0 = none)
      ∧ (∀ fuel : Nat,
          go64.countLoop false [] (go64.AddDate (go64.Date 8224967750026373 10 1) 0 1 (-1))
            fuel (go64.Date 8224967750026373 10 1) 0 = none)
      ∧ go64.CountWorkingDaysWithHolidaysAndVacation 7 (-6017330113364351213) "CZ" true 0
          = none
      ∧ (∀ fuel : Nat,
          go64.countLoop true (go64.GetHolidays (-6017330113364351213))
            (go64.AddDate (go64.Date (-6017330113364351213) 7 1) 0 1 (-1))
            fuel (go64.Date (-6017330113364351213) 7 1) 0 = none) :=
  ⟨by decide!, by decide!, go64.loop_never_ends _ _ _ _ (by decide!),
    go64.loop_never_ends _ _ _ _ (by decide!), by decide!,
    go64.loop_never_ends _ _ _ _ (by decide!)⟩

/-- C4, amended: for every month between the smallest and the largest Go `int`
and every year such that the year, and the year `time.Date` works on after
carrying the month, lie between -292277022399 and 292277024626, and for every
country, the count with holiday exclusion and no vacation is at most the count
without holiday exclusion and no vacation, and both calls return. -/
theorem C4_exclusion_le (month year : Int) (country : String)
    (hm1 : -2 ^ 63 < month) (hm2 : month < 2 ^ 63)
    (hy1 : -292277022399 ≤ year) (hy2 : year ≤ 292277024626)
    (hn1 : -292277022399 ≤ normYear year month) (hn2 : normYear year month ≤ 292277024626) :
    ∃ a b, go64.CountWorkingDaysWithHolidaysAndVacation month year country true 0 = some a
      ∧ go64.CountWorkingDaysWithHolidaysAndVacation month year country false 0 = some b
      ∧ a ≤ b := by
  rw [go64.CountWorkingDaysWithHolidaysAndVacation_calendar month year country true
      0 hm1 hm2 hy1 hy2 hn1 hn2,
    go64.CountWorkingDaysWithHolidaysAndVacation_calendar month year country false
      0 hm1 hm2 hy1 hy2 hn1 hn2]
  exact exclusion_le month year country

/-- C4, amended, at July 2024 for "CZ": 22 with exclusion, 23 without. -/
theorem C4_exclusion_le_witness :
    (∃ a b, go64.CountWorkingDaysWithHolidaysAndVacation 7 2024 "CZ" true 0 = some a
      ∧ go64.CountWorkingDaysWithHolidaysAndVacation 7 2024 "CZ" false 0 = some b ∧ a ≤ b)
      ∧ go64.CountWorkingDaysWithHolidaysAndVacation 7 2024 "CZ" true 0 = some 22
      ∧ go64.CountWorkingDaysWithHolidaysAndVacation 7 2024 "CZ" false 0 = some 23 :=
  ⟨C4_exclusion_le 7 2024 "CZ" (by decide) (by decide) (by decide) (by decide) (by decide)
    (by decide), by decide!, by decide!⟩

/-- C10, as stated, fails where Go's seconds count wraps: the holidays
`GetHolidays` returns for the year 300000000000 are dated in the years
-284554049254 and -284554049253, the first of them 22 February, and the last
entry, 19 May, is dated the day after `calculateEaster`, 18 May; those for the
year -292277022400 are dated in the years 292277026853 and 292277026854. -/
theorem C10_GetHolidays_dates_counterexample :
    (go64.GetHolidays 300000000000).map (fun h => go64.civil h.Date)
        = [(-284554049254, 2, 22), (-284554049254, 6, 23), (-284554049254, 6, 30),
            (-284554049254, 8, 27), (-284554049254, 8, 28), (-284554049254, 11, 20),
            (-284554049254, 12, 20), (-284554049253, 1, 9), (-284554049253, 2, 15),
            (-284554049253, 2, 16), (-284554049253, 2, 17), (-284554049254, 5, 19)]
      ∧ go64.civil (go64.calculateEaster 300000000000) = (-284554049254, 5, 18)
      ∧ (go64.GetHolidays (-292277022400)).map (fun h => go64.civil h.Date)
        = [(292277026853, 11, 8), (292277026854, 3, 9), (292277026854, 3, 16),
            (292277026854, 5, 13), (292277026854, 5, 14), (292277026854, 8, 6),
            (292277026854, 9, 5), (292277026854, 9, 25), (292277026854, 11, 1),
            (292277026854, 11, 2), (292277026854, 11, 3), (292277026854, 1, 7)] := by
  decide!

/-- C10, amended: for every year from -292277022399 to 292277024626, the first
11 entries of `GetHolidays` are dated, in order, 1 January, 1 May, 8 May,
5 July, 6 July, 28 September, 28 October, 17 November, 24, 25 and 26 December
of that year, and the 12th and last entry is dated the calendar day after
`calculateEaster year`: its seconds count is that of one day more and its year,
month and day are those of the following calendar date, so that Easter Sunday
on 31 March gives 1 April, as in 2024. -/
theorem C10_GetHolidays_dates (year : Int) (hy1 : -292277022399 ≤ year)
    (hy2 : year ≤ 292277024626) :
    ((go64.GetHolidays year).take 11).map (fun h => go64.civil h.Date)
        = [(year, 1, 1), (year, 5, 1), (year, 5, 8), (year, 7, 5), (year, 7, 6), (year, 9, 28),
            (year, 10, 28), (year, 11, 17), (year, 12, 24), (year, 12, 25), (year, 12, 26)]
      ∧ (go64.GetHolidays year).drop 11 = [go64.getEasterMonday year]
      ∧ go64.sec (go64.getEasterMonday year).Date
          = go64.sec (go64.calculateEaster year) + 86400
      ∧ go64.civil (go64.getEasterMonday year).Date
          = nextDay (go64.civil (go64.calculateEaster year))
      ∧ (go64.Month (go64.calculateEaster year) = 3 ∧ go64.Day (go64.calculateEaster year) = 31 →
          go64.civil (go64.getEasterMonday year).Date
            = (go64.Year (go64.calculateEaster year), 4, 1))
      ∧ go64.civil (go64.calculateEaster 2024) = (2024, 3, 31)
      ∧ go64.civil (go64.getEasterMonday 2024).Date = (2024, 4, 1) := by
  obtain ⟨g1, g2⟩ := go64.GetHolidays_calendar year hy1 hy2
  obtain ⟨e1, e2, -⟩ := go64.calculateEaster_calendar year hy1 hy2
  obtain ⟨m1, m2⟩ := go64.getEasterMonday_calendar year hy1 hy2
  obtain ⟨d1, -, d3, d4, d5, -, -⟩ := GetHolidays_dates year
  have hmap : ((holidays.GetHolidays year).take 11).map (fun h => go64.civil h.Date)
      = ((holidays.GetHolidays year).take 11).map (fun h => h.Date.civil) :=
    List.map_congr_left fun h hh => go64.civil_calendar _ (g2 h (List.mem_of_mem_take hh))
  rw [g1, e1, m1, hmap, go64.civil_calendar _ e2, go64.civil_calendar _ m2,
    go64.Year_calendar _ e2, go64.Month_calendar _ e2, go64.Day_calendar _ e2]
  refine ⟨d1, rfl, ?_, d4, d5, by decide!, by decide!⟩
  have hs : (holidays.getEasterMonday year).Date.secs = (holidays.calculateEaster year).secs :=
    AddDate_secs _ _ _ _
  simp only [go64.sec, d3, hs]
  ring

/-- C10, amended, for the year 2024: the twelve dates, the last of them 1 April,
the day after Easter Sunday, 31 March. -/
theorem C10_GetHolidays_dates_witness :
    (((go64.GetHolidays 2024).take 11).map (fun h => go64.civil h.Date)
        = [(2024, 1, 1), (2024, 5, 1), (2024, 5, 8), (2024, 7, 5), (2024, 7, 6), (2024, 9, 28),
            (2024, 10, 28), (2024, 11, 17), (2024, 12, 24), (2024, 12, 25), (2024, 12, 26)]
      ∧ (go64.GetHolidays 2024).drop 11 = [go64.getEasterMonday 2024]
      ∧ go64.sec (go64.getEasterMonday 2024).Date
          = go64.sec (go64.calculateEaster 2024) + 86400
      ∧ go64.civil (go64.getEasterMonday 2024).Date
          = nextDay (go64.civil (go64.calculateEaster 2024))
      ∧ (go64.Month (go64.calculateEaster 2024) = 3 ∧ go64.Day (go64.calculateEaster 2024) = 31 →
          go64.civil (go64.getEasterMonday 2024).Date
            = (go64.Year (go64.calculateEaster 2024), 4, 1))
      ∧ go64.civil (go64.calculateEaster 2024) = (2024, 3, 31)
      ∧ go64.civil (go64.getEasterMonday 2024).Date = (2024, 4, 1))
      ∧ nextDay (2024, 3, 31) = (2024, 4, 1) :=
  ⟨C10_GetHolidays_dates 2024 (by decide) (by decide), by decide⟩

/-- C14, as stated, fails where Go's seconds count wraps: for December of the
year 292277024627, and for January of the year -292277024626,
`CountWorkingDays` returns 0, which is less than 19. -/
theorem C14_CountWorkingDays_bounds_counterexample :
    go64.CountWorkingDays 12 292277024627 = some 0
      ∧ go64.CountWorkingDays 1 (-292277024626) = some 0 ∧ ¬ (19 ≤ (0 : Int)) := by
  decide!

/-- C14, amended: for every year from -292277022399 to 292277024626 and every
month in 1..12, `CountWorkingDays` returns a number that is at least 19 and at
most 23, hence not negative and not more than 31; it is in fact at least 20. -/
theorem C14_CountWorkingDays_bounds (year month : Int) (h1 : 1 ≤ month) (h12 : month ≤ 12)
    (hy1 : -292277022399 ≤ year) (hy2 : year ≤ 292277024626) :
    ∃ r, go64.CountWorkingDays month year = some r
      ∧ 19 ≤ r ∧ r ≤ 23 ∧ 0 ≤ r ∧ r ≤ 31 ∧ 20 ≤ r := by
  rw [go64.CountWorkingDays_calendar month year h1 h12 hy1 hy2]
  exact CountWorkingDays_bounds year month

/-- C14, amended, for February 2023, with 20 working days, and July 2024, with
23. -/
theorem C14_CountWorkingDays_bounds_witness :
    (∃ r, go64.CountWorkingDays 2 2023 = some r ∧ 19 ≤ r ∧ r ≤ 23 ∧ 0 ≤ r ∧ r ≤ 31 ∧ 20 ≤ r)
      ∧ go64.CountWorkingDays 2 2023 = some 20 ∧ go64.CountWorkingDays 7 2024 = some 23 :=
  ⟨C14_CountWorkingDays_bounds 2023 2 (by decide) (by decide) (by decide) (by decide),
    by decide!, by decide!⟩

/-- C15, as stated, fails where Go's seconds count wraps: the years
292277026855 and -292277024626 are not leap years and `CountWorkingDays`
returns 22 and 23 for their Februaries, not 20; the year -292277022400 is a
leap year and its February gets 23, neither 20 nor 21. -/
theorem C15_february_counterexample :
    go64.CountWorkingDays 2 292277026855 = some 22 ∧ isLeap 292277026855 = false
      ∧ go64.CountWorkingDays 2 (-292277024626) = some 23 ∧ isLeap (-292277024626) = false
      ∧ go64.CountWorkingDays 2 (-292277022400) = some 23 ∧ isLeap (-292277022400) = true := by
  decide!

/-- C15, amended: for every year from -292277022399 to 292277024626,
`CountWorkingDays 2 year` is exactly 20 when the year is not a Gregorian leap
year and is 20 or 21 when it is, so February of a leap year in that range never
has fewer working days than February of a non-leap year in that range; February
2024 has 21 and February 2023 has 20. -/
theorem C15_february (year year2 : Int) (hy1 : -292277022399 ≤ year)
    (hy2 : year ≤ 292277024626) (hz1 : -292277022399 ≤ year2) (hz2 : year2 ≤ 292277024626) :
    (∃ r, go64.CountWorkingDays 2 year = some r
        ∧ (¬ (year % 4 = 0 ∧ (year % 100 ≠ 0 ∨ year % 400 = 0)) → r = 20)
        ∧ ((year % 4 = 0 ∧ (year % 100 ≠ 0 ∨ year % 400 = 0)) → r = 20 ∨ r = 21))
      ∧ ((year % 4 = 0 ∧ (year % 100 ≠ 0 ∨ year % 400 = 0)) →
          ¬ (year2 % 4 = 0 ∧ (year2 % 100 ≠ 0 ∨ year2 % 400 = 0)) →
          ∃ a b, go64.CountWorkingDays 2 year = some a ∧ go64.CountWorkingDays 2 year2 = some b
            ∧ b ≤ a)
      ∧ go64.CountWorkingDays 2 2024 = some 21 ∧ go64.CountWorkingDays 2 2023 = some 20 := by
  obtain ⟨f1, f2, -, -⟩ := february_counts year year2
  rw [go64.CountWorkingDays_calendar 2 year (by decide) (by decide) hy1 hy2,
    go64.CountWorkingDays_calendar 2 year2 (by decide) (by decide) hz1 hz2]
  exact ⟨f1, f2, by decide!, by decide!⟩

/-- C15, amended, for the leap year 2024 and the non-leap year 2023. -/
theorem C15_february_witness :
    ((∃ r, go64.CountWorkingDays 2 2024 = some r
        ∧ (¬ ((2024 : Int) % 4 = 0 ∧ ((2024 : Int) % 100 ≠ 0 ∨ (2024 : Int) % 400 = 0)) → r = 20)
        ∧ (((2024 : Int) % 4 = 0 ∧ ((2024 : Int) % 100 ≠ 0 ∨ (2024 : Int) % 400 = 0)) →
            r = 20 ∨ r = 21))
      ∧ (((2024 : Int) % 4 = 0 ∧ ((2024 : Int) % 100 ≠ 0 ∨ (2024 : Int) % 400 = 0)) →
          ¬ ((2023 : Int) % 4 = 0 ∧ ((2023 : Int) % 100 ≠ 0 ∨ (2023 : Int) % 400 = 0)) →
          ∃ a b, go64.CountWorkingDays 2 2024 = some a ∧ go64.CountWorkingDays 2 2023 = some b
            ∧ b ≤ a)
      ∧ go64.CountWorkingDays 2 2024 = some 21 ∧ go64.CountWorkingDays 2 2023 = some 20)
      ∧ isLeap 2024 = true ∧ isLeap 2023 = false :=
  ⟨C15_february 2024 2023 (by decide) (by decide) (by decide) (by decide), by decide,
    by decide⟩

/-- C18, as stated, fails at the smallest Go `int`: for July 2024 without
exclusion the count is 23, and with `vacationDays` equal to -2^63 the
subtraction wraps to a negative number, so the result is 0: it is neither
`23 - vacationDays` nor more than 23.  It also fails because the call does not
always return: for August of the year 29926536828575756, and for March of the
year -4252795260286663212, `lastDay` holds the seconds count 2^63 - 128 and the
loop does not end whatever the fuel. -/
theorem C18_negative_vacation_counterexample :
    go64.CountWorkingDaysWithHolidaysAndVacation 7 2024 "CZ" false 0 = some 23
      ∧ go64.CountWorkingDaysWithHolidaysAndVacation 7 2024 "CZ" false (-(2 ^ 63)) = some 0
      ∧ (-(2 ^ 63) : Int) < 0 ∧ (0 : Int) ≠ 23 - (-(2 ^ 63)) ∧ ¬ ((0 : Int) > 23)
      ∧ go64.CountWorkingDaysWithHolidaysAndVacation 8 29926536828575756 "CZ" false (-5) = none
      ∧ (∀ fuel : Nat,
          go64.countLoop false [] (go64.AddDate (go64.Date 29926536828575756 8 1) 0 1 (-1))
            fuel (go64.Date 29926536828575756 8 1) 0 = none)
      ∧ go64.CountWorkingDaysWithHolidaysAndVacation 3 (-4252795260286663212) "CZ" false (-5)
          = none
      ∧ (∀ fuel : Nat,
          go64.countLoop false []
            (go64.AddDate (go64.Date (-4252795260286663212) 3 1) 0 1 (-1))
            fuel (go64.Date (-4252795260286663212) 3 1) 0 = none) :=
  ⟨by decide!, by decide!, by decide, by decide, by decide, by decide!,
    go64.loop_never_ends _ _ _ _ (by decide!), by decide!,
    go64.loop_never_ends _ _ _ _ (by decide!)⟩

/-- C18, amended: for every month between the smallest and the largest Go
`int` and every year such that the year, and the year `time.Date` works on
after carrying the month, lie between -292277022399 and 292277024626, for every
country and `excludeHolidays` flag and every negative `vacationDays`, with `W`
the result for no vacation days: if `W - vacationDays` is at most the largest
Go `int`, 2^63 - 1, the result is `W - vacationDays`, which is more than `W`. -/
theorem C18_negative_vacation (month year : Int) (country : String) (excludeHolidays : Bool)
    (vacationDays : Int) (hneg : vacationDays < 0)
    (hm1 : -2 ^ 63 < month) (hm2 : month < 2 ^ 63)
    (hy1 : -292277022399 ≤ year) (hy2 : year ≤ 292277024626)
    (hn1 : -292277022399 ≤ normYear year month) (hn2 : normYear year month ≤ 292277024626) :
    ∃ W, go64.CountWorkingDaysWithHolidaysAndVacation month year country excludeHolidays 0
        = some W
      ∧ (W - vacationDays ≤ 2 ^ 63 - 1 →
          go64.CountWorkingDaysWithHolidaysAndVacation month year country excludeHolidays
              vacationDays = some (W - vacationDays)
            ∧ W < W - vacationDays) := by
  rw [go64.CountWorkingDaysWithHolidaysAndVacation_calendar month year country excludeHolidays
      vacationDays hm1 hm2 hy1 hy2 hn1 hn2,
    go64.CountWorkingDaysWithHolidaysAndVacation_calendar month year country excludeHolidays
      0 hm1 hm2 hy1 hy2 hn1 hn2]
  exact negative_vacation month year country excludeHolidays vacationDays hneg

/-- C18, amended, at July 2024 without exclusion and -5 vacation days: the
result is 28, five more than 23. -/
theorem C18_negative_vacation_witness :
    (-5 : Int) < 0
      ∧ (∃ W, go64.CountWorkingDaysWithHolidaysAndVacation 7 2024 "CZ" false 0 = some W
        ∧ (W - (-5) ≤ 2 ^ 63 - 1 →
          go64.CountWorkingDaysWithHolidaysAndVacation 7 2024 "CZ" false (-5)
              = some (W - (-5))
            ∧ W < W - (-5)))
      ∧ go64.CountWorkingDaysWithHolidaysAndVacation 7 2024 "CZ" false (-5) = some 28 :=
  ⟨by decide, C18_negative_vacation 7 2024 "CZ" false (-5) (by decide) (by decide) (by decide)
    (by decide) (by decide) (by decide) (by decide), by decide!⟩

/-- C22, as stated, fails where Go's seconds count wraps: the twelve counts of
the year 292277024627 add up to 240 and those of the year -292277024626 to 241,
both less than 250. -/
theorem C22_yearly_total_counterexample :
    go64.totalWorkingDays 292277024627 = some 240
      ∧ go64.totalWorkingDays (-292277024626) = some 241 := by
  decide!

/-- C22, amended: for every year from -292277022399 to 292277024626, the sum
of `CountWorkingDays month year` over the months 1 to 12 is at least 250 and at
most 270; it is in fact between 260 and 262, and 262 for the year 2024. -/
theorem C22_yearly_total (year : Int) (hy1 : -292277022399 ≤ year)
    (hy2 : year ≤ 292277024626) :
    ∃ total, go64.totalWorkingDays year = some total ∧ 250 ≤ total ∧ total ≤ 270
      ∧ 260 ≤ total ∧ total ≤ 262 ∧ go64.totalWorkingDays 2024 = some 262 := by
  have hb := monthsTotal_year year
  exact ⟨_, go64.totalWorkingDays_calendar year hy1 hy2, by omega, by omega, hb.1, hb.2,
    by decide!⟩

/-- C22, amended, for the years 2024, with 262 working days, and 2023, with
260. -/
theorem C22_yearly_total_witness :
    (∃ total, go64.totalWorkingDays 2023 = some total ∧ 250 ≤ total ∧ total ≤ 270
      ∧ 260 ≤ total ∧ total ≤ 262 ∧ go64.totalWorkingDays 2024 = some 262)
      ∧ go64.totalWorkingDays 2023 = some 260 :=
  ⟨C22_yearly_total 2023 (by decide) (by decide), by decide!⟩

end RangeClaims
